import Mathlib

/-!
# go-eval: constant types, constant conversion and builtin call checking

A shallow embedding of the untyped-constant lattice (`consttype.go`), of the
builtin call checker (`checkbuiltin.go`), of the call checker
(`checkcallexpr.go`) and of the checker of composite literals
(`checkcompositelit.go`) of the `eval` package, together with the properties of
these functions that the specification states.

Conventions of the embedding.

* A Go `[]error` is a `List`; the `nil` slice and the empty list coincide.
* A Go `panic` (explicit, or raised by a failed type assertion, a nil
  dereference or a `reflect` accessor applied to the wrong kind) is the result
  `none` of a function returning `Option`.
* The host is a 64-bit platform: `int` and `uint` have 64 bits.
-/

namespace GoEval

/-! ## The host type model (`reflect.Kind`, `reflect.Type`) -/

/-- The kinds of `reflect.Kind`. -/
inductive Kind where
  | Invalid | Bool
  | Int | Int8 | Int16 | Int32 | Int64
  | Uint | Uint8 | Uint16 | Uint32 | Uint64 | Uintptr
  | Float32 | Float64 | Complex64 | Complex128
  | Array | Chan | Func | Interface | Map | Ptr | Slice | String | Struct
  | UnsafePointer
  deriving DecidableEq, Repr

/-- The predeclared types whose kind is not composite. -/
inductive BasicType where
  | Bool
  | Int | Int8 | Int16 | Int32 | Int64
  | Uint | Uint8 | Uint16 | Uint32 | Uint64 | Uintptr
  | Float32 | Float64 | Complex64 | Complex128
  | String | UnsafePointer
  deriving DecidableEq, Repr

/-- A concrete Go type as seen through `reflect.Type`; the identity of a type
is structural, a defined type being identified by its name. -/
inductive RType where
  | basic (b : BasicType)
  | named (name : String) (underlying : RType)
  | array (len : Nat) (elem : RType)
  | chan (elem : RType)
  | func (ins : List RType) (outs : List RType) (variadic : Bool)
  | iface (methods : List String)
  | map (key : RType) (elem : RType)
  | ptr (elem : RType)
  | slice (elem : RType)
  | struct (fields : List (String × RType))
  deriving Repr

mutual
/-- Identity of types (`==` on `reflect.Type`). -/
def RType.beq : RType → RType → Bool
  | .basic a, .basic b => a == b
  | .named n u, .named n2 u2 => n == n2 && RType.beq u u2
  | .array n e, .array n2 e2 => n == n2 && RType.beq e e2
  | .chan e, .chan e2 => RType.beq e e2
  | .func i o v, .func i2 o2 v2 => RType.beqList i i2 && RType.beqList o o2 && v == v2
  | .iface m, .iface m2 => m == m2
  | .map k e, .map k2 e2 => RType.beq k k2 && RType.beq e e2
  | .ptr e, .ptr e2 => RType.beq e e2
  | .slice e, .slice e2 => RType.beq e e2
  | .struct f, .struct f2 => RType.beqFields f f2
  | _, _ => false
/-- Identity of two lists of types. -/
def RType.beqList : List RType → List RType → Bool
  | [], [] => true
  | a :: as, b :: bs => RType.beq a b && RType.beqList as bs
  | _, _ => false
/-- Identity of two field lists. -/
def RType.beqFields : List (String × RType) → List (String × RType) → Bool
  | [], [] => true
  | (n, a) :: as, (m, b) :: bs => n == m && RType.beq a b && RType.beqFields as bs
  | _, _ => false
end

mutual
theorem RType.beq_eq : ∀ a b : RType, RType.beq a b = true → a = b
  | .basic a, b, h => by
      cases b <;> simp [RType.beq] at h ⊢
      exact h
  | .named n u, b, h => by
      cases b <;> simp [RType.beq] at h ⊢
      exact ⟨h.1, RType.beq_eq u _ h.2⟩
  | .array n e, b, h => by
      cases b <;> simp [RType.beq] at h ⊢
      exact ⟨h.1, RType.beq_eq e _ h.2⟩
  | .chan e, b, h => by
      cases b <;> simp [RType.beq] at h ⊢
      exact RType.beq_eq e _ h
  | .func i o v, b, h => by
      cases b <;> simp [RType.beq] at h ⊢
      exact ⟨RType.beqList_eq i _ h.1.1, RType.beqList_eq o _ h.1.2, h.2⟩
  | .iface m, b, h => by
      cases b <;> simp [RType.beq] at h ⊢
      exact h
  | .map k e, b, h => by
      cases b <;> simp [RType.beq] at h ⊢
      exact ⟨RType.beq_eq k _ h.1, RType.beq_eq e _ h.2⟩
  | .ptr e, b, h => by
      cases b <;> simp [RType.beq] at h ⊢
      exact RType.beq_eq e _ h
  | .slice e, b, h => by
      cases b <;> simp [RType.beq] at h ⊢
      exact RType.beq_eq e _ h
  | .struct f, b, h => by
      cases b <;> simp [RType.beq] at h ⊢
      exact RType.beqFields_eq f _ h
theorem RType.beqList_eq : ∀ a b : List RType, RType.beqList a b = true → a = b
  | [], b, h => by
      cases b <;> simp [RType.beqList] at h ⊢
  | a :: as, b, h => by
      cases b <;> simp [RType.beqList] at h ⊢
      exact ⟨RType.beq_eq a _ h.1, RType.beqList_eq as _ h.2⟩
theorem RType.beqFields_eq :
    ∀ a b : List (String × RType), RType.beqFields a b = true → a = b
  | [], b, h => by
      cases b <;> simp [RType.beqFields] at h ⊢
  | (n, a) :: as, b, h => by
      cases b with
      | nil => simp [RType.beqFields] at h
      | cons hd tl =>
        obtain ⟨m, t⟩ := hd
        simp [RType.beqFields] at h ⊢
        exact ⟨⟨h.1.1, RType.beq_eq a _ h.1.2⟩, RType.beqFields_eq as _ h.2⟩
end

mutual
theorem RType.beq_refl : ∀ a : RType, RType.beq a a = true
  | .basic a => by simp [RType.beq]
  | .named n u => by simp [RType.beq, RType.beq_refl u]
  | .array n e => by simp [RType.beq, RType.beq_refl e]
  | .chan e => by simp [RType.beq, RType.beq_refl e]
  | .func i o v => by simp [RType.beq, RType.beqList_refl i, RType.beqList_refl o]
  | .iface m => by simp [RType.beq]
  | .map k e => by simp [RType.beq, RType.beq_refl k, RType.beq_refl e]
  | .ptr e => by simp [RType.beq, RType.beq_refl e]
  | .slice e => by simp [RType.beq, RType.beq_refl e]
  | .struct f => by simp [RType.beq, RType.beqFields_refl f]
theorem RType.beqList_refl : ∀ a : List RType, RType.beqList a a = true
  | [] => by simp [RType.beqList]
  | a :: as => by simp [RType.beqList, RType.beq_refl a, RType.beqList_refl as]
theorem RType.beqFields_refl : ∀ a : List (String × RType), RType.beqFields a a = true
  | [] => by simp [RType.beqFields]
  | (n, a) :: as => by simp [RType.beqFields, RType.beq_refl a, RType.beqFields_refl as]
end

instance : DecidableEq RType := fun a b =>
  if h : RType.beq a b = true then isTrue (RType.beq_eq a b h)
  else isFalse (fun e => h (e ▸ RType.beq_refl a))

/-- The kind of a predeclared type. -/
def BasicType.Kind : BasicType → Kind
  | .Bool => .Bool
  | .Int => .Int | .Int8 => .Int8 | .Int16 => .Int16 | .Int32 => .Int32 | .Int64 => .Int64
  | .Uint => .Uint | .Uint8 => .Uint8 | .Uint16 => .Uint16 | .Uint32 => .Uint32
  | .Uint64 => .Uint64 | .Uintptr => .Uintptr
  | .Float32 => .Float32 | .Float64 => .Float64
  | .Complex64 => .Complex64 | .Complex128 => .Complex128
  | .String => .String | .UnsafePointer => .UnsafePointer

/-- The method `Kind` of `reflect.Type`: a defined type has the kind of its
underlying type. -/
def RType.Kind : RType → Kind
  | .basic b => b.Kind
  | .named _ u => u.Kind
  | .array _ _ => .Array
  | .chan _ => .Chan
  | .func _ _ _ => .Func
  | .iface _ => .Interface
  | .map _ _ => .Map
  | .ptr _ => .Ptr
  | .slice _ => .Slice
  | .struct _ => .Struct

/-- The size in bits of a sized numeric kind (`reflect.Type.Bits`), on a 64-bit
host. `Bits` panics on every other kind; the embedding calls it on sized
kinds only and gives 0 elsewhere. -/
def Kind.Bits : Kind → Nat
  | .Int8 | .Uint8 => 8
  | .Int16 | .Uint16 => 16
  | .Int32 | .Uint32 | .Float32 => 32
  | .Int | .Int64 | .Uint | .Uint64 | .Uintptr | .Float64 | .Complex64 => 64
  | .Complex128 => 128
  | _ => 0

/-- The method `Bits` of `reflect.Type`. -/
def RType.Bits (t : RType) : Nat := t.Kind.Bits

/-- The type `interface{}`: global `emptyInterface`. -/
def emptyInterface : RType := .iface []

/-- The type `[]byte`: global `byteSlice`. -/
def byteSlice : RType := .slice (.basic .Uint8)

/-- The type `int`: global `intType`. -/
def intType : RType := .basic .Int

/-- The type `float64`: global `f64`. -/
def f64 : RType := .basic .Float64

/-- The type `complex128`: global `c128`. -/
def c128 : RType := .basic .Complex128

/-- The type `float32`: global `f32`. -/
def f32 : RType := .basic .Float32

/-- The type `complex64`: global `c64`. -/
def c64 : RType := .basic .Complex64

/-! ## Untyped constant types (`consttype.go`) -/

/-- The seven implementations of the interface `ConstType`; each constructor
stands for the package-level value of the same name. -/
inductive ConstType where
  | ConstInt | ConstRune | ConstFloat | ConstComplex | ConstString | ConstNil | ConstBool
  deriving DecidableEq, Repr

/-- Go strings. -/
abbrev GoString := String

namespace ConstType

/-- The embedded `reflect.Type` of each constant type: `reflect.TypeOf(0)`,
`reflect.TypeOf('\000')`, `reflect.TypeOf(0.0)`, `reflect.TypeOf(0i)`,
`reflect.TypeOf("")`, `nil` and `reflect.TypeOf(false)`. -/
def Typ : ConstType → Option RType
  | ConstInt => some (.basic .Int)
  | ConstRune => some (.basic .Int32)
  | ConstFloat => some (.basic .Float64)
  | ConstComplex => some (.basic .Complex128)
  | ConstString => some (.basic .String)
  | ConstNil => none
  | ConstBool => some (.basic .Bool)

/-- The method `String`. -/
def String : ConstType → GoString
  | ConstInt => "int"
  | ConstRune => "rune"
  | ConstFloat => "float64"
  | ConstComplex => "complex128"
  | ConstString => "string"
  | ConstNil => "<T>"
  | ConstBool => "bool"

/-- The method `ErrorType`. -/
def ErrorType : ConstType → GoString
  | ConstInt => "untyped number"
  | ConstRune => "untyped number"
  | ConstFloat => "untyped number"
  | ConstComplex => "untyped number"
  | ConstString => "untyped string"
  | ConstNil => "nil"
  | ConstBool => "untyped bool"

/-- The method `DefaultPromotion`: `return c.Type` for each of the seven. -/
def DefaultPromotion (c : ConstType) : Option RType := c.Typ

/-- The method `IsIntegral`. -/
def IsIntegral : ConstType → Bool
  | ConstInt => true
  | ConstRune => true
  | _ => false

/-- The method `IsReal`. -/
def IsReal : ConstType → Bool
  | ConstInt => true
  | ConstRune => true
  | ConstFloat => true
  | _ => false

/-- The method `IsNumeric`. -/
def IsNumeric : ConstType → Bool
  | ConstInt => true
  | ConstRune => true
  | ConstFloat => true
  | ConstComplex => true
  | _ => false

end ConstType

/-- A value of the Go interface type `reflect.Type` as the package uses it: the
nil interface, one of the constant types, or a concrete host type. -/
inductive Ty where
  | nil
  | const (c : ConstType)
  | rtype (t : RType)
  deriving DecidableEq, Repr

/-- The method `Kind` through the interface; calling it on a nil interface or on
`ConstNil` (whose embedded type is nil) panics. -/
def Ty.Kind : Ty → Option Kind
  | .nil => none
  | .const c => c.Typ.map RType.Kind
  | .rtype t => some t.Kind

/-! ## Constant values -/

/-- The arbitrary-precision number `BigComplex`: a real and an imaginary part,
both rational (`big.Rat`). -/
structure BigComplex where
  Re : Rat
  Im : Rat
  deriving DecidableEq, Repr

/-- The struct `ConstNumber`: an untyped numeric constant with its constant
type. -/
structure ConstNumber where
  Typ : ConstType
  Value : BigComplex
  deriving DecidableEq, Repr

/-- A `reflect.Value`. A `float64` is its IEEE-754 bit pattern, a `complex128`
a pair of them. `int t i` is the value of a variable of the signed integer type
`t` after `SetInt`, and likewise for the other setters; `zero t` is the zero
value `hackedNew(t).Elem()` of a type of any other kind; `bytes t s` is the
string `s` converted to the byte-slice type `t`; `iface t v` is a variable of
interface type `t` holding `v`; `constNumber n` holds a `*ConstNumber`. -/
inductive Val where
  | invalid
  | int (t : RType) (i : Int)
  | uint (t : RType) (u : Nat)
  | float (t : RType) (f : Nat)
  | complex (t : RType) (re : Nat) (im : Nat)
  | string (t : RType) (s : String)
  | bool (t : RType) (b : Bool)
  | bytes (t : RType) (s : String)
  | zero (t : RType)
  | iface (t : RType) (v : Val)
  | constNumber (n : ConstNumber)
  deriving DecidableEq, Repr

/-- The type `constValue`, a `reflect.Value` under another name. -/
abbrev constValue := Val

/-- The method `IsValid` of `reflect.Value`. -/
def Val.IsValid : Val → Bool
  | .invalid => false
  | _ => true

/-- The expression `reflect.Value(c).Interface().(*ConstNumber)`; the type
assertion panics when the value holds anything else. -/
def Val.asConstNumber : Val → Option ConstNumber
  | .constNumber n => some n
  | _ => none

/-- Two's-complement reduction of an integer to `bits` bits, signed. -/
def wrapSigned (bits : Nat) (i : Int) : Int :=
  (i + 2 ^ (bits - 1)) % 2 ^ bits - 2 ^ (bits - 1)

/-- Reduction of an integer to `bits` bits, unsigned. -/
def wrapUnsigned (bits : Nat) (i : Int) : Nat :=
  (i % 2 ^ bits).toNat

/-- The method `SetInt` of `reflect.Value` on the zero value of the signed
integer type `t`: the argument is stored at the width of `t`. -/
def Val.SetInt (t : RType) (i : Int) : Val := .int t (wrapSigned t.Bits i)

/-- The method `SetUint` of `reflect.Value` on the zero value of the unsigned
integer type `t`. -/
def Val.SetUint (t : RType) (u : Nat) : Val := .uint t (u % 2 ^ t.Bits)

/-- Modelled from the spec: the integer that a number is forced to on
conversion to an integer target, its real part with the fractional part
discarded (`bigcomplex.go` is not among the sources). -/
def BigComplex.integerPart (z : BigComplex) : ℤ := Int.tdiv z.Re.num z.Re.den

/-- Modelled from the spec: the method `Real` of `BigComplex`, absent from the
sources. The real part, with the truncation flag raised when an imaginary part
is discarded. -/
def BigComplex.Real (z : BigComplex) : BigComplex × Bool :=
  (⟨z.Re, 0⟩, decide (z.Im ≠ 0))

/-- Modelled from the spec: the method `Int` of `BigComplex`, absent from the
sources. Truncation: the value has a fractional part being forced into an
integer target. Overflow: the magnitude exceeds the signed range of `bits`
bits. The result is produced in both cases, wrapped to `bits` bits. -/
def BigComplex.Int (z : BigComplex) (bits : ℕ) : ℤ × Bool × Bool :=
  let q := z.integerPart
  (wrapSigned bits q,
   decide (z.Re.den ≠ 1),
   decide (¬ (-(2 ^ (bits - 1) : ℤ) ≤ q ∧ q < 2 ^ (bits - 1))))

/-- Modelled from the spec: the method `Uint` of `BigComplex`, absent from the
sources. As `Int`, for the unsigned range of `bits` bits. -/
def BigComplex.Uint (z : BigComplex) (bits : ℕ) : ℕ × Bool × Bool :=
  let q := z.integerPart
  (wrapUnsigned bits q,
   decide (z.Re.den ≠ 1),
   decide (¬ (0 ≤ q ∧ q < 2 ^ bits)))

/-- The functions that the conversion of constants calls and that are neither
among the sources nor described by the specification; they are a parameter of
the conversion functions. `Float64` and `Complex128` are the floating-point
methods of `BigComplex`: a `float64` with its truncation and overflow flags, a
`complex128` with its overflow flag. `isNillable` tells whether a type has a
nil value. The last three are operations of the host on typed values:
`Float32` is the conversion `float32(f)` of a `float64`, given and returned as
a `float64` bit pattern; `ConvertibleTo` is the method of `reflect.Type` and
`Convert` the method of `reflect.Value` on a typed constant. -/
structure Helpers where
  Float64 : BigComplex → Nat × Bool × Bool
  Complex128 : BigComplex → (Nat × Nat) × Bool
  isNillable : RType → Bool
  Float32 : Nat → Nat
  ConvertibleTo : RType → RType → Bool
  Convert : Val → RType → Val

/-! ## Syntax nodes -/

/-- The annotations that the checker writes on a node: the embedded structs
`knownType` and `constValue`. -/
structure Ann where
  knownType : List Ty
  constValue : Val
  deriving Repr

/-- The struct `CallExpr` over a type `E` of nodes: the fields `Fun`, `Args` and
`Ellipsis` of the embedded `ast.CallExpr` (`Ellipsis` is a `token.Pos`, 0 being
`token.NoPos`) and the fields written by the checker. -/
structure CallExprOf (E : Type) where
  Fun : E
  Args : List E
  Ellipsis : Nat
  knownType : List Ty
  constValue : Val
  isBuiltin : Bool
  isTypeConversion : Bool
  arg0MultiValued : Bool
  argNEllipsis : Bool
  deriving Repr

/-- The struct `CompositeLit` over a type `E` of nodes: the fields `Type` and
`Elts` of the embedded `ast.CompositeLit` and the fields written by the
checker. -/
structure CompositeLitOf (E : Type) where
  Typ : Option E
  Elts : List E
  knownType : List Ty
  indices : List (Int × Int)
  fields : List Int
  length : Int
  deriving Repr

/-- Expression nodes. A node is an `ast.Expr` of the parser, or the checked node
that replaces it; the two share a constructor, the annotations of an unchecked
node being empty. Operators are written as in the source text (`"<-"` for
`token.ARROW`). -/
inductive Expr where
  | BadExpr
  | Ident (name : String) (ann : Ann)
  | Ellipsis (elt : Option Expr)
  | BasicLit (value : String) (ann : Ann)
  | FuncLit (typ : Expr) (ann : Ann)
  | CompositeLit (lit : CompositeLitOf Expr)
  | ParenExpr (x : Expr) (ann : Ann)
  | SelectorExpr (x : Expr) (sel : String) (ann : Ann)
  | IndexExpr (x : Expr) (index : Expr) (ann : Ann)
  | SliceExpr (x : Expr) (low : Option Expr) (high : Option Expr) (ann : Ann)
  | TypeAssertExpr (x : Expr) (typ : Option Expr) (ann : Ann)
  | CallExpr (call : CallExprOf Expr)
  | StarExpr (x : Expr) (ann : Ann)
  | UnaryExpr (op : String) (x : Expr) (ann : Ann)
  | BinaryExpr (x : Expr) (op : String) (y : Expr) (ann : Ann)
  | KeyValueExpr (key : Expr) (value : Expr)
  | ArrayType (len : Option Expr) (elt : Expr) (ann : Ann)
  | StructType (fields : List (String × Expr)) (ann : Ann)
  | FuncType (params : List (String × Expr)) (results : List (String × Expr)) (ann : Ann)
  | InterfaceType (methods : List (String × Expr)) (ann : Ann)
  | MapType (key : Expr) (value : Expr) (ann : Ann)
  | ChanType (value : Expr) (ann : Ann)
  deriving Repr

/-- The struct `CallExpr`. -/
abbrev CallExpr := CallExprOf Expr

/-- The struct `CompositeLit`. -/
abbrev CompositeLit := CompositeLitOf Expr

/-- The struct `Ctx`: the source text being checked. -/
structure Ctx where
  Input : String
  deriving Repr

/-- The struct `Env`, a black box to the checker: the names in scope. -/
structure Env where
  Vars : List (String × RType)
  Types : List (String × RType)
  deriving Repr

/-! ## Diagnostics (`errors.go`) -/

/-- The struct `ErrorContext`. The source keeps a pointer to the node; the
embedding keeps the node as it is when the diagnostic is built. -/
structure ErrorContext where
  Input : String
  Node : Expr
  deriving Repr

/-- The function `at` (a reserved word here, hence the name). -/
def atNode (ctx : Ctx) (expr : Expr) : ErrorContext := ⟨ctx.Input, expr⟩

/-- The diagnostics of `errors.go`, one constructor for each struct. -/
inductive Err where
  | ErrBadBasicLit (ctx : ErrorContext)
  | ErrUndefined (ctx : ErrorContext)
  | ErrInvalidIndirect (ctx : ErrorContext)
  | ErrUndefinedFieldOrMethod (ctx : ErrorContext)
  | ErrCallNonFuncType (ctx : ErrorContext)
  | ErrWrongNumberOfArgs (ctx : ErrorContext) (numArgs : Int)
  | ErrWrongArgType (ctx : ErrorContext) (call : CallExpr) (argPos : Int)
  | ErrInvalidEllipsisInCall (ctx : ErrorContext)
  | ErrMissingValue (ctx : ErrorContext)
  | ErrMultiInSingleContext (ctx : ErrorContext)
  | ErrBadMapIndex (ctx : ErrorContext) (keyT : Ty)
  | ErrNonIntegerIndex (ctx : ErrorContext)
  | ErrIndexOutOfBounds (ctx : ErrorContext) (x : Expr) (i : Int)
  | ErrInvalidIndexOperation (ctx : ErrorContext)
  | ErrInvalidSliceIndex (ctx : ErrorContext)
  | ErrInvalidSliceOperation (ctx : ErrorContext)
  | ErrUnaddressableSliceOperand (ctx : ErrorContext)
  | ErrInvalidIndex (ctx : ErrorContext) (indexValue : Val) (containerType : Ty)
  | ErrDivideByZero (ctx : ErrorContext)
  | ErrInvalidBinaryOperation (ctx : ErrorContext)
  | ErrInvalidUnaryOperation (ctx : ErrorContext)
  | ErrInvalidAddressOf (ctx : ErrorContext)
  | ErrInvalidRecvFrom (ctx : ErrorContext)
  | ErrBadConversion (ctx : ErrorContext) (fromT : Ty) (toT : Ty) (v : Val)
  | ErrBadConstConversion (ctx : ErrorContext) (fromT : Ty) (toT : Ty) (v : Val)
  | ErrTruncatedConstant (ctx : ErrorContext) (toT : ConstType) (constant : ConstNumber)
  | ErrOverflowedConstant (ctx : ErrorContext) (fromT : ConstType) (toT : Ty) (constant : ConstNumber)
  | ErrUntypedNil (ctx : ErrorContext)
  | ErrTypeUsedAsExpression (ctx : ErrorContext)
  | ErrUncomparableMapKey (ctx : ErrorContext) (keyT : Ty)
  | ErrMissingMapKey (ctx : ErrorContext)
  | ErrBadMapKey (ctx : ErrorContext) (keyT : Ty)
  | ErrDuplicateMapKey (ctx : ErrorContext)
  | ErrBadMapValue (ctx : ErrorContext) (eltT : Ty)
  | ErrBadArrayKey (ctx : ErrorContext)
  | ErrArrayKeyOutOfBounds (ctx : ErrorContext) (arrayT : Ty) (index : Int)
  | ErrDuplicateArrayKey (ctx : ErrorContext) (index : Int)
  | ErrBadArrayValue (ctx : ErrorContext) (eltT : Ty)
  | ErrUnknownStructField (ctx : ErrorContext) (structT : Ty) (field : String)
  | ErrInvalidStructField (ctx : ErrorContext)
  | ErrDuplicateStructField (ctx : ErrorContext) (field : String)
  | ErrMixedStructValues (ctx : ErrorContext)
  | ErrWrongNumberOfStructValues (ctx : ErrorContext)
  | ErrBadStructValue (ctx : ErrorContext) (eltT : Ty)
  | ErrInvalidTypeAssert (ctx : ErrorContext)
  | ErrImpossibleTypeAssert (ctx : ErrorContext)
  | ErrMissingCompositeLitType (ctx : ErrorContext)
  | ErrBuiltinWrongNumberOfArgs (ctx : ErrorContext)
  | ErrBuiltinWrongArgType (ctx : ErrorContext) (call : CallExpr)
  | ErrBuiltinMismatchedArgs (ctx : ErrorContext) (x : Ty) (y : Ty)
  | ErrBuiltinNonTypeArg (ctx : ErrorContext)
  | ErrBuiltinInvalidEllipsis (ctx : ErrorContext)
  | ErrMakeBadType (ctx : ErrorContext) (of : Ty)
  | ErrMakeNonIntegerArg (ctx : ErrorContext) (i : Int)
  | ErrMakeLenGtrThanCap (ctx : ErrorContext) (length : Int) (capacity : Int)
  | ErrAppendFirstArgNotSlice (ctx : ErrorContext)
  | ErrAppendFirstArgNotVariadic (ctx : ErrorContext)
  | ErrCopyArgsMustBeSlices (ctx : ErrorContext) (xT : Ty) (yT : Ty)
  | ErrCopyArgsHaveDifferentEltTypes (ctx : ErrorContext) (xT : Ty) (yT : Ty)
  | ErrDeleteFirstArgNotMap (ctx : ErrorContext)
  deriving Repr

/-! ## Promotion of constant types (`consttype.go`) -/

/-- The function `promoteConstNumbers`; `none` is its final panic. -/
def promoteConstNumbers (x y : ConstType) : Option ConstType :=
  match x with
  | .ConstInt =>
    match y with
    | .ConstInt => some x
    | .ConstRune | .ConstFloat | .ConstComplex => some y
    | _ => none
  | .ConstRune =>
    match y with
    | .ConstInt | .ConstRune => some x
    | .ConstFloat | .ConstComplex => some y
    | _ => none
  | .ConstFloat =>
    match y with
    | .ConstInt | .ConstRune | .ConstFloat => some x
    | .ConstComplex => some y
    | _ => none
  | .ConstComplex =>
    match y with
    | .ConstInt | .ConstRune | .ConstFloat | .ConstComplex => some x
    | _ => none
  | _ => none

/-- The function `promoteConsts`. The result is the pair of the returned
`ConstType` (`none` for the nil interface) and the diagnostics; the outer `none`
is a panic, that of `promoteConstNumbers` or the final one. -/
def promoteConsts (ctx : Ctx) (x y : ConstType) (xexpr yexpr : Expr) (xval yval : Val) :
    Option (Option ConstType × List Err) :=
  match x with
  | .ConstInt | .ConstRune | .ConstFloat | .ConstComplex =>
    match y with
    | .ConstInt | .ConstRune | .ConstFloat | .ConstComplex =>
      match promoteConstNumbers x y with
      | some t => some (some t, [])
      | none => none
    | _ => some (none, [.ErrBadConstConversion (atNode ctx yexpr) (.const y) (.const x) yval])
  | .ConstString =>
    match y with
    | .ConstString => some (some x, [])
    | .ConstInt | .ConstRune | .ConstFloat | .ConstComplex =>
      some (none, [.ErrBadConstConversion (atNode ctx xexpr) (.const x) (.const y) xval])
    | _ =>
      some (none, [.ErrBadConstConversion (atNode ctx xexpr) (.const x) (.const .ConstInt) xval,
                   .ErrBadConstConversion (atNode ctx yexpr) (.const y) (.const .ConstInt) yval])
  | .ConstNil =>
    match y with
    | .ConstNil => some (some x, [])
    | .ConstInt | .ConstRune | .ConstFloat | .ConstComplex =>
      some (none, [.ErrBadConstConversion (atNode ctx xexpr) (.const x) (.const y) xval])
    | _ =>
      some (none, [.ErrBadConstConversion (atNode ctx xexpr) (.const x) (.const .ConstInt) xval,
                   .ErrBadConstConversion (atNode ctx yexpr) (.const y) (.const .ConstInt) yval])
  | .ConstBool =>
    match y with
    | .ConstBool => some (some x, [])
    | .ConstInt | .ConstRune | .ConstFloat | .ConstComplex | .ConstString | .ConstNil =>
      some (none, [.ErrBadConstConversion (atNode ctx yexpr) (.const y) (.const x) yval])

/-! ## Conversion of constants to typed values (`consttype.go`) -/

/-- The Go conversion `string(i)` of an integer: the UTF-8 encoding of the code
point `i`, of U+FFFD when `i` is not a valid code point. -/
def stringOfInt (i : Int) : String :=
  if 0 ≤ i ∧ i.toNat.isValidChar then String.singleton (Char.ofNat i.toNat)
  else String.singleton (Char.ofNat 0xFFFD)

/-- The method `String` of `reflect.Value` (named `getString`, the name `String`
being that of the type) on a value of string kind. On any
other value the method gives a placeholder text of the host; such a value is
never the constant of a string expression and is outside the embedding
(`none`). -/
def Val.getString : Val → Option GoString
  | .string _ s => some s
  | _ => none

/-- The method `Bool` of `reflect.Value` (named `getBool`); it panics on a value that is not of
bool kind. -/
def Val.getBool : Val → Option Bool
  | .bool _ b => some b
  | _ => none

/-- The method `Convert` of `reflect.Value`, for the two conversions that the
package applies to a constant: any valid value to the empty interface, and a
string to the byte-slice type. The method panics on an invalid value; the other
conversions are outside the embedding (`none`). -/
def Val.Convert (v : Val) (t : RType) : Option Val :=
  if t = emptyInterface then
    if v.IsValid then some (.iface t v) else none
  else if t = byteSlice then
    match v with
    | .string _ s => some (.bytes t s)
    | _ => none
  else none

/-- The function `convertConstToTyped`, with the depth of its recursion as first
argument: the recursive call, made for the empty interface, converts to the
default promotion of the constant, which is never an interface type, so that
depth 2 is never exceeded (`convertConstToTypedFuel_stable`). -/
def convertConstToTypedFuel (h : Helpers) :
    Nat → Ctx → ConstType → constValue → RType → Bool → Expr → Option (constValue × List Err)
  | 0, _, _, _, _, _, _ => none
  | fuel + 1, ctx, fromT, c, toT, isTypeCast, expr =>
    let bad : Option (constValue × List Err) :=
      some (Val.invalid, [.ErrBadConstConversion (atNode ctx expr) (.const fromT) (.rtype toT) c])
    match fromT with
    | .ConstInt | .ConstRune | .ConstFloat | .ConstComplex =>
      match c.asConstNumber with
      | none => none
      | some underlying =>
        match toT.Kind with
        | .Int | .Int8 | .Int16 | .Int32 | .Int64 =>
          let r := underlying.Value.Int toT.Bits
          let errs : List Err := []
          let errs := if r.2.1 then
            errs ++ [.ErrTruncatedConstant (atNode ctx expr) .ConstInt underlying] else errs
          let errs := if r.2.2 then
            errs ++ [.ErrOverflowedConstant (atNode ctx expr) fromT (.rtype toT) underlying] else errs
          let errs := if underlying.Value.Real.2 then
            errs ++ [.ErrTruncatedConstant (atNode ctx expr) .ConstFloat underlying] else errs
          some (Val.SetInt toT r.1, errs)
        | .Uint | .Uint8 | .Uint16 | .Uint32 | .Uint64 =>
          let r := underlying.Value.Uint toT.Bits
          let errs : List Err := []
          let errs := if r.2.1 then
            errs ++ [.ErrTruncatedConstant (atNode ctx expr) .ConstInt underlying] else errs
          let errs := if r.2.2 then
            errs ++ [.ErrOverflowedConstant (atNode ctx expr) fromT (.rtype toT) underlying] else errs
          let errs := if underlying.Value.Real.2 then
            errs ++ [.ErrTruncatedConstant (atNode ctx expr) .ConstFloat underlying] else errs
          some (Val.SetUint toT r.1, errs)
        | .Float32 | .Float64 =>
          let r := h.Float64 underlying.Value
          let errs : List Err := if r.2.1 then
            [.ErrTruncatedConstant (atNode ctx expr) .ConstFloat underlying] else []
          some (.float toT r.1, errs)
        | .Complex64 | .Complex128 =>
          let r := h.Complex128 underlying.Value
          some (.complex toT r.1.1 r.1.2, [])
        | .String =>
          if isTypeCast && fromT.IsIntegral then
            let r := underlying.Value.Int 32
            if r.2.2 then
              some (Val.invalid,
                [.ErrOverflowedConstant (atNode ctx expr) fromT (.const .ConstString) underlying])
            else some (.string toT (stringOfInt r.1), [])
          else bad
        | .Interface =>
          if toT = emptyInterface then
            match underlying.Typ.DefaultPromotion with
            | none => none
            | some to2 =>
              match convertConstToTypedFuel h fuel ctx fromT c to2 isTypeCast expr with
              | none => none
              | some (cv, _) =>
                match cv.Convert emptyInterface with
                | none => none
                | some boxed => some (boxed, [])
          else bad
        | _ => bad
    | .ConstString =>
      if toT.Kind = .String then
        match c.getString with
        | none => none
        | some str => some (.string toT str, [])
      else if toT = emptyInterface then
        match c.Convert emptyInterface with
        | none => none
        | some boxed => some (boxed, [])
      else if isTypeCast && decide (toT = byteSlice) then
        match c.Convert toT with
        | none => none
        | some v => some (v, [])
      else bad
    | .ConstBool =>
      if toT.Kind = .Bool then
        match c.getBool with
        | none => none
        | some b => some (.bool toT b, [])
      else if toT = emptyInterface then
        match c.Convert emptyInterface with
        | none => none
        | some boxed => some (boxed, [])
      else bad
    | .ConstNil =>
      if h.isNillable toT then some (.zero toT, [])
      else bad

/-- The function `convertConstToTyped`. -/
def convertConstToTyped (h : Helpers) (ctx : Ctx) (fromT : ConstType) (c : constValue)
    (toT : RType) (isTypeCast : Bool) (expr : Expr) : Option (constValue × List Err) :=
  convertConstToTypedFuel h 2 ctx fromT c toT isTypeCast expr

/-- The function `castConstToTyped`. -/
def castConstToTyped (h : Helpers) (ctx : Ctx) (fromT : ConstType) (c : constValue)
    (toT : RType) (expr : Expr) : Option (constValue × List Err) :=
  convertConstToTyped h ctx fromT c toT true expr

/-- The function `promoteConstToTyped`. -/
def promoteConstToTyped (h : Helpers) (ctx : Ctx) (fromT : ConstType) (c : constValue)
    (toT : RType) (expr : Expr) : Option (constValue × List Err) :=
  convertConstToTyped h ctx fromT c toT false expr

/-! ## Accessors of nodes, types and values -/

/-- The method `KnownType` of a node: its embedded `knownType`; the nodes that
carry none have the nil list. -/
def Expr.KnownType : Expr → List Ty
  | .BadExpr => []
  | .Ident _ ann => ann.knownType
  | .Ellipsis _ => []
  | .BasicLit _ ann => ann.knownType
  | .FuncLit _ ann => ann.knownType
  | .CompositeLit lit => lit.knownType
  | .ParenExpr _ ann => ann.knownType
  | .SelectorExpr _ _ ann => ann.knownType
  | .IndexExpr _ _ ann => ann.knownType
  | .SliceExpr _ _ _ ann => ann.knownType
  | .TypeAssertExpr _ _ ann => ann.knownType
  | .CallExpr call => call.knownType
  | .StarExpr _ ann => ann.knownType
  | .UnaryExpr _ _ ann => ann.knownType
  | .BinaryExpr _ _ _ ann => ann.knownType
  | .KeyValueExpr _ _ => []
  | .ArrayType _ _ ann => ann.knownType
  | .StructType _ ann => ann.knownType
  | .FuncType _ _ ann => ann.knownType
  | .InterfaceType _ ann => ann.knownType
  | .MapType _ _ ann => ann.knownType
  | .ChanType _ ann => ann.knownType

/-- The method `Const` of a node: its embedded `constValue`, the invalid value
when the node is not constant. -/
def Expr.Const : Expr → Val
  | .Ident _ ann => ann.constValue
  | .BasicLit _ ann => ann.constValue
  | .FuncLit _ ann => ann.constValue
  | .ParenExpr _ ann => ann.constValue
  | .SelectorExpr _ _ ann => ann.constValue
  | .IndexExpr _ _ ann => ann.constValue
  | .SliceExpr _ _ _ ann => ann.constValue
  | .TypeAssertExpr _ _ ann => ann.constValue
  | .CallExpr call => call.constValue
  | .StarExpr _ ann => ann.constValue
  | .UnaryExpr _ _ ann => ann.constValue
  | .BinaryExpr _ _ _ ann => ann.constValue
  | .ArrayType _ _ ann => ann.constValue
  | .StructType _ ann => ann.constValue
  | .FuncType _ _ ann => ann.constValue
  | .InterfaceType _ ann => ann.constValue
  | .MapType _ _ ann => ann.constValue
  | .ChanType _ ann => ann.constValue
  | _ => Val.invalid

/-- The method `IsConst` of a node: whether its constant value is valid. -/
def Expr.IsConst (e : Expr) : Bool := e.Const.IsValid

/-- The method `Elem` of `reflect.Type`; it panics on a type that is not an
array, a channel, a map, a pointer or a slice. -/
def RType.Elem : RType → Option RType
  | .named _ u => u.Elem
  | .array _ e => some e
  | .chan e => some e
  | .map _ e => some e
  | .ptr e => some e
  | .slice e => some e
  | _ => none

/-- The method `Key` of `reflect.Type`; it panics on a type that is not a
map. -/
def RType.Key : RType → Option RType
  | .named _ u => u.Key
  | .map k _ => some k
  | _ => none

/-- The method `Len` of `reflect.Type`; it panics on a type that is not an
array. -/
def RType.Len : RType → Option Nat
  | .named _ u => u.Len
  | .array n _ => some n
  | _ => none

/-- The method `Elem` through the interface: on a constant type it is that of
the embedded type. -/
def Ty.Elem : Ty → Option RType
  | .nil => none
  | .const c => c.Typ.bind RType.Elem
  | .rtype t => t.Elem

/-- The method `Key` through the interface. -/
def Ty.Key : Ty → Option RType
  | .nil => none
  | .const c => c.Typ.bind RType.Key
  | .rtype t => t.Key

/-- The method `Len` through the interface. -/
def Ty.Len : Ty → Option Nat
  | .nil => none
  | .const c => c.Typ.bind RType.Len
  | .rtype t => t.Len

/-- The method `Len` of `reflect.Value` on a string: its length in bytes. The
values of the other kinds that have a length are not constants of the
embedding (`none`). -/
def Val.Len : Val → Option Nat
  | .string _ s => some s.utf8ByteSize
  | _ => none

/-- The function `constValueOf` on an `int`: the value `reflect.ValueOf(n)`. -/
def constValueOf (n : Int) : constValue := .int intType n

/-- The method `Float` of `reflect.Value` (named `getFloat`): the value as a
`float64`; it panics on a value that is not of float kind. -/
def Val.getFloat : Val → Option Nat
  | .float _ f => some f
  | _ => none

/-- The method `Complex` of `reflect.Value` (named `getComplex`): the value as
a `complex128`; it panics on a value that is not of complex kind. -/
def Val.getComplex : Val → Option (Nat × Nat)
  | .complex _ re im => some (re, im)
  | _ => none

/-- The signature of a function type: the parameter types (`NumIn`, `In`), the
result types (`NumOut`, `Out`) and `IsVariadic`; these methods of
`reflect.Type` panic on a type that is not a function. -/
def RType.sig : RType → Option (List RType × List RType × Bool)
  | .named _ u => u.sig
  | .func ins outs variadic => some (ins, outs, variadic)
  | _ => none

/-- The signature of a function type through the interface. -/
def Ty.sig : Ty → Option (List RType × List RType × Bool)
  | .nil => none
  | .const c => c.Typ.bind RType.sig
  | .rtype t => t.sig

/-- The fields of a struct type (`NumField`, `Field`); these methods of
`reflect.Type` panic on a type that is not a struct. -/
def RType.structFields : RType → Option (List (String × RType))
  | .named _ u => u.structFields
  | .struct fields => some fields
  | _ => none

/-- The fields of a struct type through the interface. -/
def Ty.structFields : Ty → Option (List (String × RType))
  | .nil => none
  | .const c => c.Typ.bind RType.structFields
  | .rtype t => t.structFields

/-- The position and the type of the first field of the name in a field
list. -/
def fieldByNameFrom (name : String) : List (String × RType) → Nat → Option (Nat × RType)
  | [], _ => none
  | (n, t) :: rest, i => if n == name then some (i, t) else fieldByNameFrom name rest (i + 1)

/-- The method `FieldByName` of `reflect.Type` on the fields that the struct
declares itself: the index and the type of the field, or `none` when the struct
has no such field. The outer `none` is the panic on a type that is not a
struct. -/
def Ty.FieldByName (t : Ty) (name : String) : Option (Option (Nat × RType)) :=
  t.structFields.map (fun fields => fieldByNameFrom name fields 0)

/-! ## Builtin calls (`checkbuiltin.go`) -/

/-- The checking functions of the package that the builtin checker calls and
that are not among the sources; they are a parameter of the checker.
`checkType` resolves a type expression: the checked node, the type, whether
the node denotes a type, and the diagnostics. `checkInteger` checks an integer
argument: the checked node, its value, whether it is accepted, and the
diagnostics. `fakeCheckExpr` annotates a node without checking it.
`CheckExpr` checks an expression: the checked node and the diagnostics.
`expectSingleType` gives the one type of a known-type list, or a diagnostic
(`none` is the nil error). `exprAssignableTo` tells whether an expression is
assignable to a type, with the diagnostics of the conversion of a constant.
`unhackType` gives the host type behind one of the private types of the
package. `checkBinaryOperands` checks the two operands of a binary operation:
the checked nodes, whether both are accepted, and the diagnostics.
`attemptBinaryOpConversion` tells whether an untyped constant may be promoted
to a type in a binary operation. `typeAssignableTo` is assignability of types.
`skipSuperfluousParens` gives the node inside the parentheses around it.
`checkExprAssignableTo` checks an expression and tells whether it is
assignable to a type: the checked node, the answer, and the diagnostics.
`checkArrayIndex` checks the key of an element of an array or slice literal:
the checked node, the index, whether it is accepted, and the diagnostics. -/
structure Checker where
  checkType : Ctx → Expr → Env → Expr × Ty × Bool × List Err
  checkInteger : Ctx → Expr → Env → Expr × Int × Bool × List Err
  fakeCheckExpr : Expr → Env → Expr
  CheckExpr : Ctx → Expr → Env → Expr × List Err
  expectSingleType : Ctx → List Ty → Expr → Ty × Option Err
  exprAssignableTo : Ctx → Expr → Ty → Bool × List Err
  unhackType : Ty → Ty
  checkBinaryOperands : Ctx → Expr → Expr → Env → Expr × Expr × Bool × List Err
  attemptBinaryOpConversion : Ty → Bool
  typeAssignableTo : Ty → Ty → Bool
  skipSuperfluousParens : Expr → Expr
  checkExprAssignableTo : Ctx → Expr → Ty → Env → Expr × Bool × List Err
  checkArrayIndex : Ctx → Expr → Env → Expr × Int × Bool × List Err

/-- The loop of `fakeCheckRemainingArgs` over the argument list: the arguments
from index `start` on are replaced by their fake-checked node. -/
def fakeCheckFrom (ck : Checker) (env : Env) : Nat → List Expr → List Expr
  | _, [] => []
  | 0, a :: as => ck.fakeCheckExpr a env :: fakeCheckFrom ck env 0 as
  | n + 1, a :: as => a :: fakeCheckFrom ck env n as

/-- The function `fakeCheckRemainingArgs`. -/
def fakeCheckRemainingArgs (ck : Checker) (call : CallExpr) (start : Nat) (env : Env) :
    CallExpr :=
  { call with Args := fakeCheckFrom ck env start call.Args }

/-- The variables that the loop of `checkBuiltinMake` updates: the call node,
the array `args`, the flag `skipOrdering` and the diagnostics. -/
structure MakeState where
  call : CallExpr
  args : List Int
  skipOrdering : Bool
  errs : List Err

/-- The loop `for i := 1; i < narg && i < len(call.Args); i += 1` of
`checkBuiltinMake`, from the index `i` on. The first argument bounds the number
of iterations; `narg` of them are never exceeded, the index starting at 1. -/
def checkBuiltinMakeLoop (ck : Checker) (ctx : Ctx) (env : Env) (narg : Nat) :
    Nat → Nat → MakeState → MakeState
  | 0, _, st => st
  | fuel + 1, i, st =>
    if i < narg ∧ i < st.call.Args.length then
      match st.call.Args.get? i with
      | none => st
      | some a =>
        let r := ck.checkInteger ctx a env
        let arg := r.1
        let iint := r.2.1
        let ok := r.2.2.1
        let moreErrs := r.2.2.2
        let call : CallExpr := { st.call with Args := st.call.Args.set i arg }
        let args := st.args.set i iint
        let st2 : MakeState :=
          if !ok then
            { call := call, args := args, skipOrdering := true,
              errs := st.errs ++ [.ErrMakeNonIntegerArg (atNode ctx arg) i] }
          else if !moreErrs.isEmpty then
            { call := call, args := args, skipOrdering := st.skipOrdering,
              errs := st.errs ++ moreErrs }
          else
            { call := call, args := args, skipOrdering := st.skipOrdering, errs := st.errs }
        checkBuiltinMakeLoop ck ctx env narg fuel (i + 1) st2
    else st

/-- The part of `checkBuiltinMake` that follows the `switch` on the kind of the
type: the loop over the size arguments, then the check of the number of
arguments or of the ordering of length and capacity. -/
def checkBuiltinMakeSizes (ck : Checker) (ctx : Ctx) (env : Env) (call : CallExpr)
    (narg : Nat) (skipOrdering : Bool) (errs : List Err) : CallExpr × List Err :=
  let st := checkBuiltinMakeLoop ck ctx env narg narg 1
    { call := call, args := [0, 0, 0], skipOrdering := skipOrdering, errs := errs }
  if st.call.Args.length > narg then
    let call2 := fakeCheckRemainingArgs ck st.call narg env
    (call2, st.errs ++ [.ErrBuiltinWrongNumberOfArgs (atNode ctx (.CallExpr call2))])
  else if !st.skipOrdering then
    if st.args.getD 1 0 > st.args.getD 2 0 then
      (st.call, st.errs ++
        [.ErrMakeLenGtrThanCap (atNode ctx (.CallExpr st.call)) (st.args.getD 1 0)
          (st.args.getD 2 0)])
    else (st.call, st.errs)
  else (st.call, st.errs)

/-- The function `checkBuiltinMake`; `none` is the panic of `of.Kind()` on a nil
type. -/
def checkBuiltinMake (ck : Checker) (ctx : Ctx) (call : CallExpr) (env : Env) :
    Option (CallExpr × List Err) :=
  match call.Args with
  | [] => some (call, [.ErrBuiltinWrongNumberOfArgs (atNode ctx (.CallExpr call))])
  | arg0 :: rest =>
    let r := ck.checkType ctx arg0 env
    let x := r.1
    let of := r.2.1
    let isType := r.2.2.1
    let errs := r.2.2.2
    if !isType then
      let call2 := fakeCheckRemainingArgs ck call 0 env
      some (call2, [.ErrBuiltinNonTypeArg (atNode ctx (call2.Args.headD arg0))])
    else
      let call1 : CallExpr := { call with knownType := [of], Args := x :: rest }
      if !errs.isEmpty then
        some (fakeCheckRemainingArgs ck call1 1 env, errs)
      else
        match of.Kind with
        | none => none
        | some .Slice =>
          let errs1 := if call1.Args.length = 1 then
            errs ++ [.ErrBuiltinWrongNumberOfArgs (atNode ctx (.CallExpr call1))] else errs
          some (checkBuiltinMakeSizes ck ctx env call1 3 false errs1)
        | some .Map | some .Chan =>
          some (checkBuiltinMakeSizes ck ctx env call1 2 true errs)
        | some _ => some (call1, errs ++ [.ErrMakeBadType (atNode ctx x) of])

/-- The method `visit` of `callRecvWalker`. The receiver `*found` is passed in
and returned with the result: a call that is not a type conversion, or a
receive from a channel, sets it. -/
def callRecvWalker.visit (found : Bool) (expr : Expr) : Bool × Bool :=
  if found then (found, false)
  else
    match expr with
    | .CallExpr call => if !call.isTypeConversion then (true, false) else (found, true)
    | .UnaryExpr op _ _ => if op == "<-" then (true, false) else (found, true)
    | _ => (found, true)

mutual
/-- Modelled from the spec: the function `walk`, absent from the sources. It
calls the visitor on a node and, when the visitor returns true, walks the
sub-expressions of the node in source order. The state of the visitor is
threaded through. -/
def walk {σ : Type} (visit : σ → Expr → σ × Bool) : Expr → σ → σ
  | e, s =>
    let r := visit s e
    if r.2 then
      match e with
      | .BadExpr => r.1
      | .Ident _ _ => r.1
      | .Ellipsis elt => walkOpt visit elt r.1
      | .BasicLit _ _ => r.1
      | .FuncLit typ _ => walk visit typ r.1
      | .CompositeLit ⟨typ, elts, _, _, _, _⟩ => walkList visit elts (walkOpt visit typ r.1)
      | .ParenExpr x _ => walk visit x r.1
      | .SelectorExpr x _ _ => walk visit x r.1
      | .IndexExpr x i _ => walk visit i (walk visit x r.1)
      | .SliceExpr x lo hi _ => walkOpt visit hi (walkOpt visit lo (walk visit x r.1))
      | .TypeAssertExpr x typ _ => walkOpt visit typ (walk visit x r.1)
      | .CallExpr ⟨f, args, _, _, _, _, _, _, _⟩ => walkList visit args (walk visit f r.1)
      | .StarExpr x _ => walk visit x r.1
      | .UnaryExpr _ x _ => walk visit x r.1
      | .BinaryExpr x _ y _ => walk visit y (walk visit x r.1)
      | .KeyValueExpr k v => walk visit v (walk visit k r.1)
      | .ArrayType len elt _ => walk visit elt (walkOpt visit len r.1)
      | .StructType fs _ => walkFields visit fs r.1
      | .FuncType ps rs _ => walkFields visit rs (walkFields visit ps r.1)
      | .InterfaceType ms _ => walkFields visit ms r.1
      | .MapType k v _ => walk visit v (walk visit k r.1)
      | .ChanType v _ => walk visit v r.1
    else r.1
/-- The walk of an optional sub-expression. -/
def walkOpt {σ : Type} (visit : σ → Expr → σ × Bool) : Option Expr → σ → σ
  | none, s => s
  | some e, s => walk visit e s
/-- The walk of a list of sub-expressions. -/
def walkList {σ : Type} (visit : σ → Expr → σ × Bool) : List Expr → σ → σ
  | [], s => s
  | e :: es, s => walkList visit es (walk visit e s)
/-- The walk of a list of named sub-expressions. -/
def walkFields {σ : Type} (visit : σ → Expr → σ × Bool) : List (String × Expr) → σ → σ
  | [], s => s
  | (_, e) :: es, s => walkFields visit es (walk visit e s)
end

/-- The `case reflect.Array` of `checkBuiltinLenCap`, which the pointer case
falls through to: the walk of the operand and, when it finds neither call nor
receive, the constant `xt.Len()`. The variable `xt` is that of the function:
the `xt` declared in the pointer case is out of scope here. -/
def checkBuiltinLenCapArray (call : CallExpr) (x : Expr) (xt : Ty) (errs : List Err) :
    Option (CallExpr × List Err) :=
  let w := walk callRecvWalker.visit x false
  if !w then
    match xt.Len with
    | none => none
    | some n => some ({ call with constValue := constValueOf n }, errs)
  else some (call, errs)

/-- The function `checkBuiltinLenCap`; `none` is a panic of `reflect`. -/
def checkBuiltinLenCap (ck : Checker) (ctx : Ctx) (call : CallExpr) (env : Env)
    (isLen : Bool) : Option (CallExpr × List Err) :=
  let call0 : CallExpr :=
    { call with knownType := [.rtype intType], argNEllipsis := call.Ellipsis != 0 }
  let errs0 : List Err :=
    if call0.argNEllipsis then [.ErrBuiltinInvalidEllipsis (atNode ctx (.CallExpr call0))]
    else []
  match call0.Args with
  | [arg0] =>
    let r := ck.CheckExpr ctx arg0 env
    let x := r.1
    let moreErrs := r.2
    let errs := if !moreErrs.isEmpty then errs0 ++ moreErrs else errs0
    let call1 : CallExpr := { call0 with Args := [x] }
    if !errs.isEmpty && !x.IsConst then some (call1, errs)
    else
      let r2 := ck.expectSingleType ctx x.KnownType x
      match r2.2 with
      | some err => some (call1, errs ++ [err])
      | none =>
        let xt := r2.1
        if xt = .const .ConstNil then some (call1, errs ++ [.ErrUntypedNil (atNode ctx x)])
        else
          match xt.Kind with
          | none => none
          | some .Chan | some .Slice => some (call1, errs)
          | some .Map =>
            if !isLen then some (call1, errs ++ [.ErrBuiltinWrongArgType (atNode ctx x) call1])
            else some (call1, errs)
          | some .Ptr =>
            match xt.Elem with
            | none => none
            | some xt2 =>
              if xt2.Kind != .Array then some (call1, errs)
              else checkBuiltinLenCapArray call1 x xt errs
          | some .Array => checkBuiltinLenCapArray call1 x xt errs
          | some .String =>
            if !isLen then some (call1, errs ++ [.ErrBuiltinWrongArgType (atNode ctx x) call1])
            else if x.IsConst then
              match x.Const.Len with
              | none => none
              | some n => some ({ call1 with constValue := constValueOf n }, errs)
            else some (call1, errs)
          | some _ => some (call1, errs ++ [.ErrBuiltinWrongArgType (atNode ctx x) call1])
  | _ =>
    let call1 := fakeCheckRemainingArgs ck call0 0 env
    some (call1, errs0 ++ [.ErrBuiltinWrongNumberOfArgs (atNode ctx (.CallExpr call1))])

/-- The first loop of the form of `append` without ellipsis, over the arguments
from index 1 on: every argument is checked; the result is the checked
arguments, the flags `skipTypeCheck` and the diagnostics. -/
def checkBuiltinAppendArgs (ck : Checker) (ctx : Ctx) (env : Env) :
    List Expr → List Err → List Expr × List Bool × List Err
  | [], errs => ([], [], errs)
  | a :: as, errs =>
    let r := ck.CheckExpr ctx a env
    let argI := r.1
    let moreErrs := r.2
    let errs1 := if !moreErrs.isEmpty then errs ++ moreErrs else errs
    let r2 : Bool × List Err :=
      if moreErrs.isEmpty || argI.IsConst then
        match (ck.expectSingleType ctx argI.KnownType argI).2 with
        | some err => (true, errs1 ++ [err])
        | none => (false, errs1)
      else (true, errs1)
    let rest := checkBuiltinAppendArgs ck ctx env as r2.2
    (argI :: rest.1, r2.1 :: rest.2.1, rest.2.2)

/-- The body of the second loop of the form of `append` without ellipsis, for
one argument that is not skipped: the promotion of an untyped constant to the
element type, or the comparison of the type of the argument with the element
type. The result is the diagnostics; `none` is a panic. -/
def checkBuiltinAppendElt (h : Helpers) (ck : Checker) (ctx : Ctx) (call : CallExpr)
    (eltT : RType) (argI : Expr) (errs : List Err) : Option (List Err) :=
  let constStep : Option (Bool × List Err) :=
    if argI.IsConst then
      match argI.KnownType.head? with
      | none => none
      | some (.const ct) =>
        match promoteConstToTyped h ctx ct argI.Const eltT argI with
        | none => none
        | some (x, moreErrs) =>
          if !x.IsValid then
            some (true, errs ++ [.ErrBuiltinWrongArgType (atNode ctx argI) call])
          else if !moreErrs.isEmpty then some (true, errs ++ moreErrs)
          else some (true, errs)
      | some _ => some (false, errs)
    else some (false, errs)
  match constStep with
  | none => none
  | some (ok, errs1) =>
    if !ok then
      match argI.KnownType.head? with
      | none => none
      | some t =>
        if ck.unhackType t != ck.unhackType (.rtype eltT) then
          some (errs1 ++ [.ErrBuiltinWrongArgType (atNode ctx argI) call])
        else some errs1
    else some errs1

/-- The second loop of the form of `append` without ellipsis, over the checked
arguments from index 1 on with their flags `skipTypeCheck`. -/
def checkBuiltinAppendElts (h : Helpers) (ck : Checker) (ctx : Ctx) (call : CallExpr)
    (eltT : RType) : List (Expr × Bool) → List Err → Option (List Err)
  | [], errs => some errs
  | (argI, skip) :: rest, errs =>
    if skip then checkBuiltinAppendElts h ck ctx call eltT rest errs
    else
      match checkBuiltinAppendElt h ck ctx call eltT argI errs with
      | none => none
      | some errs1 => checkBuiltinAppendElts h ck ctx call eltT rest errs1

/-- The function `checkBuiltinAppend`; `none` is a panic. -/
def checkBuiltinAppend (h : Helpers) (ck : Checker) (ctx : Ctx) (call : CallExpr)
    (env : Env) : Option (CallExpr × List Err) :=
  match call.Args with
  | [] =>
    let call1 := fakeCheckRemainingArgs ck call 0 env
    some (call1, [.ErrBuiltinWrongNumberOfArgs (atNode ctx (.CallExpr call1))])
  | arg0 :: rest =>
    let r := ck.CheckExpr ctx arg0 env
    let slice := r.1
    let errs := r.2
    let call1 : CallExpr := { call with Args := slice :: rest }
    -- the block `if errs == nil || slice.IsConst()`
    let typed : Option (Option (CallExpr × List Err) × Ty × Bool × CallExpr) :=
      if errs.isEmpty || slice.IsConst then
        let r2 := ck.expectSingleType ctx slice.KnownType slice
        match r2.2 with
        | some err =>
          some (some (fakeCheckRemainingArgs ck call1 1 env, errs ++ [err]), r2.1, false, call1)
        | none =>
          let sliceT := r2.1
          if sliceT ≠ .const .ConstNil then
            match sliceT.Kind with
            | none => none
            | some k =>
              some (none, sliceT, k == .Slice, { call1 with knownType := [sliceT] })
          else some (none, sliceT, false, call1)
      else some (none, .nil, false, call1)
    match typed with
    | none => none
    | some (some early, _, _, _) => some early
    | some (none, sliceT, isSlice, call2) =>
      if call2.Ellipsis != 0 then
        let call3 : CallExpr := { call2 with argNEllipsis := true }
        match rest with
        | [] => some (call3, errs ++ [.ErrAppendFirstArgNotVariadic (atNode ctx slice)])
        | [a1] =>
          let r3 := ck.CheckExpr ctx a1 env
          let arg1 := r3.1
          let moreErrs := r3.2
          let call4 : CallExpr := { call3 with Args := [slice, arg1] }
          if !moreErrs.isEmpty && !slice.IsConst then some (call4, errs ++ moreErrs)
          else
            let r4 := ck.expectSingleType ctx arg1.KnownType arg1
            match r4.2 with
            | some err => some (call4, errs ++ [err])
            | none =>
              let arg1T := r4.1
              if isSlice then
                if arg1T ≠ sliceT then
                  if sliceT = .rtype byteSlice then
                    match arg1T.Kind with
                    | none => none
                    | some k =>
                      if k == .String then some (call4, errs)
                      else
                        some (call4,
                          errs ++ [.ErrBuiltinWrongArgType (atNode ctx arg1) call4])
                  else
                    some (call4, errs ++ [.ErrBuiltinWrongArgType (atNode ctx arg1) call4])
                else some (call4, errs)
              else if sliceT ≠ .nil then
                some (call4, errs ++ [.ErrAppendFirstArgNotSlice (atNode ctx slice)])
              else some (call4, errs)
        | _ => some (call3, errs ++ [.ErrBuiltinWrongNumberOfArgs (atNode ctx (.CallExpr call3))])
      else
        let loop1 := checkBuiltinAppendArgs ck ctx env rest errs
        let call3 : CallExpr := { call2 with Args := slice :: loop1.1 }
        if isSlice then
          match sliceT.Elem with
          | none => none
          | some eltT =>
            match checkBuiltinAppendElts h ck ctx call3 eltT (loop1.1.zip loop1.2.1)
                loop1.2.2 with
            | none => none
            | some errs2 => some (call3, errs2)
        else if sliceT ≠ .nil then
          some (call3, loop1.2.2 ++ [.ErrAppendFirstArgNotSlice (atNode ctx slice)])
        else some (call3, loop1.2.2)

/-- The function `checkBuiltinCopyExpr`; `none` is a panic. -/
def checkBuiltinCopyExpr (ck : Checker) (ctx : Ctx) (call : CallExpr) (env : Env) :
    Option (CallExpr × List Err) :=
  let call0 : CallExpr :=
    { call with knownType := [.rtype intType], argNEllipsis := call.Ellipsis != 0 }
  let errs0 : List Err :=
    if call0.argNEllipsis then [.ErrBuiltinInvalidEllipsis (atNode ctx (.CallExpr call0))]
    else []
  match call0.Args with
  | [a0, a1] =>
    let rx := ck.CheckExpr ctx a0 env
    let x := rx.1
    let xErrs := rx.2
    let errs1 := if !xErrs.isEmpty then errs0 ++ xErrs else errs0
    let sx : Ty × List Err :=
      if xErrs.isEmpty || x.IsConst then
        let r := ck.expectSingleType ctx x.KnownType x
        match r.2 with
        | some err => (r.1, errs1 ++ [err])
        | none => (r.1, errs1)
      else (.nil, errs1)
    let xt := sx.1
    let ry := ck.CheckExpr ctx a1 env
    let y := ry.1
    let yErrs := ry.2
    let errs2 := if !yErrs.isEmpty then sx.2 ++ yErrs else sx.2
    let call1 : CallExpr := { call0 with Args := [x, y] }
    let sy : Ty × List Err :=
      if yErrs.isEmpty || y.IsConst then
        let r := ck.expectSingleType ctx y.KnownType y
        match r.2 with
        | some err => (r.1, errs2 ++ [err])
        | none => (r.1, errs2)
      else (.nil, errs2)
    let yt := sy.1
    let errs3 := sy.2
    if xt ≠ .nil ∧ yt ≠ .nil then
      -- `xk` and `yk` keep their zero value, `reflect.Invalid`, on the untyped nil
      let kx : Option (Kind × List Err) :=
        if xt = .const .ConstNil then some (.Invalid, errs3 ++ [.ErrUntypedNil (atNode ctx x)])
        else xt.Kind.map (fun k => (k, errs3))
      match kx with
      | none => none
      | some (xk, errs4) =>
        let ky : Option (Kind × List Err) :=
          if yt = .const .ConstNil then
            some (.Invalid, errs4 ++ [.ErrUntypedNil (atNode ctx y)])
          else yt.Kind.map (fun k => (k, errs4))
        match ky with
        | none => none
        | some (yk, errs5) =>
          if xk != .Slice || (yk != .Slice && yk != .String) then
            some (call1,
              errs5 ++ [.ErrCopyArgsMustBeSlices (atNode ctx (.CallExpr call1)) xt yt])
          else
            match yt.Kind with
            | none => none
            | some ytk =>
              if ytk == .String then
                if xt ≠ .rtype byteSlice then
                  some (call1, errs5 ++
                    [.ErrCopyArgsHaveDifferentEltTypes (atNode ctx (.CallExpr call1)) xt yt])
                else some (call1, errs5)
              else
                match xt.Elem, yt.Elem with
                | some xe, some ye =>
                  if ck.unhackType (.rtype xe) != ck.unhackType (.rtype ye) then
                    some (call1, errs5 ++
                      [.ErrCopyArgsHaveDifferentEltTypes (atNode ctx (.CallExpr call1)) xt yt])
                  else some (call1, errs5)
                | _, _ => none
    else some (call1, errs3)
  | _ =>
    let call1 := fakeCheckRemainingArgs ck call0 0 env
    some (call1, errs0 ++ [.ErrBuiltinWrongNumberOfArgs (atNode ctx (.CallExpr call1))])

/-- The function `checkBuiltinDeleteExpr`; `none` is a panic. -/
def checkBuiltinDeleteExpr (ck : Checker) (ctx : Ctx) (call : CallExpr) (env : Env) :
    Option (CallExpr × List Err) :=
  let call0 : CallExpr :=
    { call with knownType := [.rtype intType], argNEllipsis := call.Ellipsis != 0 }
  let errs0 : List Err :=
    if call0.argNEllipsis then [.ErrBuiltinInvalidEllipsis (atNode ctx (.CallExpr call0))]
    else []
  match call0.Args with
  | [a0, a1] =>
    let rm := ck.CheckExpr ctx a0 env
    let m := rm.1
    let mErrs := rm.2
    let errs1 := if !mErrs.isEmpty then errs0 ++ mErrs else errs0
    -- on a failure of `expectSingleType` the source appends `moreErrs`, not `err`
    let sm : Ty × List Err :=
      if mErrs.isEmpty || m.IsConst then
        let r := ck.expectSingleType ctx m.KnownType m
        match r.2 with
        | some _ => (r.1, errs1 ++ mErrs)
        | none => (r.1, errs1)
      else (.nil, errs1)
    let mapT := sm.1
    let rk := ck.CheckExpr ctx a1 env
    let key := rk.1
    let kErrs := rk.2
    let errs2 := if !kErrs.isEmpty then sm.2 ++ kErrs else sm.2
    let call1 : CallExpr := { call0 with Args := [m, key] }
    let sk : Ty × List Err :=
      if kErrs.isEmpty || key.IsConst then
        let r := ck.expectSingleType ctx key.KnownType key
        match r.2 with
        | some err => (r.1, errs2 ++ [err])
        | none => (r.1, errs2)
      else (.nil, errs2)
    let keyT := sk.1
    let errs3 := sk.2
    if mapT ≠ .nil then
      if mapT = .const .ConstNil then
        some (call1, errs3 ++ [.ErrDeleteFirstArgNotMap (atNode ctx m)])
      else
        match mapT.Kind with
        | none => none
        | some k =>
          if k != .Map then some (call1, errs3 ++ [.ErrDeleteFirstArgNotMap (atNode ctx m)])
          else if keyT ≠ .nil then
            match mapT.Elem with
            | none => none
            | some elemT =>
              let r := ck.exprAssignableTo ctx key (.rtype elemT)
              if !r.1 then
                some (call1, errs3 ++ [.ErrBuiltinWrongArgType (atNode ctx key) call1])
              else if !r.2.isEmpty then some (call1, errs3 ++ r.2)
              else some (call1, errs3)
          else some (call1, errs3)
    else some (call1, errs3)
  | _ =>
    let call1 := fakeCheckRemainingArgs ck call0 0 env
    some (call1, errs0 ++ [.ErrBuiltinWrongNumberOfArgs (atNode ctx (.CallExpr call1))])

/-- The function `checkBuiltinNew`; `none` is the panic of `reflect.PtrTo` on a
type that is not a host type. -/
def checkBuiltinNew (ck : Checker) (ctx : Ctx) (call : CallExpr) (env : Env) :
    Option (CallExpr × List Err) :=
  let call0 : CallExpr := { call with argNEllipsis := call.Ellipsis != 0 }
  let errs0 : List Err :=
    if call0.argNEllipsis then [.ErrBuiltinInvalidEllipsis (atNode ctx (.CallExpr call0))]
    else []
  match call0.Args with
  | [] => some (call0, errs0 ++ [.ErrBuiltinWrongNumberOfArgs (atNode ctx (.CallExpr call0))])
  | arg0 :: rest =>
    let r := ck.checkType ctx arg0 env
    let x := r.1
    let of := r.2.1
    let isType := r.2.2.1
    let moreErrs := r.2.2.2
    if !isType then
      let r2 := ck.CheckExpr ctx arg0 env
      let errs1 := if !r2.2.isEmpty then errs0 ++ r2.2 else errs0
      let call1 := fakeCheckRemainingArgs ck { call0 with Args := r2.1 :: rest } 1 env
      if r2.2.isEmpty then some (call1, errs1 ++ [.ErrBuiltinNonTypeArg (atNode ctx r2.1)])
      else some (call1, errs1)
    else if call0.Args.length != 1 then
      let call1 := fakeCheckRemainingArgs ck call0 0 env
      some (call1, errs0 ++ [.ErrBuiltinWrongNumberOfArgs (atNode ctx (.CallExpr call1))])
    else if !moreErrs.isEmpty then some (call0, errs0 ++ moreErrs)
    else
      match of with
      | .rtype t => some ({ call0 with Args := x :: rest, knownType := [.rtype (.ptr t)] }, [])
      | _ => none

/-- The last statements of `checkBuiltinComplex`, reached when no branch has
returned: an `ErrBuiltinWrongArgType` when the two types are the same host
type, an `ErrBuiltinMismatchedArgs` otherwise. -/
def checkBuiltinComplexTail (ck : Checker) (ctx : Ctx) (call : CallExpr) (x : Expr)
    (xt yt : Ty) (errs : List Err) : CallExpr × List Err :=
  if ck.unhackType xt = ck.unhackType yt then
    (call, errs ++ [.ErrBuiltinWrongArgType (atNode ctx x) call])
  else (call, errs ++ [.ErrBuiltinMismatchedArgs (atNode ctx (.CallExpr call)) xt yt])

/-- The two branches `Float32` and `Float64` of `checkBuiltinComplex` on a typed
operand type of kind `k`: the known type of the call and, when `fold` holds,
its constant value, made of the real part `xv` and the imaginary part `yv`.
The result `none` means that the kind is neither; the inner `none` is the panic
of `Float` on a value that is not a float. -/
def checkBuiltinComplexFloat (h : Helpers) (call : CallExpr) (k : Kind) (fold : Bool)
    (xv yv : Val) : Option (Option CallExpr) :=
  if k == .Float32 then
    let call1 : CallExpr := { call with knownType := [.rtype c64] }
    if fold then
      match xv.getFloat, yv.getFloat with
      | some xf, some yf =>
        some (some { call1 with constValue := .complex c64 (h.Float32 xf) (h.Float32 yf) })
      | _, _ => some none
    else some (some call1)
  else if k == .Float64 then
    let call1 : CallExpr := { call with knownType := [.rtype c128] }
    if fold then
      match xv.getFloat, yv.getFloat with
      | some xf, some yf => some (some { call1 with constValue := .complex c128 xf yf })
      | _, _ => some none
    else some (some call1)
  else none

/-- The function `checkBuiltinComplex`; `none` is a panic. -/
def checkBuiltinComplex (h : Helpers) (ck : Checker) (ctx : Ctx) (call : CallExpr)
    (env : Env) : Option (CallExpr × List Err) :=
  let call0 : CallExpr := { call with argNEllipsis := call.Ellipsis != 0 }
  let errs0 : List Err :=
    if call0.argNEllipsis then [.ErrBuiltinInvalidEllipsis (atNode ctx (.CallExpr call0))]
    else []
  match call0.Args with
  | [a0, a1] =>
    let r := ck.checkBinaryOperands ctx a0 a1 env
    let x := r.1
    let y := r.2.1
    let ok := r.2.2.1
    let moreErrs := r.2.2.2
    let call1 : CallExpr := { call0 with Args := [x, y] }
    let errs := if !moreErrs.isEmpty then errs0 ++ moreErrs else errs0
    if !ok then some (call1, errs)
    else
      match x.KnownType.head?, y.KnownType.head? with
      | some xt, some yt =>
        match xt with
        | .const xct =>
          match yt with
          | .const yct =>
            -- both operands are untyped constants
            if xct.IsNumeric && yct.IsNumeric then
              let call2 : CallExpr := { call1 with knownType := [.rtype c128] }
              match promoteConstToTyped h ctx xct x.Const f64 x with
              | none => none
              | some (xc, xerrs) =>
                let errs1 := if !xerrs.isEmpty then errs ++ xerrs else errs
                match promoteConstToTyped h ctx yct y.Const f64 y with
                | none => none
                | some (yc, yerrs) =>
                  let errs2 := if !yerrs.isEmpty then errs1 ++ yerrs else errs1
                  if xc.IsValid && yc.IsValid then
                    match xc.getFloat, yc.getFloat with
                    | some xf, some yf =>
                      some ({ call2 with constValue := .complex c128 xf yf }, errs2)
                    | _, _ => none
                  else some (checkBuiltinComplexTail ck ctx call2 x xt yt errs2)
            else some (checkBuiltinComplexTail ck ctx call1 x xt yt errs)
          | _ =>
            -- only `x` is an untyped constant
            if ck.attemptBinaryOpConversion yt then
              -- the conversion makes a value of the type `yt`, a host type
              match yt with
              | .rtype ytR =>
                match promoteConstToTyped h ctx xct x.Const ytR x with
                | none => none
                | some (xc, xerrs) =>
                  let errs1 := if !xerrs.isEmpty then errs ++ xerrs else errs
                  if !xerrs.isEmpty && xct = .ConstNil then some (call1, errs1)
                  else if xc.IsValid then
                    match checkBuiltinComplexFloat h call1 ytR.Kind y.IsConst xc y.Const with
                    | some (some call2) => some (call2, errs1)
                    | some none => none
                    | none => some (checkBuiltinComplexTail ck ctx call1 x xt yt errs1)
                  else some (checkBuiltinComplexTail ck ctx call1 x xt yt errs1)
              | _ => none
            else
              -- `isNillable` is a function of host types
              match yt with
              | .rtype ytR =>
                if xct = .ConstNil && h.isNillable ytR then
                  some (call1, errs ++ [.ErrBuiltinWrongArgType (atNode ctx y) call1])
                else some (checkBuiltinComplexTail ck ctx call1 x xt yt errs)
              | _ =>
                if xct = .ConstNil then none
                else some (checkBuiltinComplexTail ck ctx call1 x xt yt errs)
        | _ =>
          match yt with
          | .const yct =>
            -- only `y` is an untyped constant
            if ck.attemptBinaryOpConversion xt then
              match xt with
              | .rtype xtR =>
                match promoteConstToTyped h ctx yct y.Const xtR y with
                | none => none
                | some (yc, yerrs) =>
                  if !yerrs.isEmpty then
                    let errs1 := errs ++ yerrs
                    if yct = .ConstNil then some (call1, errs1)
                    else if yc.IsValid then
                      match checkBuiltinComplexFloat h call1 xtR.Kind x.IsConst x.Const yc with
                      | some (some call2) => some (call2, errs1)
                      | some none => none
                      | none => some (checkBuiltinComplexTail ck ctx call1 x xt yt errs1)
                    else some (checkBuiltinComplexTail ck ctx call1 x xt yt errs1)
                  else if yct = .ConstNil then
                    some (call1, errs ++ [.ErrBuiltinWrongArgType (atNode ctx x) call1])
                  else if yc.IsValid then
                    match checkBuiltinComplexFloat h call1 xtR.Kind x.IsConst x.Const yc with
                    | some (some call2) => some (call2, errs)
                    | some none => none
                    | none => some (checkBuiltinComplexTail ck ctx call1 x xt yt errs)
                  else some (checkBuiltinComplexTail ck ctx call1 x xt yt errs)
              | _ => none
            else
              match xt with
              | .rtype xtR =>
                if yct = .ConstNil && h.isNillable xtR then
                  some (call1, errs ++ [.ErrBuiltinWrongArgType (atNode ctx x) call1])
                else some (checkBuiltinComplexTail ck ctx call1 x xt yt errs)
              | _ =>
                if yct = .ConstNil then none
                else some (checkBuiltinComplexTail ck ctx call1 x xt yt errs)
          | _ =>
            -- both operands are typed
            if xt = yt then
              match xt.Kind with
              | none => none
              | some k =>
                match checkBuiltinComplexFloat h call1 k (x.IsConst && y.IsConst)
                    x.Const y.Const with
                | some (some call2) => some (call2, errs)
                | some none => none
                | none => some (checkBuiltinComplexTail ck ctx call1 x xt yt errs)
            else some (checkBuiltinComplexTail ck ctx call1 x xt yt errs)
      | _, _ => none
  | _ =>
    let call1 := fakeCheckRemainingArgs ck call0 0 env
    some (call1, errs0 ++ [.ErrBuiltinWrongNumberOfArgs (atNode ctx (.CallExpr call1))])

/-- The constant that `checkBuiltinRealImag` folds a call to: the real or the
imaginary part of a `complex128`, or of a `complex64` when `narrow` holds. -/
def realImagConst (h : Helpers) (narrow isReal : Bool) (c : Nat × Nat) : constValue :=
  let part := if isReal then c.1 else c.2
  if narrow then .float f32 (h.Float32 part) else .float f64 part

/-- The function `checkBuiltinRealImag`; `none` is a panic. -/
def checkBuiltinRealImag (h : Helpers) (ck : Checker) (ctx : Ctx) (call : CallExpr)
    (env : Env) (isReal : Bool) : Option (CallExpr × List Err) :=
  let call0 : CallExpr := { call with argNEllipsis := call.Ellipsis != 0 }
  let errs0 : List Err :=
    if call0.argNEllipsis then [.ErrBuiltinInvalidEllipsis (atNode ctx (.CallExpr call0))]
    else []
  match call0.Args with
  | [arg0] =>
    let r := ck.CheckExpr ctx arg0 env
    let x := r.1
    let moreErrs := r.2
    let errs := if !moreErrs.isEmpty then errs0 ++ moreErrs else errs0
    let call1 : CallExpr := { call0 with Args := [x] }
    if !moreErrs.isEmpty && !x.IsConst then some (call1, errs)
    else
      let r2 := ck.expectSingleType ctx x.KnownType x
      match r2.2 with
      | some err => some (call1, errs ++ [err])
      | none =>
        let xt := r2.1
        if xt = .const .ConstNil then some (call1, errs ++ [.ErrUntypedNil (atNode ctx x)])
        else
          let wrong : Option (CallExpr × List Err) :=
            some (call1, errs ++ [.ErrBuiltinWrongArgType (atNode ctx x) call1])
          match xt with
          | .const ct =>
            if ct = .ConstComplex then
              match promoteConstToTyped h ctx ct x.Const c128 x with
              | none => none
              | some (xc, moreErrs2) =>
                let errs1 := if !moreErrs2.isEmpty then errs ++ moreErrs2 else errs
                if xc.IsValid then
                  match xc.getComplex with
                  | none => none
                  | some c =>
                    some ({ call1 with knownType := [.rtype f64],
                                       constValue := realImagConst h false isReal c }, errs1)
                else some (call1, errs1 ++ [.ErrBuiltinWrongArgType (atNode ctx x) call1])
            else wrong
          | _ =>
            match xt.Kind with
            | none => none
            | some k =>
              if k == .Complex128 then
                let call2 : CallExpr := { call1 with knownType := [.rtype f64] }
                if x.IsConst then
                  match x.Const.getComplex with
                  | none => none
                  | some c =>
                    some ({ call2 with constValue := realImagConst h false isReal c }, errs)
                else some (call2, errs)
              else if k == .Complex64 then
                let call2 : CallExpr := { call1 with knownType := [.rtype f32] }
                if x.IsConst then
                  match x.Const.getComplex with
                  | none => none
                  | some c =>
                    some ({ call2 with constValue := realImagConst h true isReal c }, errs)
                else some (call2, errs)
              else wrong
  | _ =>
    let call1 := fakeCheckRemainingArgs ck call0 0 env
    some (call1, errs0 ++ [.ErrBuiltinWrongNumberOfArgs (atNode ctx (.CallExpr call1))])

/-- The function `checkBuiltinPanicExpr`. -/
def checkBuiltinPanicExpr (ck : Checker) (ctx : Ctx) (call : CallExpr) (env : Env) :
    CallExpr × List Err :=
  let call0 : CallExpr := { call with argNEllipsis := call.Ellipsis != 0 }
  let errs0 : List Err :=
    if call0.argNEllipsis then [.ErrBuiltinInvalidEllipsis (atNode ctx (.CallExpr call0))]
    else []
  match call0.Args with
  | [arg0] =>
    let r := ck.CheckExpr ctx arg0 env
    let x := r.1
    let moreErrs := r.2
    let errs := if !moreErrs.isEmpty then errs0 ++ moreErrs else errs0
    let call1 : CallExpr := { call0 with Args := [x] }
    if !moreErrs.isEmpty && !x.IsConst then (call1, errs)
    else
      match (ck.expectSingleType ctx x.KnownType x).2 with
      | some err => (call1, errs ++ [err])
      | none => (call1, errs)
  | _ =>
    let call1 := fakeCheckRemainingArgs ck call0 0 env
    (call1, errs0 ++ [.ErrBuiltinWrongNumberOfArgs (atNode ctx (.CallExpr call1))])

/-- The function `checkCallBuiltinExpr`: the checked call, the diagnostics and
whether the call is one of a builtin; `none` is a panic of the builtin's
check. -/
def checkCallBuiltinExpr (h : Helpers) (ck : Checker) (ctx : Ctx) (call : CallExpr)
    (env : Env) : Option (CallExpr × List Err × Bool) :=
  match call.Fun with
  | .Ident name _ =>
    let r : Option (Option (CallExpr × List Err)) :=
      if name = "complex" then some (checkBuiltinComplex h ck ctx call env)
      else if name = "real" then some (checkBuiltinRealImag h ck ctx call env true)
      else if name = "imag" then some (checkBuiltinRealImag h ck ctx call env false)
      else if name = "new" then some (checkBuiltinNew ck ctx call env)
      else if name = "make" then some (checkBuiltinMake ck ctx call env)
      else if name = "len" then some (checkBuiltinLenCap ck ctx call env true)
      else if name = "cap" then some (checkBuiltinLenCap ck ctx call env false)
      else if name = "append" then some (checkBuiltinAppend h ck ctx call env)
      else if name = "copy" then some (checkBuiltinCopyExpr ck ctx call env)
      else if name = "delete" then some (checkBuiltinDeleteExpr ck ctx call env)
      else if name = "panic" then some (some (checkBuiltinPanicExpr ck ctx call env))
      else none
    match r with
    | none => some (call, [], false)
    | some none => none
    | some (some (call1, errs)) =>
      some ({ call1 with Fun := .Ident name ⟨[], .invalid⟩, isBuiltin := true }, errs, true)
  | _ => some (call, [], false)

/-! ## Calls (`checkcallexpr.go`) -/

/-- The function `checkCallTypeExpr`; `none` is a panic. The target `toT` of a
conversion is a host type: a value of it is made for an untyped constant, and
`ConvertibleTo` is asked of the host for a typed argument. -/
def checkCallTypeExpr (h : Helpers) (ck : Checker) (ctx : Ctx) (call : CallExpr) (toT : Ty)
    (_env : Env) : Option (CallExpr × List Err) :=
  let call1 : CallExpr := { call with knownType := [toT], isTypeConversion := true }
  match call1.Args with
  | [arg] =>
    let r := ck.expectSingleType ctx arg.KnownType arg
    match r.2 with
    | some err => some (call1, [err])
    | none =>
      match r.1, toT with
      | .const ct, .rtype t =>
        match castConstToTyped h ctx ct arg.Const t arg with
        | none => none
        | some (v, errs) =>
          if ct ≠ .ConstNil then
            if !errs.isEmpty then
              let errs1 : List Err :=
                match errs.head? with
                | some (.ErrBadConstConversion c f t2 v2) => errs ++ [.ErrBadConversion c f t2 v2]
                | _ => errs
              some ({ call1 with constValue := arg.Const }, errs1)
            else some ({ call1 with constValue := v }, errs)
          else some (call1, errs)
      | .rtype fromT, .rtype t =>
        if h.ConvertibleTo fromT t then
          if arg.IsConst then some ({ call1 with constValue := h.Convert arg.Const t }, [])
          else some (call1, [])
        else
          some (call1,
            [.ErrBadConstConversion (atNode ctx (.CallExpr call1)) (.rtype fromT) toT .invalid])
      | _, _ => none
  | _ =>
    some (call1, [.ErrWrongNumberOfArgs (atNode ctx (.CallExpr call1)) call1.Args.length])

/-- The first loop of the branch of `checkCallFunExpr` for a spread
multi-valued argument, `for i = 0; i < len(arg0T) && i < numIn-1; i += 1`, from
the index `i` on; the first argument is the types `arg0T[i:]`. The result is
the index at which the loop stops and the diagnostics; `none` is the panic of
`In` on an index out of range. -/
def checkCallFunSpreadFixed (ck : Checker) (ctx : Ctx) (call : CallExpr) (arg0 : Expr)
    (ins : List RType) : List Ty → Nat → List Err → Option (Nat × List Err)
  | [], i, errs => some (i, errs)
  | t :: ts, i, errs =>
    if i + 1 < ins.length then
      match ins.get? i with
      | none => none
      | some p =>
        checkCallFunSpreadFixed ck ctx call arg0 ins ts (i + 1)
          (if !ck.typeAssignableTo t (.rtype p) then
            errs ++ [.ErrWrongArgType (atNode ctx arg0) call i]
          else errs)
    else some (i, errs)

/-- The second loop of the branch of `checkCallFunExpr` for a spread
multi-valued argument, `for ; i < len(arg0T); i += 1`, from the index `i` on;
the first argument is the types `arg0T[i:]`. -/
def checkCallFunSpreadRest (ck : Checker) (ctx : Ctx) (call : CallExpr) (arg0 : Expr)
    (argNT : Ty) : List Ty → Nat → List Err → List Err
  | [], _, errs => errs
  | t :: ts, i, errs =>
    checkCallFunSpreadRest ck ctx call arg0 argNT ts (i + 1)
      (if !ck.typeAssignableTo t argNT then
        errs ++ [.ErrWrongArgType (atNode ctx arg0) call i]
      else errs)

/-- The loop of `checkCallFunExpr` that expects every argument to be a single
value: the flags `skipTypeCheck` and the diagnostics. -/
def checkCallFunSingle (ck : Checker) (ctx : Ctx) : List Expr → List Err → List Bool × List Err
  | [], errs => ([], errs)
  | expr :: rest, errs =>
    match (ck.expectSingleType ctx expr.KnownType expr).2 with
    | some err =>
      let r := checkCallFunSingle ck ctx rest (errs ++ [err])
      (true :: r.1, r.2)
    | none =>
      let r := checkCallFunSingle ck ctx rest errs
      (false :: r.1, r.2)

/-- The check of one argument of `checkCallFunExpr` against a parameter type:
the diagnostics of the conversion when the argument is assignable, an
`ErrWrongArgType` otherwise. -/
def checkCallFunArg (ck : Checker) (ctx : Ctx) (call : CallExpr) (expr : Expr) (t : Ty)
    (i : Nat) (errs : List Err) : List Err :=
  let r := ck.exprAssignableTo ctx expr t
  if r.1 then errs ++ r.2 else errs ++ [.ErrWrongArgType (atNode ctx expr) call i]

/-- The loop `for i = 0; i < len(call.Args) && i < numIn-1; i += 1` of
`checkCallFunExpr`, from the index `i` on; the first argument is the arguments
`call.Args[i:]` with their flags `skipTypeCheck`. The result is the index at
which the loop stops and the diagnostics; `none` is the panic of `In` on an
index out of range. -/
def checkCallFunFixed (ck : Checker) (ctx : Ctx) (call : CallExpr) (ins : List RType) :
    List (Expr × Bool) → Nat → List Err → Option (Nat × List Err)
  | [], i, errs => some (i, errs)
  | (expr, skip) :: rest, i, errs =>
    if i + 1 < ins.length then
      if skip then checkCallFunFixed ck ctx call ins rest (i + 1) errs
      else
        match ins.get? i with
        | none => none
        | some p =>
          checkCallFunFixed ck ctx call ins rest (i + 1)
            (checkCallFunArg ck ctx call expr (.rtype p) i errs)
    else some (i, errs)

/-- The loop `for ; i < len(call.Args); i += 1` of `checkCallFunExpr`, from the
index `i` on; the first argument is the arguments `call.Args[i:]` with their
flags `skipTypeCheck`. -/
def checkCallFunRest (ck : Checker) (ctx : Ctx) (call : CallExpr) (argNT : Ty) :
    List (Expr × Bool) → Nat → List Err → List Err
  | [], _, errs => errs
  | (expr, skip) :: rest, i, errs =>
    if skip then checkCallFunRest ck ctx call argNT rest (i + 1) errs
    else checkCallFunRest ck ctx call argNT rest (i + 1) (checkCallFunArg ck ctx call expr argNT i errs)

/-- Whether a node is a `*CallExpr`. -/
def Expr.isCallExpr : Expr → Bool
  | .CallExpr _ => true
  | _ => false

/-- The function `checkCallFunExpr`; `none` is a panic. -/
def checkCallFunExpr (ck : Checker) (ctx : Ctx) (call : CallExpr) (env : Env) :
    Option (CallExpr × List Err) :=
  let r := ck.CheckExpr ctx call.Fun env
  let fn := r.1
  let errs := r.2
  if !errs.isEmpty && !fn.IsConst then some (call, errs)
  else
    let call1 : CallExpr := { call with Fun := fn }
    let r2 := ck.expectSingleType ctx fn.KnownType fn
    match r2.2 with
    | some err => some (call1, errs ++ [err])
    | none =>
      let ftype := r2.1
      if ftype = .const .ConstNil then some (call1, [.ErrUntypedNil (atNode ctx fn)])
      else
        match ftype.Kind with
        | none => none
        | some k =>
          if k != .Func then some (call1, [.ErrCallNonFuncType (atNode ctx fn)])
          else
            match ftype.sig with
            | none => none
            | some (ins, outs, variadic) =>
              let call2 : CallExpr := { call1 with knownType := outs.map Ty.rtype }
              let numIn := ins.length
              match call2.Args with
              | [] =>
                -- `call.Args == nil`: the nil slice is the empty list
                if numIn == 0 || (variadic && numIn == 1) then some (call2, [])
                else some (call2, [.ErrWrongNumberOfArgs (atNode ctx (.CallExpr call2)) 0])
              | arg0 :: rest =>
                let arg0T := arg0.KnownType
                let arg0MultiValued :=
                  rest.isEmpty && decide (1 < arg0T.length) &&
                    (ck.skipSuperfluousParens arg0).isCallExpr
                let call3 : CallExpr := { call2 with arg0MultiValued := arg0MultiValued }
                if arg0MultiValued then
                  match checkCallFunSpreadFixed ck ctx call3 arg0 ins arg0T 0 errs with
                  | none => none
                  | some (i, errs1) =>
                    if !variadic then
                      if arg0T.length != numIn then
                        some (call3, errs1 ++
                          [.ErrWrongNumberOfArgs (atNode ctx (.CallExpr call3)) arg0T.length])
                      else
                        match ins.get? i with
                        | none => none
                        | some argNT =>
                          some (call3, checkCallFunSpreadRest ck ctx call3 arg0 (.rtype argNT)
                            (arg0T.drop i) i errs1)
                    else
                      if arg0T.length + 1 < numIn then
                        some (call3, errs1 ++
                          [.ErrWrongNumberOfArgs (atNode ctx (.CallExpr call3)) arg0T.length])
                      else
                        match (ins.get? i).bind RType.Elem with
                        | none => none
                        | some argNT =>
                          some (call3, checkCallFunSpreadRest ck ctx call3 arg0 (.rtype argNT)
                            (arg0T.drop i) i errs1)
                else
                  let argNEllipsis := call3.Ellipsis != 0
                  let call4 : CallExpr := { call3 with argNEllipsis := argNEllipsis }
                  let args := call4.Args
                  let single := checkCallFunSingle ck ctx args errs
                  let flagged := args.zip single.1
                  match checkCallFunFixed ck ctx call4 ins flagged 0 single.2 with
                  | none => none
                  | some (i, errs2) =>
                    let wrongNumber : Option (CallExpr × List Err) :=
                      some (call4, errs2 ++
                        [.ErrWrongNumberOfArgs (atNode ctx (.CallExpr call4)) args.length])
                    let finish (argNT : RType) : Option (CallExpr × List Err) :=
                      let errs3 :=
                        checkCallFunRest ck ctx call4 (.rtype argNT) (flagged.drop i) i errs2
                      if !variadic && argNEllipsis then
                        some (call4, errs3 ++
                          [.ErrInvalidEllipsisInCall (atNode ctx (.CallExpr call4))])
                      else some (call4, errs3)
                    if !variadic || argNEllipsis then
                      if args.length != numIn then wrongNumber
                      else
                        match ins.get? (numIn - 1) with
                        | none => none
                        | some argNT => finish argNT
                    else
                      if args.length + 1 < numIn then wrongNumber
                      else if args.length + 1 == numIn then some (call4, errs2)
                      else
                        match (ins.get? (numIn - 1)).bind RType.Elem with
                        | none => none
                        | some argNT => finish argNT

/-- The loop of `checkCallExpr` over the arguments: every argument is checked
by `CheckExpr`, in order; the result is the checked arguments and the
diagnostics. -/
def checkCallArgs (ck : Checker) (ctx : Ctx) (env : Env) : List Expr → List Err →
    List Expr × List Err
  | [], errs => ([], errs)
  | arg :: rest, errs =>
    let r := ck.CheckExpr ctx arg env
    let more := checkCallArgs ck ctx env rest (if !r.2.isEmpty then errs ++ r.2 else errs)
    (r.1 :: more.1, more.2)

/-- The function `checkCallExpr`; `none` is a panic. The results are named in
the source and the last two `return` statements give them the results of
`checkCallTypeExpr` and of `checkCallFunExpr`. -/
def checkCallExpr (h : Helpers) (ck : Checker) (ctx : Ctx) (callExpr : CallExpr) (env : Env) :
    Option (CallExpr × List Err) :=
  let acall : CallExpr :=
    { Fun := callExpr.Fun, Args := callExpr.Args, Ellipsis := callExpr.Ellipsis,
      knownType := [], constValue := .invalid, isBuiltin := false, isTypeConversion := false,
      arg0MultiValued := false, argNEllipsis := false }
  match checkCallBuiltinExpr h ck ctx acall env with
  | none => none
  | some (call, errs, true) => some (call, errs)
  | some (_, _, false) =>
    let checked := checkCallArgs ck ctx env callExpr.Args []
    let acall1 : CallExpr := { acall with Args := checked.1 }
    let errs := checked.2
    let r := ck.checkType ctx acall1.Fun env
    let typ := r.1
    let toT := r.2.1
    let isType := r.2.2.1
    let moreErrs := r.2.2.2
    if isType then
      if !moreErrs.isEmpty then some (acall1, errs ++ moreErrs)
      else checkCallTypeExpr h ck ctx { acall1 with Fun := typ } toT env
    else checkCallFunExpr ck ctx acall1 env

/-! ## Struct literals (`checkcompositelit.go`) -/

/-- The function `checkStructField`; the struct field is given by its type. -/
def checkStructField (ck : Checker) (ctx : Ctx) (expr : Expr) (fieldT : RType) (env : Env) :
    Expr × List Err :=
  let r := ck.checkExprAssignableTo ctx expr (.rtype fieldT) env
  let aexpr := r.1
  if !r.2.1 then (aexpr, [.ErrBadStructValue (atNode ctx aexpr) (.rtype fieldT)])
  else (aexpr, r.2.2)

/-- Whether a node is an `*ast.KeyValueExpr`. -/
def Expr.isKeyValue : Expr → Bool
  | .KeyValueExpr _ _ => true
  | _ => false

/-- The variables that the loop of `checkCompositeLitStruct` over keyed
elements updates: the names seen, the flag `mixed`, the list `lit.fields` and
the diagnostics. -/
structure StructKeyedState where
  seen : List String
  mixed : Bool
  fields : List Int
  errs : List Err

/-- The loop of `checkCompositeLitStruct` over the elements of a literal in
which keys are present: the checked elements and the final state; `none` is
the panic of `FieldByName` on a type that is not a struct. -/
def checkCompositeLitStructKeyed (ck : Checker) (ctx : Ctx) (t : Ty) (env : Env) :
    List Expr → StructKeyedState → Option (List Expr × StructKeyedState)
  | [], st => some ([], st)
  | elt :: rest, st =>
    let step : Option (Expr × StructKeyedState) :=
      match elt with
      | .KeyValueExpr key value =>
        match key with
        | .Ident name _ =>
          match t.FieldByName name with
          | none => none
          | some none =>
            some (elt,
              { st with errs := st.errs ++ [.ErrUnknownStructField (atNode ctx key) t name] })
          | some (some (index, fieldT)) =>
            let errs1 :=
              if st.seen.contains name then
                st.errs ++ [.ErrDuplicateStructField (atNode ctx key) name]
              else st.errs
            let r := checkStructField ck ctx value fieldT env
            some (.KeyValueExpr key r.1,
              { seen := name :: st.seen, mixed := st.mixed,
                fields := st.fields ++ [(index : Int)],
                errs := if !r.2.isEmpty then errs1 ++ r.2 else errs1 })
        | _ =>
          let key1 := ck.fakeCheckExpr key env
          some (.KeyValueExpr key1 value,
            { st with errs := st.errs ++ [.ErrInvalidStructField (atNode ctx key1)] })
      | _ =>
        if !st.mixed then
          some (elt,
            { st with mixed := true, errs := st.errs ++ [.ErrMixedStructValues (atNode ctx elt)] })
        else some (elt, st)
    match step with
    | none => none
    | some (elt1, st1) =>
      match checkCompositeLitStructKeyed ck ctx t env rest st1 with
      | none => none
      | some (rest1, st2) => some (elt1 :: rest1, st2)

/-- The loop `for i = 0; i < numFields && i < len(lit.Elts); i += 1` of
`checkCompositeLitStruct`, from the index `i` on; the arguments are the
elements `lit.Elts[i:]` and the fields from `i` on. The result is the checked
elements, the elements left over, the indices appended to `lit.fields` and the
diagnostics. -/
def checkCompositeLitStructPositional (ck : Checker) (ctx : Ctx) (env : Env) :
    List Expr → List (String × RType) → Nat → List Err →
      List Expr × List Expr × List Int × List Err
  | elt :: rest, (_, fieldT) :: fields, i, errs =>
    let r := checkStructField ck ctx elt fieldT env
    let more := checkCompositeLitStructPositional ck ctx env rest fields (i + 1)
      (if !r.2.isEmpty then errs ++ r.2 else errs)
    (r.1 :: more.1, more.2.1, (i : Int) :: more.2.2.1, more.2.2.2)
  | elts, _, _, errs => ([], elts, [], errs)

/-- The last loop of `checkCompositeLitStruct`, over the elements beyond the
last field: every one is checked by `CheckExpr`, in order; the result is the
checked elements and the diagnostics. -/
def checkCompositeLitStructSurplus (ck : Checker) (ctx : Ctx) (env : Env) :
    List Expr → List Err → List Expr × List Err
  | [], errs => ([], errs)
  | elt :: rest, errs =>
    let r := ck.CheckExpr ctx elt env
    let more := checkCompositeLitStructSurplus ck ctx env rest
      (if !r.2.isEmpty then errs ++ r.2 else errs)
    (r.1 :: more.1, more.2)

/-- The function `checkCompositeLitStruct`; `none` is the panic of `NumField`
or of `FieldByName` on a type that is not a struct. -/
def checkCompositeLitStruct (ck : Checker) (ctx : Ctx) (lit : CompositeLit) (t : Ty)
    (env : Env) : Option (CompositeLit × List Err) :=
  if lit.Elts.isEmpty then some (lit, [])
  else
    let keysPresent := lit.Elts.any Expr.isKeyValue
    if keysPresent then
      match checkCompositeLitStructKeyed ck ctx t env lit.Elts
          { seen := [], mixed := false, fields := lit.fields, errs := [] } with
      | none => none
      | some (elts, st) => some ({ lit with Elts := elts, fields := st.fields }, st.errs)
    else
      match t.structFields with
      | none => none
      | some fields =>
        let r := checkCompositeLitStructPositional ck ctx env lit.Elts fields 0 []
        let lit1 : CompositeLit :=
          { lit with Elts := r.1 ++ r.2.1, fields := lit.fields ++ r.2.2.1 }
        let errs1 :=
          if fields.length != lit.Elts.length then
            r.2.2.2 ++ [.ErrWrongNumberOfStructValues (atNode ctx (.CompositeLit lit1))]
          else r.2.2.2
        let surplus := checkCompositeLitStructSurplus ck ctx env r.2.1 errs1
        some ({ lit1 with Elts := r.1 ++ surplus.1 }, surplus.2)

/-! ## Map, array and slice literals (`checkcompositelit.go`) -/

/-- The method `setKnownType` of a checked node. -/
def Expr.setKnownType : Expr → List Ty → Expr
  | .Ident n ann, k => .Ident n { ann with knownType := k }
  | .BasicLit v ann, k => .BasicLit v { ann with knownType := k }
  | .FuncLit t ann, k => .FuncLit t { ann with knownType := k }
  | .CompositeLit lit, k => .CompositeLit { lit with knownType := k }
  | .ParenExpr x ann, k => .ParenExpr x { ann with knownType := k }
  | .SelectorExpr x s ann, k => .SelectorExpr x s { ann with knownType := k }
  | .IndexExpr x i ann, k => .IndexExpr x i { ann with knownType := k }
  | .SliceExpr x lo hi ann, k => .SliceExpr x lo hi { ann with knownType := k }
  | .TypeAssertExpr x t ann, k => .TypeAssertExpr x t { ann with knownType := k }
  | .CallExpr call, k => .CallExpr { call with knownType := k }
  | .StarExpr x ann, k => .StarExpr x { ann with knownType := k }
  | .UnaryExpr op x ann, k => .UnaryExpr op x { ann with knownType := k }
  | .BinaryExpr x op y ann, k => .BinaryExpr x op y { ann with knownType := k }
  | .ArrayType l e ann, k => .ArrayType l e { ann with knownType := k }
  | .StructType f ann, k => .StructType f { ann with knownType := k }
  | .FuncType p r ann, k => .FuncType p r { ann with knownType := k }
  | .InterfaceType m ann, k => .InterfaceType m { ann with knownType := k }
  | .MapType key v ann, k => .MapType key v { ann with knownType := k }
  | .ChanType v ann, k => .ChanType v { ann with knownType := k }
  | e, _ => e

/-- The method `Interface` of `reflect.Value`: the value as an `interface{}`.
The inner `none` is the nil interface, which a nil value of interface kind
gives; a value of interface kind that holds a value gives that value, the
others give themselves. The method panics on the invalid value (the outer
`none`). -/
def Val.Interface : Val → Option (Option Val)
  | .invalid => none
  | .iface _ v => if v.IsValid then v.Interface else some none
  | .zero t => if t.Kind = .Interface then some none else some (some (.zero t))
  | v => some (some v)

/-- The key under which `checkCompositeLitMap` records the constant key `k` in
the map `seen`: the nil interface (the inner `none`) for the untyped nil, the
`Interface()` of the constant promoted to its default type for another untyped
constant, the `Interface()` of the constant itself for a typed one. The outer
`none` is a panic: of `KnownType()[0]` on a node without type, or of
`Interface` on an invalid value. -/
def constKeyOf (h : Helpers) (ctx : Ctx) (k : Expr) : Option (Option Val) :=
  match k.KnownType.head? with
  | none => none
  | some (.const .ConstNil) => some none
  | some (.const cT) =>
    match cT.DefaultPromotion with
    | none => none
    | some d =>
      match promoteConstToTyped h ctx cT k.Const d k with
      | none => none
      | some (c, _) => c.Interface
  | some _ => k.Const.Interface

mutual
/-- Whether the runtime can hash the values of a type, that is whether the
type is comparable: a slice, a map and a function type are not, nor is an
array or a struct type with such an element or field. -/
def RType.hashable : RType → Bool
  | .basic _ => true
  | .named _ u => u.hashable
  | .array _ e => e.hashable
  | .chan _ => true
  | .func _ _ _ => false
  | .iface _ => true
  | .map _ _ => false
  | .ptr _ => true
  | .slice _ => false
  | .struct fields => RType.hashableFields fields
/-- Whether the runtime can hash the values of every type of a field list. -/
def RType.hashableFields : List (String × RType) → Bool
  | [] => true
  | (_, t) :: rest => t.hashable && RType.hashableFields rest
end

/-- Whether the runtime can hash a key of a map keyed by `interface{}`: the
nil interface, and a value whose dynamic type is comparable. A `*ConstNumber`
is a pointer. -/
def keyHashable : Option Val → Bool
  | none => true
  | some (.bytes _ _) => false
  | some (.zero t) => t.hashable
  | some _ => true

/-- Whether a `float64`, given by its bit pattern, is not a number. -/
def float64IsNaN (f : Nat) : Bool := (f / 2 ^ 52) % 2 ^ 11 == 2047 && f % 2 ^ 52 != 0

/-- The comparison `==` of two `float64` given by their bit patterns: a NaN
is equal to nothing, and the two zeros are equal. -/
def float64Eq (a b : Nat) : Bool :=
  !float64IsNaN a && !float64IsNaN b &&
    (a == b || ((a == 0 || a == 2 ^ 63) && (b == 0 || b == 2 ^ 63)))

/-- The comparison `==` of two keys of a map keyed by `interface{}`: the same
dynamic type and equal values. Two keys that hold a `*ConstNumber` are
pointers, and the pointers of two nodes are different. -/
def keyEq : Option Val → Option Val → Bool
  | none, none => true
  | some (.float t a), some (.float t2 b) => t == t2 && float64Eq a b
  | some (.complex t a b), some (.complex t2 c d) => t == t2 && float64Eq a c && float64Eq b d
  | some (.constNumber _), some (.constNumber _) => false
  | some a, some b => a == b
  | _, _ => false

/-- The lookup `seen[constKey]` in a map keyed by `interface{}`: whether an
equal key has been recorded. The result `none` is the panic of the runtime on
a key that it cannot hash. -/
def mapKeySeen (seen : List (Option Val)) (key : Option Val) : Option Bool :=
  if keyHashable key then some (seen.any (fun k => keyEq k key)) else none

/-- The variables that the loop of `checkCompositeLitMap` updates: the keys
of the map `seen`, and the diagnostics. -/
structure MapLitState where
  seen : List (Option Val)
  errs : List Err

/-- The statements of the loop of `checkCompositeLitMap` on the key of a keyed
element: the check of the key against the key type `kT` and, when `track`
holds (`seen != nil`), the detection of a duplicate. The result is the checked
key and the state; `none` is a panic. -/
def checkCompositeLitMapKey (h : Helpers) (ck : Checker) (ctx : Ctx) (env : Env) (kT : RType)
    (track : Bool) (key : Expr) (st : MapLitState) : Option (Expr × MapLitState) :=
  let r := ck.checkExprAssignableTo ctx key (.rtype kT) env
  let k := r.1
  let errs1 : List Err :=
    if !r.2.1 then
      if k.KnownType.length != 0 then
        let kF := (ck.fakeCheckExpr key env).setKnownType k.KnownType
        st.errs ++ [.ErrBadMapKey (atNode ctx kF) (.rtype kT)]
      else st.errs
    else st.errs ++ r.2.2
  if track && k.IsConst then
    match constKeyOf h ctx k with
    | none => none
    | some constKey =>
      match mapKeySeen st.seen constKey with
      | none => none
      | some found =>
        some (k,
          { seen := constKey :: st.seen,
            errs := if found then errs1 ++ [.ErrDuplicateMapKey (atNode ctx k)] else errs1 })
  else some (k, { st with errs := errs1 })

/-- The statements that `checkMapValue` and `checkArrayValue` share, after
their dispatch on nested literals: the check of the expression against the
element type, and the choice of the diagnostics when it is not assignable;
`bad` builds the `ErrBadMapValue` or the `ErrBadArrayValue`. The result `none`
is the panic of `errs[0]` on an empty list. -/
def checkValueAssignable (ck : Checker) (ctx : Ctx) (expr : Expr) (eltT : RType) (env : Env)
    (bad : ErrorContext → Ty → Err) : Option (Expr × List Err) :=
  let r := ck.checkExprAssignableTo ctx expr (.rtype eltT) env
  let aexpr := r.1
  let errs := r.2.2
  if !r.2.1 then
    match errs with
    | [] => none
    | .ErrBadConstConversion _ fromT _ _ :: _ =>
      if fromT = .const .ConstNil then some (aexpr, errs)
      else if fromT ≠ .const .ConstString then
        some (aexpr, [bad (atNode ctx aexpr) (.rtype eltT)])
      else some (aexpr, errs ++ [bad (atNode ctx aexpr) (.rtype eltT)])
    | _ :: _ => some (aexpr, errs ++ [bad (atNode ctx aexpr) (.rtype eltT)])
  else some (aexpr, errs)

/-- Whether a diagnostic is an `ErrUndefined`. -/
def Err.isErrUndefined : Err → Bool
  | .ErrUndefined _ => true
  | _ => false

/-- The variables that the loop of `checkCompositeLitArrayOrSlice` updates. The
indices are values of the type `int` of a 64-bit host: the additions on them
wrap (`wrapSigned 64`). -/
structure ArrayLitState where
  maxIndex : Int
  curIndex : Int
  outOfBounds : Bool
  used : List Int
  indices : List (Int × Int)
  errs : List Err

/-- The statements of the loop of `checkCompositeLitArrayOrSlice` between the
check of the key and the label `check`, for an element placed at
`st.curIndex`: the largest index, the bound of an array of length `length`
(-1 for a slice) and the duplicate. `elt` is the element as it stands, `kvKey`
the checked key of a keyed element. The result `none` is the panic of `kv.Key`
on the nil `kv` of an element without key. -/
def checkCompositeLitArrayPlace (ctx : Ctx) (t : Ty) (length : Int) (elt : Expr)
    (kvKey : Option Expr) (st : ArrayLitState) : Option ArrayLitState :=
  let maxIndex := if st.maxIndex < st.curIndex then st.curIndex else st.maxIndex
  let bound : Bool × List Err :=
    if !st.outOfBounds && length != -1 && decide (st.curIndex ≥ length) then
      (true, st.errs ++ [.ErrArrayKeyOutOfBounds (atNode ctx elt) t st.curIndex])
    else (st.outOfBounds, st.errs)
  let st1 : ArrayLitState :=
    { st with maxIndex := maxIndex, outOfBounds := bound.1, used := st.curIndex :: st.used,
              errs := bound.2 }
  if st.used.contains st.curIndex then
    match kvKey with
    | none => none
    | some key =>
      some { st1 with errs := bound.2 ++ [.ErrDuplicateArrayKey (atNode ctx key) st.curIndex] }
  else some st1

mutual
/-- The function `checkCompositeLitR`; `none` is a panic: that of the method
`Kind` on the nil type, the explicit one on a type that is not a map, an array,
a slice or a struct, or one of the check of the elements. The bodies of
`checkCompositeLitMap` and of `checkCompositeLitArrayOrSlice` are written out
at their call, the recursion being on the elements of the literal. -/
def checkCompositeLitR (h : Helpers) (ck : Checker) (ctx : Ctx) :
    CompositeLitOf Expr → Ty → Env → Option (CompositeLit × List Err)
  | ⟨typ, elts, _, _, _, _⟩, t, env =>
    -- `alit := &CompositeLit{CompositeLit: lit}`, and the type that the literal is checked at
    let resolved : (CompositeLit × List Err) ⊕ (CompositeLit × Ty) :=
      match typ with
      | some typExpr =>
        let r := ck.checkType ctx typExpr env
        let alit : CompositeLit :=
          { Typ := some r.1, Elts := elts, knownType := [], indices := [], fields := [],
            length := 0 }
        if !r.2.2.2.isEmpty then .inl (alit, r.2.2.2) else .inr (alit, r.2.1)
      | none =>
        let alit : CompositeLit :=
          { Typ := none, Elts := elts, knownType := [], indices := [], fields := [],
            length := 0 }
        if t = .nil then .inl (alit, [.ErrMissingCompositeLitType (atNode ctx (.CompositeLit alit))])
        else .inr (alit, t)
    match resolved with
    | .inl early => some early
    | .inr (alit0, t1) =>
      let alit : CompositeLit := { alit0 with knownType := [t1] }
      match t1.Kind with
      | none => none
      | some .Map =>
        -- `checkCompositeLitMap`
        match t1.Key, t1.Elem with
        | some kT, some eltT =>
          match checkCompositeLitMapElts h ck ctx env kT (kT.Kind != .Interface) eltT elts
              { seen := [], errs := [] } with
          | none => none
          | some (elts1, st) => some ({ alit with Elts := elts1 }, st.errs)
        | _, _ => none
      | some .Array | some .Slice =>
        -- `checkCompositeLitArrayOrSlice`
        match t1.Elem with
        | none => none
        | some eltT =>
          let length : Option Int :=
            match t1.Kind with
            | some .Array => t1.Len.map Int.ofNat
            | _ => some (-1)
          match length with
          | none => none
          | some len =>
            match checkCompositeLitArrayElts h ck ctx env t1 len eltT elts 0
                { maxIndex := -1, curIndex := 0, outOfBounds := false, used := [],
                  indices := alit.indices, errs := [] } with
            | none => none
            | some (elts1, st) =>
              some ({ alit with
                      Elts := elts1, indices := st.indices ++ [(-1, -1)],
                      length := if len == -1 then wrapSigned 64 (st.maxIndex + 1) else len },
                st.errs)
      | some .Struct => checkCompositeLitStruct ck ctx alit t1 env
      | some _ => none
/-- The loop of `checkCompositeLitMap` over the elements of the literal: the
checked elements and the final state. -/
def checkCompositeLitMapElts (h : Helpers) (ck : Checker) (ctx : Ctx) (env : Env) (kT : RType)
    (track : Bool) (eltT : RType) :
    List Expr → MapLitState → Option (List Expr × MapLitState)
  | [], st => some ([], st)
  | .KeyValueExpr key value :: rest, st =>
    match checkCompositeLitMapKey h ck ctx env kT track key st with
    | none => none
    | some (k, st1) =>
      match checkMapValue h ck ctx value eltT env with
      | none => none
      | some (v, moreErrs) =>
        match checkCompositeLitMapElts h ck ctx env kT track eltT rest
            { st1 with errs := if !moreErrs.isEmpty then st1.errs ++ moreErrs else st1.errs } with
        | none => none
        | some (rest1, st2) => some (.KeyValueExpr k v :: rest1, st2)
  | elt :: rest, st =>
    let r := ck.CheckExpr ctx elt env
    let errs1 := if !r.2.isEmpty then st.errs ++ r.2 else st.errs
    match checkCompositeLitMapElts h ck ctx env kT track eltT rest
        { st with errs := errs1 ++ [.ErrMissingMapKey (atNode ctx r.1)] } with
    | none => none
    | some (rest1, st2) => some (r.1 :: rest1, st2)
/-- The function `checkMapValue`; `none` is a panic. -/
def checkMapValue (h : Helpers) (ck : Checker) (ctx : Ctx) :
    Expr → RType → Env → Option (Expr × List Err)
  | expr, eltT, env =>
    match expr with
    | .CompositeLit lit =>
      if eltT.Kind = .Array ∨ eltT.Kind = .Slice ∨ eltT.Kind = .Map ∨ eltT.Kind = .Struct then
        match checkCompositeLitR h ck ctx lit (.rtype eltT) env with
        | none => none
        | some (alit, errs) => some (.CompositeLit alit, errs)
      else checkValueAssignable ck ctx expr eltT env Err.ErrBadMapValue
    | _ => checkValueAssignable ck ctx expr eltT env Err.ErrBadMapValue
/-- The loop of `checkCompositeLitArrayOrSlice` over the elements of the
literal, from the position `i` on: the checked elements and the final state.
`length` is the length of an array, -1 for a slice. -/
def checkCompositeLitArrayElts (h : Helpers) (ck : Checker) (ctx : Ctx) (env : Env) (t : Ty)
    (length : Int) (eltT : RType) :
    List Expr → Nat → ArrayLitState → Option (List Expr × ArrayLitState)
  | [], _, st => some ([], st)
  | .KeyValueExpr key value :: rest, i, st =>
    let r := ck.checkArrayIndex ctx key env
    let key1 := r.1
    let index := r.2.1
    let ok := r.2.2.1
    let moreErrs := r.2.2.2
    -- the state at the label `check`
    let placed : Option ArrayLitState :=
      if !ok || !moreErrs.isEmpty then
        some { st with curIndex := wrapSigned 64 (st.curIndex - 1),
                       errs := st.errs ++ moreErrs.filter Err.isErrUndefined ++
                         [.ErrBadArrayKey (atNode ctx key1)] }
      else
        checkCompositeLitArrayPlace ctx t length (.KeyValueExpr key1 value) (some key1)
          { st with indices := st.indices ++ [((i : Int), index)], curIndex := index }
    match placed with
    | none => none
    | some st1 =>
      match checkArrayValue h ck ctx value eltT env with
      | none => none
      | some (v, verrs) =>
        match checkCompositeLitArrayElts h ck ctx env t length eltT rest (i + 1)
            { st1 with curIndex := wrapSigned 64 (st1.curIndex + 1),
                       errs := if !verrs.isEmpty then st1.errs ++ verrs else st1.errs } with
        | none => none
        | some (rest1, st2) => some (.KeyValueExpr key1 v :: rest1, st2)
  | elt :: rest, i, st =>
    match checkCompositeLitArrayPlace ctx t length elt none st with
    | none => none
    | some st1 =>
      match checkArrayValue h ck ctx elt eltT env with
      | none => none
      | some (v, verrs) =>
        match checkCompositeLitArrayElts h ck ctx env t length eltT rest (i + 1)
            { st1 with curIndex := wrapSigned 64 (st1.curIndex + 1),
                       errs := if !verrs.isEmpty then st1.errs ++ verrs else st1.errs } with
        | none => none
        | some (rest1, st2) => some (v :: rest1, st2)
/-- The function `checkArrayValue`; `none` is a panic. -/
def checkArrayValue (h : Helpers) (ck : Checker) (ctx : Ctx) :
    Expr → RType → Env → Option (Expr × List Err)
  | expr, eltT, env =>
    match expr with
    | .CompositeLit lit =>
      if eltT.Kind = .Array ∨ eltT.Kind = .Slice ∨ eltT.Kind = .Map ∨ eltT.Kind = .Struct then
        match checkCompositeLitR h ck ctx lit (.rtype eltT) env with
        | none => none
        | some (alit, errs) => some (.CompositeLit alit, errs)
      else checkValueAssignable ck ctx expr eltT env Err.ErrBadArrayValue
    | _ => checkValueAssignable ck ctx expr eltT env Err.ErrBadArrayValue
end

/-- The function `checkCompositeLitMap`; `none` is a panic. -/
def checkCompositeLitMap (h : Helpers) (ck : Checker) (ctx : Ctx) (lit : CompositeLit) (t : Ty)
    (env : Env) : Option (CompositeLit × List Err) :=
  match t.Key, t.Elem with
  | some kT, some eltT =>
    match checkCompositeLitMapElts h ck ctx env kT (kT.Kind != .Interface) eltT lit.Elts
        { seen := [], errs := [] } with
    | none => none
    | some (elts1, st) => some ({ lit with Elts := elts1 }, st.errs)
  | _, _ => none

/-- The function `checkCompositeLitArrayOrSlice`; `none` is a panic. -/
def checkCompositeLitArrayOrSlice (h : Helpers) (ck : Checker) (ctx : Ctx) (lit : CompositeLit)
    (t : Ty) (env : Env) : Option (CompositeLit × List Err) :=
  match t.Elem with
  | none => none
  | some eltT =>
    let length : Option Int :=
      match t.Kind with
      | some .Array => t.Len.map Int.ofNat
      | _ => some (-1)
    match length with
    | none => none
    | some len =>
      match checkCompositeLitArrayElts h ck ctx env t len eltT lit.Elts 0
          { maxIndex := -1, curIndex := 0, outOfBounds := false, used := [],
            indices := lit.indices, errs := [] } with
      | none => none
      | some (elts1, st) =>
        some ({ lit with
                Elts := elts1, indices := st.indices ++ [(-1, -1)],
                length := if len == -1 then wrapSigned 64 (st.maxIndex + 1) else len },
          st.errs)

/-- The function `checkCompositeLit`. -/
def checkCompositeLit (h : Helpers) (ck : Checker) (ctx : Ctx) (lit : CompositeLitOf Expr)
    (env : Env) : Option (CompositeLit × List Err) :=
  checkCompositeLitR h ck ctx lit .nil env

/-! ## The statements of the specification: vocabulary -/

/-- The promotion ladder of the specification, integer < rune < float <
complex, as the position of a numeric constant type on it. -/
def ConstType.ladder : ConstType → Nat
  | .ConstInt => 0
  | .ConstRune => 1
  | .ConstFloat => 2
  | .ConstComplex => 3
  | _ => 0

/-- The wider of two numeric constant types on the promotion ladder of the
specification. -/
def ConstType.wider (x y : ConstType) : ConstType :=
  if x.ladder ≤ y.ladder then y else x

/-- The pairs of constant types that the specification lets combine: both
numeric, both string, both bool or both nil. -/
def ConstType.combines (x y : ConstType) : Bool :=
  (x.IsNumeric && y.IsNumeric) || (x == .ConstString && y == .ConstString) ||
  (x == .ConstBool && y == .ConstBool) || (x == .ConstNil && y == .ConstNil)

/-- Whether a diagnostic is an `ErrBadConstConversion`. -/
def Err.isErrBadConstConversion : Err → Bool
  | .ErrBadConstConversion _ _ _ _ => true
  | _ => false

/-- Whether a diagnostic is an `ErrTruncatedConstant`. -/
def Err.isErrTruncatedConstant : Err → Bool
  | .ErrTruncatedConstant _ _ _ => true
  | _ => false

/-- Whether a diagnostic is an `ErrOverflowedConstant`. -/
def Err.isErrOverflowedConstant : Err → Bool
  | .ErrOverflowedConstant _ _ _ _ => true
  | _ => false

/-- An instance of the absent helpers, for evaluating the conversion on concrete
inputs. `isNillable` holds of the kinds that have a nil value. The
floating-point results are placeholders: no statement below that evaluates this
instance converts to a floating-point or complex target. -/
def sampleHelpers : Helpers :=
  { Float64 := fun z => (0, decide (z.Im ≠ 0), false)
    Complex128 := fun _ => ((0, 0), false)
    isNillable := fun t =>
      match t.Kind with
      | .Chan | .Func | .Interface | .Map | .Ptr | .Slice => true
      | _ => false
    Float32 := fun f => f
    ConvertibleTo := fun s t => decide (s = t)
    Convert := fun v _ => v }

/-- A context for concrete inputs: the source text `x + y`. -/
def sampleCtx : Ctx := ⟨"x + y"⟩

/-- The untyped numeric constant of type `t` and real value `r`. -/
def numberConst (t : ConstType) (r : Rat) : Val := .constNumber ⟨t, ⟨r, 0⟩⟩

/-- The untyped string constant `s`. -/
def stringConst (s : String) : Val := .string (.basic .String) s

/-- The untyped bool constant `b`. -/
def boolConst (b : Bool) : Val := .bool (.basic .Bool) b

/-- A checked literal node of constant type `t` and constant value `v`. -/
def litNode (text : String) (t : ConstType) (v : Val) : Expr :=
  .BasicLit text ⟨[.const t], v⟩

/-- The kinds that the specification calls integer, unsigned, float or
complex. -/
def isNumberKind : Kind → Bool
  | .Int | .Int8 | .Int16 | .Int32 | .Int64
  | .Uint | .Uint8 | .Uint16 | .Uint32 | .Uint64 | .Uintptr
  | .Float32 | .Float64 | .Complex64 | .Complex128 => true
  | _ => false

/-- The kinds of the signed integer types. -/
def isSignedIntKind : Kind → Bool
  | .Int | .Int8 | .Int16 | .Int32 | .Int64 => true
  | _ => false

/-- Whether a constant value is well formed: a number carries one of the four
numeric constant types as its own type. -/
def Val.numberTyped : Val → Bool
  | .constNumber n => n.Typ.IsNumeric
  | _ => true

/-- The node inside the parentheses around a node. -/
def stripParens : Expr → Expr
  | .ParenExpr x _ => stripParens x
  | e => e

/-- An instance of the absent checking functions, for evaluating the builtin
checker on concrete inputs: the only type expression it resolves is `[]int`,
the integers it accepts are the decimal literals, the expressions it checks
are `nil` and the variables of the environment, an expression is assignable
to its own type and to the empty interface, no type is private, the operands
of a binary operation are variables, constants are promoted to the numeric
types, the superfluous parentheses are all those around a node, and the keys
of an array or slice literal are the decimal literals. -/
def sampleChecker : Checker :=
  { checkType := fun _ e _ =>
      match e with
      | .ArrayType none (.Ident "int" _) _ =>
        (.ArrayType none (.Ident "int" ⟨[.rtype intType], .invalid⟩)
          ⟨[.rtype (.slice intType)], .invalid⟩, .rtype (.slice intType), true, [])
      | _ => (e, .nil, false, [])
    checkInteger := fun _ e _ =>
      match e with
      | .BasicLit s _ =>
        if s.toList.all Char.isDigit && !s.toList.isEmpty then
          let i : Int := s.toList.foldl (fun acc ch => 10 * acc + (ch.toNat - 48 : Nat)) 0
          (.BasicLit s ⟨[.const .ConstInt], numberConst .ConstInt i⟩, i, true, [])
        else (e, 0, false, [])
      | _ => (e, 0, false, [])
    fakeCheckExpr := fun e _ => e
    CheckExpr := fun ctx e env =>
      match e with
      | .Ident "nil" _ => (.Ident "nil" ⟨[.const .ConstNil], .invalid⟩, [])
      | .Ident name _ =>
        match env.Vars.lookup name with
        | some t => (.Ident name ⟨[.rtype t], .invalid⟩, [])
        | none => (e, [.ErrUndefined (atNode ctx e)])
      | _ => (e, [.ErrBadBasicLit (atNode ctx e)])
    expectSingleType := fun ctx types e =>
      match types with
      | [] => (.nil, some (.ErrMissingValue (atNode ctx e)))
      | [t] => (t, none)
      | _ => (.nil, some (.ErrMultiInSingleContext (atNode ctx e)))
    exprAssignableTo := fun _ e t =>
      match e.KnownType with
      | [s] => (decide (s = t) || decide (t = .rtype emptyInterface), [])
      | _ => (false, [])
    unhackType := fun t => t
    checkBinaryOperands := fun ctx x y env =>
      match x, y with
      | .Ident n _, .Ident m _ =>
        match env.Vars.lookup n, env.Vars.lookup m with
        | some s, some t =>
          (.Ident n ⟨[.rtype s], .invalid⟩, .Ident m ⟨[.rtype t], .invalid⟩, true, [])
        | _, _ => (x, y, false, [.ErrUndefined (atNode ctx x)])
      | _, _ => (x, y, false, [.ErrInvalidBinaryOperation (atNode ctx x)])
    attemptBinaryOpConversion := fun t =>
      match t.Kind with
      | some k => isNumberKind k
      | none => false
    typeAssignableTo := fun s t => decide (s = t) || decide (t = .rtype emptyInterface)
    skipSuperfluousParens := stripParens
    checkExprAssignableTo := fun ctx e t env =>
      match e with
      | .Ident name _ =>
        match env.Vars.lookup name with
        | some s =>
          (.Ident name ⟨[.rtype s], .invalid⟩,
            decide (Ty.rtype s = t) || decide (t = .rtype emptyInterface), [])
        | none => (e, false, [.ErrUndefined (atNode ctx e)])
      | _ => (e, false, [.ErrBadBasicLit (atNode ctx e)])
    checkArrayIndex := fun _ e _ =>
      match e with
      | .BasicLit s _ =>
        if s.toList.all Char.isDigit && !s.toList.isEmpty then
          let i : Int := s.toList.foldl (fun acc ch => 10 * acc + (ch.toNat - 48 : Nat)) 0
          (.BasicLit s ⟨[.const .ConstInt], numberConst .ConstInt i⟩, i, true, [])
        else (e, 0, false, [])
      | _ => (e, 0, false, []) }

/-- An empty environment for concrete inputs. -/
def sampleEnv : Env := ⟨[], []⟩

/-- An unchecked literal node. -/
def rawLit (s : String) : Expr := .BasicLit s ⟨[], .invalid⟩

/-- An unchecked call `make(args...)`. -/
def makeCall (args : List Expr) : CallExpr :=
  { Fun := .Ident "make" ⟨[], .invalid⟩, Args := args, Ellipsis := 0, knownType := [],
    constValue := .invalid, isBuiltin := false, isTypeConversion := false,
    arg0MultiValued := false, argNEllipsis := false }

/-- Whether a node is a call other than a type conversion, or a receive from a
channel. -/
def Expr.isCallOrRecv : Expr → Bool
  | .CallExpr call => !call.isTypeConversion
  | .UnaryExpr op _ _ => op == "<-"
  | _ => false

mutual
/-- The sub-expressions of a node, the node itself first, in source order. -/
def Expr.subExprs : Expr → List Expr
  | e@(.BadExpr) => [e]
  | e@(.Ident _ _) => [e]
  | e@(.Ellipsis elt) => e :: subExprsOpt elt
  | e@(.BasicLit _ _) => [e]
  | e@(.FuncLit typ _) => e :: typ.subExprs
  | e@(.CompositeLit ⟨typ, elts, _, _, _, _⟩) => e :: (subExprsOpt typ ++ subExprsList elts)
  | e@(.ParenExpr x _) => e :: x.subExprs
  | e@(.SelectorExpr x _ _) => e :: x.subExprs
  | e@(.IndexExpr x i _) => e :: (x.subExprs ++ i.subExprs)
  | e@(.SliceExpr x lo hi _) => e :: (x.subExprs ++ (subExprsOpt lo ++ subExprsOpt hi))
  | e@(.TypeAssertExpr x typ _) => e :: (x.subExprs ++ subExprsOpt typ)
  | e@(.CallExpr ⟨f, args, _, _, _, _, _, _, _⟩) => e :: (f.subExprs ++ subExprsList args)
  | e@(.StarExpr x _) => e :: x.subExprs
  | e@(.UnaryExpr _ x _) => e :: x.subExprs
  | e@(.BinaryExpr x _ y _) => e :: (x.subExprs ++ y.subExprs)
  | e@(.KeyValueExpr k v) => e :: (k.subExprs ++ v.subExprs)
  | e@(.ArrayType len elt _) => e :: (subExprsOpt len ++ elt.subExprs)
  | e@(.StructType fs _) => e :: subExprsFields fs
  | e@(.FuncType ps rs _) => e :: (subExprsFields ps ++ subExprsFields rs)
  | e@(.InterfaceType ms _) => e :: subExprsFields ms
  | e@(.MapType k v _) => e :: (k.subExprs ++ v.subExprs)
  | e@(.ChanType v _) => e :: v.subExprs
/-- The sub-expressions of an optional node. -/
def subExprsOpt : Option Expr → List Expr
  | none => []
  | some e => e.subExprs
/-- The sub-expressions of a list of nodes. -/
def subExprsList : List Expr → List Expr
  | [] => []
  | e :: es => e.subExprs ++ subExprsList es
/-- The sub-expressions of a list of named nodes. -/
def subExprsFields : List (String × Expr) → List Expr
  | [] => []
  | (_, e) :: es => e.subExprs ++ subExprsFields es
end

/-- Whether an expression contains a call sub-expression other than a type
conversion, or a channel-receive sub-expression: the wording of the
specification. -/
def Expr.containsCallOrRecv (e : Expr) : Bool := e.subExprs.any Expr.isCallOrRecv

/-- Whether a diagnostic is an `ErrBuiltinWrongNumberOfArgs`. -/
def Err.isErrBuiltinWrongNumberOfArgs : Err → Bool
  | .ErrBuiltinWrongNumberOfArgs _ => true
  | _ => false

/-- Whether a diagnostic is an `ErrMakeLenGtrThanCap`. -/
def Err.isErrMakeLenGtrThanCap : Err → Bool
  | .ErrMakeLenGtrThanCap _ _ _ => true
  | _ => false

/-- Whether a diagnostic is an `ErrBuiltinWrongArgType`. -/
def Err.isErrBuiltinWrongArgType : Err → Bool
  | .ErrBuiltinWrongArgType _ _ => true
  | _ => false

/-- Whether a diagnostic is an `ErrBuiltinInvalidEllipsis`. -/
def Err.isErrBuiltinInvalidEllipsis : Err → Bool
  | .ErrBuiltinInvalidEllipsis _ => true
  | _ => false

/-- An environment for concrete inputs, with one variable of each type that
the examples need. -/
def sampleVars : Env :=
  ⟨[("a", .array 3 intType), ("p", .ptr (.array 3 intType)), ("q", .ptr intType),
    ("b", byteSlice), ("ints", .slice intType), ("anys", .slice emptyInterface),
    ("x", intType), ("str", .basic .String), ("m", .map (.basic .String) intType),
    ("k", .basic .String)], []⟩

/-- An unchecked identifier. -/
def rawIdent (name : String) : Expr := .Ident name ⟨[], .invalid⟩

/-- A checked identifier of type `t`. -/
def typedIdent (name : String) (t : Ty) : Expr := .Ident name ⟨[t], .invalid⟩

/-- An unchecked call of the builtin `name`; `ellipsis` is the position of the
ellipsis, 0 when the call has none. -/
def builtinCall (name : String) (args : List Expr) (ellipsis : Nat) : CallExpr :=
  { Fun := .Ident name ⟨[], .invalid⟩, Args := args, Ellipsis := ellipsis, knownType := [],
    constValue := .invalid, isBuiltin := false, isTypeConversion := false,
    arg0MultiValued := false, argNEllipsis := false }

/-- The type expression `[]int`, unchecked. -/
def sliceOfIntExpr : Expr := .ArrayType none (rawIdent "int") ⟨[], .invalid⟩

/-- Whether a diagnostic is an `ErrWrongNumberOfArgs`. -/
def Err.isErrWrongNumberOfArgs : Err → Bool
  | .ErrWrongNumberOfArgs _ _ => true
  | _ => false

/-- Whether a diagnostic is an `ErrInvalidEllipsisInCall`. -/
def Err.isErrInvalidEllipsisInCall : Err → Bool
  | .ErrInvalidEllipsisInCall _ => true
  | _ => false

/-- Whether a diagnostic is an `ErrMixedStructValues`. -/
def Err.isErrMixedStructValues : Err → Bool
  | .ErrMixedStructValues _ => true
  | _ => false

/-- Whether a diagnostic is an `ErrWrongNumberOfStructValues`. -/
def Err.isErrWrongNumberOfStructValues : Err → Bool
  | .ErrWrongNumberOfStructValues _ => true
  | _ => false

/-- The diagnostics that the specification gives a spread call `f(g())`: one
`ErrWrongArgType` for each position, from `i` on, at which the result type is
not assignable to the parameter type, in increasing position. -/
def spreadDiagnostics (ck : Checker) (ctx : Ctx) (call : CallExpr) (arg0 : Expr) :
    List Ty → List RType → Nat → List Err
  | r :: rs, p :: ps, i =>
    (if ck.typeAssignableTo r (.rtype p) then []
     else [.ErrWrongArgType (atNode ctx arg0) call i]) ++
      spreadDiagnostics ck ctx call arg0 rs ps (i + 1)
  | _, _, _ => []

/-- An environment for the examples of calls: functions `f(int, string)`,
`f2(int, int)` and `f1(int)`, and variables of type `int`, `float32`,
`float64`, `complex64` and `complex128`. -/
def callVars : Env :=
  ⟨[("f", .func [intType, .basic .String] [] false), ("f2", .func [intType, intType] [] false),
    ("f1", .func [intType] [] false), ("x", intType), ("s32", f32), ("s64", f64),
    ("z64", c64), ("z128", c128)], []⟩

/-- An unchecked call of `fn` on `args`; `ellipsis` is the position of the
ellipsis, 0 when the call has none. -/
def rawCall (fn : Expr) (args : List Expr) (ellipsis : Nat) : CallExpr :=
  { Fun := fn, Args := args, Ellipsis := ellipsis, knownType := [],
    constValue := .invalid, isBuiltin := false, isTypeConversion := false,
    arg0MultiValued := false, argNEllipsis := false }

/-- A checked call `g()` of a function whose results are an `int` and a
`string`. -/
def pairCall : Expr :=
  .CallExpr { rawCall (typedIdent "g" (.rtype (.func [] [intType, .basic .String] false))) [] 0
    with knownType := [.rtype intType, .rtype (.basic .String)] }

/-- An unchecked struct literal with the elements `elts`. -/
def rawLiteral (elts : List Expr) : CompositeLit :=
  { Typ := none, Elts := elts, knownType := [], indices := [], fields := [], length := 0 }

/-- The struct type with an `int` field `A` and a `string` field `B`. -/
def pairStruct : RType := .struct [("A", intType), ("B", .basic .String)]

/-- The diagnostics of the positional elements of a struct literal, in order:
those of `checkStructField` on each element that has a field. -/
def positionalFieldDiagnostics (ck : Checker) (ctx : Ctx) (env : Env) :
    List Expr → List (String × RType) → List Err
  | e :: es, f :: fs =>
    (checkStructField ck ctx e f.2 env).2 ++ positionalFieldDiagnostics ck ctx env es fs
  | _, _ => []

/-- The checked nodes of the positional elements of a struct literal that have
a field. -/
def positionalFieldNodes (ck : Checker) (ctx : Ctx) (env : Env) :
    List Expr → List (String × RType) → List Expr
  | e :: es, f :: fs =>
    (checkStructField ck ctx e f.2 env).1 :: positionalFieldNodes ck ctx env es fs
  | _, _ => []

/-- The diagnostics of `CheckExpr` on each node of a list, in order. -/
def checkedDiagnostics (ck : Checker) (ctx : Ctx) (env : Env) : List Expr → List Err
  | [] => []
  | e :: es => (ck.CheckExpr ctx e env).2 ++ checkedDiagnostics ck ctx env es

/-- The first element of a struct literal that is a bare value. -/
def firstBare (elts : List Expr) : Option Expr := elts.find? (fun e => !e.isKeyValue)

/-- An element `name: value` of a struct literal, unchecked. -/
def keyed (name : String) (value : Expr) : Expr := .KeyValueExpr (rawIdent name) value

/-- Whether a diagnostic is an `ErrDuplicateMapKey`. -/
def Err.isErrDuplicateMapKey : Err → Bool
  | .ErrDuplicateMapKey _ => true
  | _ => false

/-- Whether a diagnostic is an `ErrMissingCompositeLitType`. -/
def Err.isErrMissingCompositeLitType : Err → Bool
  | .ErrMissingCompositeLitType _ => true
  | _ => false

/-- Whether a diagnostic is an `ErrBadArrayValue`. -/
def Err.isErrBadArrayValue : Err → Bool
  | .ErrBadArrayValue _ _ => true
  | _ => false

/-- Whether a diagnostic is an `ErrBadMapValue`. -/
def Err.isErrBadMapValue : Err → Bool
  | .ErrBadMapValue _ _ => true
  | _ => false

/-- Whether a diagnostic is an `ErrBadConversion`. -/
def Err.isErrBadConversion : Err → Bool
  | .ErrBadConversion _ _ _ _ => true
  | _ => false

/-- Whether a diagnostic is an `ErrDuplicateArrayKey`. -/
def Err.isErrDuplicateArrayKey : Err → Bool
  | .ErrDuplicateArrayKey _ _ => true
  | _ => false

/-- The host type that a type expression of the examples denotes: `int`,
`string`, a slice `[]T`, a map `map[K]V` or a pointer `*T` of them. -/
def sampleTypeOf : Expr → Option RType
  | .Ident name _ =>
    if name == "int" then some intType
    else if name == "string" then some (.basic .String)
    else none
  | .ArrayType none elt _ => (sampleTypeOf elt).map RType.slice
  | .MapType key value _ =>
    match sampleTypeOf key, sampleTypeOf value with
    | some k, some v => some (.map k v)
    | _, _ => none
  | .StarExpr x _ => (sampleTypeOf x).map RType.ptr
  | _ => none

/-- Modelled from the spec: an instance of the absent checking functions for
the examples of composite literals. It is `sampleChecker`, except that the
type expressions it resolves are those of `sampleTypeOf`, that a decimal
literal is an untyped integer constant, assignable to the numeric types, and
that a composite literal met as an expression is delegated to the checker of
composite literals with no contextual type (`checkCompositeLit`), as the
specification has the expression checker do. -/
def literalChecker : Checker :=
  { sampleChecker with
    checkType := fun _ e _ =>
      match sampleTypeOf e with
      | some t => (e, .rtype t, true, [])
      | none => (e, .nil, false, [])
    checkExprAssignableTo := fun ctx e t env =>
      match e with
      | .BasicLit s _ =>
        if s.toList.all Char.isDigit && !s.toList.isEmpty then
          let i : Int := s.toList.foldl (fun acc ch => 10 * acc + (ch.toNat - 48 : Nat)) 0
          let node : Expr := .BasicLit s ⟨[.const .ConstInt], numberConst .ConstInt i⟩
          if sampleChecker.attemptBinaryOpConversion t then (node, true, [])
          else
            (node, false,
              [.ErrBadConstConversion (atNode ctx node) (.const .ConstInt) t
                (numberConst .ConstInt i)])
        else (e, false, [.ErrBadBasicLit (atNode ctx e)])
      | .CompositeLit lit =>
        match checkCompositeLit sampleHelpers sampleChecker ctx lit env with
        | some (alit, errs) =>
          (.CompositeLit alit, errs.isEmpty && decide (alit.knownType = [t]), errs)
        | none => (e, false, [.ErrBadBasicLit (atNode ctx e)])
      | _ => sampleChecker.checkExprAssignableTo ctx e t env }

/-- An environment for the examples of literals: the variables `a`, `b`, `c`
and `x` of type `int`, and `s` of type `string`. -/
def literalVars : Env :=
  ⟨[("a", intType), ("b", intType), ("c", intType), ("x", intType), ("s", .basic .String)], []⟩

/-- An unchecked composite literal with the type prefix `typ` and the elements
`elts`. -/
def typedLiteral (typ : Expr) (elts : List Expr) : CompositeLit :=
  { Typ := some typ, Elts := elts, knownType := [], indices := [], fields := [], length := 0 }

/-- The type expression `[]T`, unchecked. -/
def sliceExpr (elt : Expr) : Expr := .ArrayType none elt ⟨[], .invalid⟩

/-- The type expression `map[K]V`, unchecked. -/
def mapExpr (key value : Expr) : Expr := .MapType key value ⟨[], .invalid⟩

/-- Whether a node is an `*ast.CompositeLit`. -/
def Expr.isCompositeLit : Expr → Bool
  | .CompositeLit _ => true
  | _ => false

/-- The kinds of the types that `checkMapValue` and `checkArrayValue` check a
nested literal against: array, slice, map and struct. -/
def isContainerKind : Kind → Bool
  | .Array | .Slice | .Map | .Struct => true
  | _ => false

/-- The value of an element of an array or slice literal: that of the pair
for an element with a key, the element itself otherwise. -/
def elementValue : Expr → Expr
  | .KeyValueExpr _ value => value
  | e => e

/-- The key of an element of an array or slice literal: `none` for an element
without a key, `some none` for a key that `checkArrayIndex` does not accept
without a diagnostic, `some (some i)` for a valid key of index `i`. -/
def arrayKeyOf (ck : Checker) (ctx : Ctx) (env : Env) : Expr → Option (Option Int)
  | .KeyValueExpr key _ =>
    let r := ck.checkArrayIndex ctx key env
    if !r.2.2.1 || !r.2.2.2.isEmpty then some none else some (some r.2.1)
  | _ => none

/-- The placement of the elements of an array or slice literal in the words of
the specification, from their keys: an element with a valid key is placed at
the keyed index, an element without a key at the index following that of the
previous element, `next`, which is 0 for the first one. An element whose key
is not valid is not placed (`none`), and leaves `next` as it is. -/
def placements : List (Option (Option Int)) → Int → List (Option Int)
  | [], _ => []
  | none :: rest, next => some next :: placements rest (next + 1)
  | some (some k) :: rest, _ => some k :: placements rest (k + 1)
  | some none :: rest, next => none :: placements rest next

/-- Whether no element without a key is placed at an index that an earlier
element has been given; `used` is the indices given so far. -/
def unkeyedFresh : List (Option (Option Int)) → Int → List Int → Bool
  | [], _, _ => true
  | none :: rest, next, used => !used.contains next && unkeyedFresh rest (next + 1) (next :: used)
  | some (some k) :: rest, _, used => unkeyedFresh rest (k + 1) (k :: used)
  | some none :: rest, next, used => unkeyedFresh rest next used

/-- The pairs of the position and the index of the elements with a valid key,
in order; `i` is the position of the first element of the list. -/
def keyedIndices : List (Option (Option Int)) → Nat → List (Int × Int)
  | [], _ => []
  | some (some k) :: rest, i => ((i : Int), k) :: keyedIndices rest (i + 1)
  | _ :: rest, i => keyedIndices rest (i + 1)

/-- The value that a checked constant key of a map literal stands for in the
words of the specification, its "resolved interface-boxed value", written from
the data model of the specification and not from the code. The untyped nil is the
nil interface (the inner `none`). Another untyped constant is resolved to the
default type of its constant type: an integer constant to `int`, a rune
constant to `rune` (`int32`), both wrapped to the width of the type, a float
constant to its `float64`, a complex constant to its `complex128`, a string
constant to `string`, a bool constant to `bool`. A typed constant is its own
value, of which an interface gives the value it holds. The result is `none`
for a node that is no such constant. -/
def boxedKey (h : Helpers) (k : Expr) : Option (Option Val) :=
  match k.KnownType.head?, k.Const with
  | some (.const .ConstNil), _ => some none
  | some (.const .ConstInt), .constNumber n =>
    some (some (.int intType (wrapSigned 64 n.Value.integerPart)))
  | some (.const .ConstRune), .constNumber n =>
    some (some (.int (.basic .Int32) (wrapSigned 32 n.Value.integerPart)))
  | some (.const .ConstFloat), .constNumber n => some (some (.float f64 (h.Float64 n.Value).1))
  | some (.const .ConstComplex), .constNumber n =>
    some (some (.complex c128 (h.Complex128 n.Value).1.1 (h.Complex128 n.Value).1.2))
  | some (.const .ConstString), .string _ s => some (some (.string (.basic .String) s))
  | some (.const .ConstBool), .bool _ b => some (some (.bool (.basic .Bool) b))
  | some (.rtype _), .int t i => some (some (.int t i))
  | some (.rtype _), .uint t u => some (some (.uint t u))
  | some (.rtype _), .float t f => some (some (.float t f))
  | some (.rtype _), .complex t re im => some (some (.complex t re im))
  | some (.rtype _), .string t s => some (some (.string t s))
  | some (.rtype _), .bool t b => some (some (.bool t b))
  | some (.rtype _), .iface _ (.int t i) => some (some (.int t i))
  | some (.rtype _), .iface _ (.uint t u) => some (some (.uint t u))
  | some (.rtype _), .iface _ (.float t f) => some (some (.float t f))
  | some (.rtype _), .iface _ (.complex t re im) => some (some (.complex t re im))
  | some (.rtype _), .iface _ (.string t s) => some (some (.string t s))
  | some (.rtype _), .iface _ (.bool t b) => some (some (.bool t b))
  | _, _ => none

/-- The keys of which two are the same key of a map exactly when they are the
same value: the nil interface, and the values of the integer, string and
boolean types and of the floating-point and complex types other than a NaN and
the negative zero, which no constant is. -/
def plainKey : Option Val → Bool
  | none => true
  | some (.int _ _) => true
  | some (.uint _ _) => true
  | some (.string _ _) => true
  | some (.bool _ _) => true
  | some (.float _ f) => !float64IsNaN f && f != 2 ^ 63
  | some (.complex _ re im) =>
    !float64IsNaN re && re != 2 ^ 63 && !float64IsNaN im && im != 2 ^ 63
  | _ => false

/-- The diagnostics of duplicate keys that the specification gives the entries
of a map literal, in order: one `ErrDuplicateMapKey`, located at the checked
key, for each entry whose constant key equals that of an earlier entry;
`earlier` is the boxed keys of the entries before the list. -/
def duplicateMapKeys (h : Helpers) (ck : Checker) (ctx : Ctx) (env : Env) (kT : RType) :
    List (Expr × Expr) → List (Option Val) → List Err
  | [], _ => []
  | (key, _) :: rest, earlier =>
    let k := (ck.checkExprAssignableTo ctx key (.rtype kT) env).1
    match boxedKey h k with
    | some c =>
      (if earlier.contains c then [.ErrDuplicateMapKey (atNode ctx k)] else []) ++
        duplicateMapKeys h ck ctx env kT rest (c :: earlier)
    | none => duplicateMapKeys h ck ctx env kT rest earlier

/-- An instance of the absent checking functions for the examples of
constant operands: it is `sampleChecker`, except that `CheckExpr` returns a
literal that carries an untyped constant type as it is, without a
diagnostic. -/
def constantChecker : Checker :=
  { sampleChecker with
    CheckExpr := fun ctx e env =>
      match e with
      | .BasicLit _ ⟨[.const _], _⟩ => (e, [])
      | _ => sampleChecker.CheckExpr ctx e env }

/-! ## Promotion of numeric constant types -/

/-- C1: on every pair of untyped numeric constant types, `promoteConstNumbers`
returns the wider of the two under the strict order int < rune < float <
complex; in particular int with float gives float, rune with int gives rune, and
complex with any numeric type, on either side, gives complex. -/
theorem promoteConstNumbers_wider :
    (∀ x y : ConstType, x.IsNumeric = true → y.IsNumeric = true →
      promoteConstNumbers x y = some (x.wider y)) ∧
    promoteConstNumbers .ConstInt .ConstFloat = some .ConstFloat ∧
    promoteConstNumbers .ConstRune .ConstInt = some .ConstRune ∧
    (∀ y : ConstType, y.IsNumeric = true →
      promoteConstNumbers .ConstComplex y = some .ConstComplex ∧
      promoteConstNumbers y .ConstComplex = some .ConstComplex) := by
  refine ⟨?_, rfl, rfl, ?_⟩
  · intro x y
    cases x <;> cases y <;> decide
  · intro y
    cases y <;> decide

/-- C1, at the pair rune, float: both are numeric and the result is float, the
wider of the two. -/
theorem promoteConstNumbers_wider_witness :
    promoteConstNumbers .ConstRune .ConstFloat
      = some (ConstType.wider .ConstRune .ConstFloat) ∧
    ConstType.wider .ConstRune .ConstFloat = .ConstFloat :=
  ⟨promoteConstNumbers_wider.1 .ConstRune .ConstFloat rfl rfl, rfl⟩

/-- C2: `promoteConstNumbers` is idempotent and symmetric on the four untyped
numeric constant types. -/
theorem promoteConstNumbers_idem_symm :
    (∀ x : ConstType, x.IsNumeric = true → promoteConstNumbers x x = some x) ∧
    (∀ x y : ConstType, x.IsNumeric = true → y.IsNumeric = true →
      promoteConstNumbers x y = promoteConstNumbers y x) := by
  constructor
  · intro x
    cases x <;> decide
  · intro x y
    cases x <;> cases y <;> decide

/-- C2, at float and at the pair int, complex. -/
theorem promoteConstNumbers_idem_symm_witness :
    promoteConstNumbers .ConstFloat .ConstFloat = some .ConstFloat ∧
    promoteConstNumbers .ConstInt .ConstComplex
      = promoteConstNumbers .ConstComplex .ConstInt :=
  ⟨promoteConstNumbers_idem_symm.1 .ConstFloat rfl,
   promoteConstNumbers_idem_symm.2 .ConstInt .ConstComplex rfl rfl⟩

/-! ## Promotion of two constant types -/

/-- C3: for every pair of the seven untyped constant types, `promoteConsts`
returns normally; it returns a type with no diagnostics exactly when both are
numeric, both string, both bool or both nil; the type is that of
`promoteConstNumbers` when both are numeric and `x` otherwise; in every other
pairing no type is returned and the diagnostics contain an
`ErrBadConstConversion`. -/
theorem promoteConsts_combines (ctx : Ctx) (x y : ConstType) (xexpr yexpr : Expr)
    (xval yval : Val) :
    ∃ r errs, promoteConsts ctx x y xexpr yexpr xval yval = some (r, errs) ∧
      ((r.isSome = true ∧ errs = []) ↔ x.combines y = true) ∧
      (x.IsNumeric = true ∧ y.IsNumeric = true → r = promoteConstNumbers x y) ∧
      (x.combines y = true → ¬ (x.IsNumeric = true ∧ y.IsNumeric = true) → r = some x) ∧
      (x.combines y = false →
        r = none ∧ ∃ e ∈ errs, e.isErrBadConstConversion = true) := by
  cases x <;> cases y <;> refine ⟨_, _, rfl, ?_⟩ <;>
    simp [ConstType.combines, ConstType.IsNumeric, promoteConstNumbers,
      Err.isErrBadConstConversion]

/-- C3, at the pairs float, rune (both numeric: the type of
`promoteConstNumbers`, float) and string, bool (no type, and a diagnostic). -/
theorem promoteConsts_combines_witness :
    (∃ r errs, promoteConsts sampleCtx .ConstFloat .ConstRune
        (litNode "1.5" .ConstFloat (numberConst .ConstFloat (3 / 2)))
        (litNode "'a'" .ConstRune (numberConst .ConstRune 97))
        (numberConst .ConstFloat (3 / 2)) (numberConst .ConstRune 97) = some (r, errs) ∧
      r = some .ConstFloat ∧ errs = []) ∧
    (∃ r errs, promoteConsts sampleCtx .ConstString .ConstBool
        (litNode "\"a\"" .ConstString (stringConst "a"))
        (litNode "true" .ConstBool (boolConst true))
        (stringConst "a") (boolConst true) = some (r, errs) ∧
      r = none ∧ ∃ e ∈ errs, e.isErrBadConstConversion = true) := by
  constructor
  · obtain ⟨r, errs, h, hiff, hnum, _, _⟩ :=
      promoteConsts_combines sampleCtx .ConstFloat .ConstRune
        (litNode "1.5" .ConstFloat (numberConst .ConstFloat (3 / 2)))
        (litNode "'a'" .ConstRune (numberConst .ConstRune 97))
        (numberConst .ConstFloat (3 / 2)) (numberConst .ConstRune 97)
    exact ⟨r, errs, h, hnum ⟨rfl, rfl⟩, (hiff.2 rfl).2⟩
  · obtain ⟨r, errs, h, _, _, _, hbad⟩ :=
      promoteConsts_combines sampleCtx .ConstString .ConstBool
        (litNode "\"a\"" .ConstString (stringConst "a"))
        (litNode "true" .ConstBool (boolConst true))
        (stringConst "a") (boolConst true)
    exact ⟨r, errs, h, hbad rfl⟩

/-- C4 as stated fails: for the pair bool, int the one diagnostic of
`promoteConsts` has the numeric operand's type, int, as its source and bool, not
int, as its target. -/
theorem promoteConsts_bool_int_diagnostic :
    promoteConsts sampleCtx .ConstBool .ConstInt
        (litNode "true" .ConstBool (boolConst true))
        (litNode "1" .ConstInt (numberConst .ConstInt 1))
        (boolConst true) (numberConst .ConstInt 1)
      = some (none,
          [.ErrBadConstConversion
            (atNode sampleCtx (litNode "1" .ConstInt (numberConst .ConstInt 1)))
            (.const .ConstInt) (.const .ConstBool) (numberConst .ConstInt 1)]) ∧
    ConstType.IsNumeric .ConstInt = true ∧
    Ty.const .ConstBool ≠ Ty.const .ConstInt :=
  ⟨rfl, rfl, by decide⟩

/-- C4, amended: on every pair on which `promoteConsts` fails it returns no type
and only `ErrBadConstConversion` diagnostics. When `x` is numeric or bool there
is one, converting `y` to the type `x`; when `x` is string or nil and `y` is
numeric there is one, converting `x` to the type `y`; when `x` is string or nil
and `y` is another non-numeric type there are two, converting `x` and then `y`
to `ConstInt`. -/
theorem promoteConsts_diagnostics (ctx : Ctx) (x y : ConstType) (xexpr yexpr : Expr)
    (xval yval : Val) (hfail : x.combines y = false) :
    promoteConsts ctx x y xexpr yexpr xval yval = some (none,
      if x.IsNumeric || x == .ConstBool then
        [.ErrBadConstConversion (atNode ctx yexpr) (.const y) (.const x) yval]
      else if y.IsNumeric then
        [.ErrBadConstConversion (atNode ctx xexpr) (.const x) (.const y) xval]
      else
        [.ErrBadConstConversion (atNode ctx xexpr) (.const x) (.const .ConstInt) xval,
         .ErrBadConstConversion (atNode ctx yexpr) (.const y) (.const .ConstInt) yval]) := by
  cases x <;> cases y <;> first | rfl | exact absurd hfail (by decide)

/-- C4 amended, at the pair nil, string: two diagnostics, both to `ConstInt`. -/
theorem promoteConsts_diagnostics_witness :
    promoteConsts sampleCtx .ConstNil .ConstString
        (.Ident "nil" ⟨[.const .ConstNil], .invalid⟩)
        (litNode "\"a\"" .ConstString (stringConst "a"))
        .invalid (stringConst "a")
      = some (none,
          [.ErrBadConstConversion
            (atNode sampleCtx (.Ident "nil" ⟨[.const .ConstNil], .invalid⟩))
            (.const .ConstNil) (.const .ConstInt) .invalid,
           .ErrBadConstConversion
            (atNode sampleCtx (litNode "\"a\"" .ConstString (stringConst "a")))
            (.const .ConstString) (.const .ConstInt) (stringConst "a")]) :=
  promoteConsts_diagnostics sampleCtx .ConstNil .ConstString
    (.Ident "nil" ⟨[.const .ConstNil], .invalid⟩)
    (litNode "\"a\"" .ConstString (stringConst "a")) .invalid (stringConst "a") rfl

/-! ## Conversion of constants: the depth of the recursion -/

theorem defaultPromotion_kind (t : ConstType) (r : RType)
    (h : t.DefaultPromotion = some r) : r.Kind ≠ .Interface := by
  cases t <;> simp [ConstType.DefaultPromotion, ConstType.Typ] at h <;> subst h <;> decide

theorem convertConstToTypedFuel_direct (h : Helpers) (n : Nat) (ctx : Ctx) (fromT : ConstType)
    (c : constValue) (toT : RType) (isTypeCast : Bool) (expr : Expr)
    (hk : toT.Kind ≠ .Interface) :
    convertConstToTypedFuel h (n + 1) ctx fromT c toT isTypeCast expr
      = convertConstToTypedFuel h 1 ctx fromT c toT isTypeCast expr := by
  unfold convertConstToTypedFuel
  cases fromT
  case ConstString => rfl
  case ConstBool => rfl
  case ConstNil => rfl
  all_goals
    cases c
    case constNumber m =>
      simp only [Val.asConstNumber]
      generalize hkk : toT.Kind = k at hk
      cases k
      case Interface => exact absurd rfl hk
      all_goals rfl
    all_goals rfl

/-- The recursion of `convertConstToTyped` never goes beyond depth 2: with any
larger bound the result is that of `convertConstToTyped`. -/
theorem convertConstToTypedFuel_stable (h : Helpers) (n : Nat) (ctx : Ctx) (fromT : ConstType)
    (c : constValue) (toT : RType) (isTypeCast : Bool) (expr : Expr) :
    convertConstToTypedFuel h (n + 2) ctx fromT c toT isTypeCast expr
      = convertConstToTyped h ctx fromT c toT isTypeCast expr := by
  show convertConstToTypedFuel h ((n + 1) + 1) ctx fromT c toT isTypeCast expr
      = convertConstToTypedFuel h (1 + 1) ctx fromT c toT isTypeCast expr
  unfold convertConstToTypedFuel
  cases fromT
  case ConstString => rfl
  case ConstBool => rfl
  case ConstNil => rfl
  all_goals
    cases c
    case constNumber m =>
      simp only [Val.asConstNumber]
      generalize hkk : toT.Kind = k
      cases k
      case Interface =>
        simp only []
        split
        · cases hd : m.Typ.DefaultPromotion with
          | none => rfl
          | some to2 =>
            simp only []
            rw [convertConstToTypedFuel_direct h n ctx _ _ to2 _ _ (defaultPromotion_kind _ _ hd)]
        · rfl
      all_goals rfl
    all_goals rfl

/-! ## Conversion of constants: incompatible domains -/

/-- C5: `convertConstToTyped`, and so `castConstToTyped` and
`promoteConstToTyped`, fails on a string constant and a target of integer,
unsigned, float or complex kind: it returns the invalid value and exactly one
diagnostic, an `ErrBadConstConversion` carrying the source type, the target type
and the value of the constant. -/
theorem convertConstToTyped_string_to_number (h : Helpers) (ctx : Ctx) (c : constValue)
    (toT : RType) (expr : Expr) (hk : isNumberKind toT.Kind = true) :
    (∀ isTypeCast : Bool, convertConstToTyped h ctx .ConstString c toT isTypeCast expr
      = some (Val.invalid,
          [.ErrBadConstConversion (atNode ctx expr) (.const .ConstString) (.rtype toT) c])) ∧
    castConstToTyped h ctx .ConstString c toT expr
      = some (Val.invalid,
          [.ErrBadConstConversion (atNode ctx expr) (.const .ConstString) (.rtype toT) c]) ∧
    promoteConstToTyped h ctx .ConstString c toT expr
      = some (Val.invalid,
          [.ErrBadConstConversion (atNode ctx expr) (.const .ConstString) (.rtype toT) c]) := by
  have h1 : toT.Kind ≠ .String := by
    intro e; rw [e] at hk; exact absurd hk (by decide)
  have h2 : toT ≠ emptyInterface := by
    intro e; rw [e] at hk; exact absurd hk (by decide)
  have h3 : toT ≠ byteSlice := by
    intro e; rw [e] at hk; exact absurd hk (by decide)
  have key : ∀ isTypeCast : Bool, convertConstToTyped h ctx .ConstString c toT isTypeCast expr
      = some (Val.invalid,
          [.ErrBadConstConversion (atNode ctx expr) (.const .ConstString) (.rtype toT) c]) := by
    intro isTypeCast
    simp [convertConstToTyped, convertConstToTypedFuel, h1, h2, h3]
  exact ⟨key, key true, key false⟩

/-- C5, at the string constant `"abc"` and the target `uint64`, as a cast. -/
theorem convertConstToTyped_string_to_number_witness :
    castConstToTyped sampleHelpers sampleCtx .ConstString (stringConst "abc")
        (.basic .Uint64) (litNode "\"abc\"" .ConstString (stringConst "abc"))
      = some (Val.invalid,
          [.ErrBadConstConversion
            (atNode sampleCtx (litNode "\"abc\"" .ConstString (stringConst "abc")))
            (.const .ConstString) (.rtype (.basic .Uint64)) (stringConst "abc")]) :=
  (convertConstToTyped_string_to_number sampleHelpers sampleCtx (stringConst "abc")
    (.basic .Uint64) (litNode "\"abc\"" .ConstString (stringConst "abc")) rfl).2.1

/-! ## Conversion of constants: truncation and overflow -/

/-- C6, at the cast `string(1 << 40)` of an integer constant that overflows 32
bits: `convertConstToTyped` returns the invalid value together with an
`ErrOverflowedConstant`, where its doc comment has the conversion continue and
return a valid value on an integer overflow, as the conversions to the integer
types do. -/
theorem convertConstToTyped_cast_string_overflow :
    convertConstToTyped sampleHelpers sampleCtx .ConstInt (numberConst .ConstInt (2 ^ 40))
        (.basic .String) true (litNode "1 << 40" .ConstInt (numberConst .ConstInt (2 ^ 40)))
      = some (Val.invalid,
          [.ErrOverflowedConstant
            (atNode sampleCtx (litNode "1 << 40" .ConstInt (numberConst .ConstInt (2 ^ 40))))
            .ConstInt (.const .ConstString) ⟨.ConstInt, ⟨2 ^ 40, 0⟩⟩]) ∧
    Val.IsValid Val.invalid = false ∧
    Err.isErrOverflowedConstant
      (.ErrOverflowedConstant
        (atNode sampleCtx (litNode "1 << 40" .ConstInt (numberConst .ConstInt (2 ^ 40))))
        .ConstInt (.const .ConstString) ⟨.ConstInt, ⟨2 ^ 40, 0⟩⟩) = true :=
  ⟨rfl, rfl, rfl⟩

/-- The cast of an integral constant to a target of string kind is the only
conversion that drops the value on an overflow: when the diagnostics returned
by `convertConstToTyped` contain an `ErrTruncatedConstant` or an
`ErrOverflowedConstant`, the returned value is valid, except in that cast,
where the value is invalid and the only diagnostic is the
`ErrOverflowedConstant` to `ConstString`. -/
theorem convertConstToTyped_nonfatal (h : Helpers) (ctx : Ctx) (fromT : ConstType)
    (c : constValue) (toT : RType) (isTypeCast : Bool) (expr : Expr)
    (v : constValue) (errs : List Err)
    (hres : convertConstToTyped h ctx fromT c toT isTypeCast expr = some (v, errs))
    (herr : ∃ e ∈ errs, e.isErrTruncatedConstant = true ∨ e.isErrOverflowedConstant = true) :
    v.IsValid = true ∨
      (isTypeCast = true ∧ fromT.IsIntegral = true ∧ toT.Kind = .String ∧ v = Val.invalid ∧
        ∃ n, c = .constNumber n ∧
          errs = [.ErrOverflowedConstant (atNode ctx expr) fromT (.const .ConstString) n]) := by
  obtain ⟨e, he, hte⟩ := herr
  have hbad : ∀ (a : ErrorContext) (f t : Ty) (w : Val),
      e ∈ [Err.ErrBadConstConversion a f t w] → False := by
    intro a f t w hmem
    simp only [List.mem_singleton] at hmem
    subst hmem
    simp [Err.isErrTruncatedConstant, Err.isErrOverflowedConstant] at hte
  unfold convertConstToTyped convertConstToTypedFuel at hres
  cases fromT
  case ConstString =>
    simp only [] at hres
    repeat' split at hres
    all_goals first
      | (cases hres; done)
      | (cases hres
         first | exact (List.not_mem_nil _ he).elim | exact (hbad _ _ _ _ he).elim)
  case ConstBool =>
    simp only [] at hres
    repeat' split at hres
    all_goals first
      | (cases hres; done)
      | (cases hres
         first | exact (List.not_mem_nil _ he).elim | exact (hbad _ _ _ _ he).elim)
  case ConstNil =>
    simp only [] at hres
    repeat' split at hres
    all_goals first
      | (cases hres; done)
      | (cases hres
         first | exact (List.not_mem_nil _ he).elim | exact (hbad _ _ _ _ he).elim)
  all_goals
    cases c
    case constNumber n =>
      simp only [Val.asConstNumber] at hres
      generalize hk : toT.Kind = k at hres
      cases k
      case String =>
        simp only [] at hres
        split at hres
        · split at hres
          · simp only [Option.some.injEq, Prod.mk.injEq] at hres
            obtain ⟨rfl, rfl⟩ := hres
            right
            simp_all
          · simp only [Option.some.injEq, Prod.mk.injEq] at hres
            obtain ⟨rfl, rfl⟩ := hres
            left; rfl
        · simp only [Option.some.injEq, Prod.mk.injEq] at hres
          obtain ⟨rfl, rfl⟩ := hres
          exact (hbad _ _ _ _ he).elim
      case Interface =>
        simp only [] at hres
        repeat' split at hres
        all_goals first
          | (cases hres; done)
          | (cases hres
             first | exact (List.not_mem_nil _ he).elim | exact (hbad _ _ _ _ he).elim)
      all_goals
        simp only [Option.some.injEq, Prod.mk.injEq] at hres
        obtain ⟨rfl, rfl⟩ := hres
        first | (left; rfl) | exact (hbad _ _ _ _ he).elim
    all_goals cases hres

/-- The promotion of the integer constant 128 to `int8`: the diagnostics
contain an `ErrOverflowedConstant` and the value, -128, is valid. -/
theorem convertConstToTyped_nonfatal_witness :
    convertConstToTyped sampleHelpers sampleCtx .ConstInt (numberConst .ConstInt 128)
        (.basic .Int8) false (litNode "128" .ConstInt (numberConst .ConstInt 128))
      = some (.int (.basic .Int8) (-128),
          [.ErrOverflowedConstant
            (atNode sampleCtx (litNode "128" .ConstInt (numberConst .ConstInt 128)))
            .ConstInt (.rtype (.basic .Int8)) ⟨.ConstInt, ⟨128, 0⟩⟩]) ∧
    (Val.IsValid (.int (.basic .Int8) (-128)) = true ∨
      (false = true ∧ ConstType.IsIntegral .ConstInt = true ∧
        RType.Kind (.basic .Int8) = .String ∧ Val.int (.basic .Int8) (-128) = Val.invalid ∧
        ∃ n, numberConst .ConstInt 128 = .constNumber n ∧
          [Err.ErrOverflowedConstant
            (atNode sampleCtx (litNode "128" .ConstInt (numberConst .ConstInt 128)))
            .ConstInt (.rtype (.basic .Int8)) ⟨.ConstInt, ⟨128, 0⟩⟩]
            = [.ErrOverflowedConstant
                (atNode sampleCtx (litNode "128" .ConstInt (numberConst .ConstInt 128)))
                .ConstInt (.const .ConstString) n])) :=
  ⟨rfl,
   convertConstToTyped_nonfatal sampleHelpers sampleCtx .ConstInt (numberConst .ConstInt 128)
    (.basic .Int8) false (litNode "128" .ConstInt (numberConst .ConstInt 128))
    (.int (.basic .Int8) (-128)) _ rfl ⟨_, List.mem_singleton.2 rfl, Or.inr rfl⟩⟩

/-! ## Cast and promotion -/

/-- C7 as stated fails: the string constant `"ab"` and the byte-slice type are
outside the stated exception (the constant type is not integral, the target
is not of string kind), yet the cast returns the converted value and the
promotion an `ErrBadConstConversion`. -/
theorem castConstToTyped_string_to_bytes :
    castConstToTyped sampleHelpers sampleCtx .ConstString (stringConst "ab") byteSlice
        (litNode "\"ab\"" .ConstString (stringConst "ab"))
      = some (.bytes byteSlice "ab", []) ∧
    promoteConstToTyped sampleHelpers sampleCtx .ConstString (stringConst "ab") byteSlice
        (litNode "\"ab\"" .ConstString (stringConst "ab"))
      = some (Val.invalid,
          [.ErrBadConstConversion
            (atNode sampleCtx (litNode "\"ab\"" .ConstString (stringConst "ab")))
            (.const .ConstString) (.rtype byteSlice) (stringConst "ab")]) ∧
    ConstType.IsIntegral .ConstString = false ∧ byteSlice.Kind ≠ .String :=
  ⟨rfl, rfl, rfl, by decide⟩

/-- C7, amended: `castConstToTyped` and `promoteConstToTyped` return the same
value and the same diagnostics (or panic alike) on every constant type, every
well-formed constant value and every target type, unless the constant type is
integral and the target has string kind, or the constant type is `ConstString`
and the target is the byte-slice type. -/
theorem castConstToTyped_eq_promoteConstToTyped (h : Helpers) (ctx : Ctx) (fromT : ConstType)
    (c : constValue) (toT : RType) (expr : Expr)
    (hwf : c.numberTyped = true)
    (h1 : ¬ (fromT.IsIntegral = true ∧ toT.Kind = .String))
    (h2 : ¬ (fromT = .ConstString ∧ toT = byteSlice)) :
    castConstToTyped h ctx fromT c toT expr = promoteConstToTyped h ctx fromT c toT expr := by
  unfold castConstToTyped promoteConstToTyped convertConstToTyped
  unfold convertConstToTypedFuel
  cases fromT
  case ConstString =>
    have h3 : toT ≠ byteSlice := fun e => h2 ⟨rfl, e⟩
    simp [h3]
  case ConstBool => rfl
  case ConstNil => rfl
  all_goals
    cases c
    case constNumber n =>
      simp only [Val.asConstNumber]
      generalize hk : toT.Kind = k
      cases k
      case String =>
        first
          | rfl
          | exact absurd ⟨rfl, hk⟩ h1
      case Interface =>
        simp only []
        split
        · obtain ⟨t, z⟩ := n
          cases t <;> first
            | rfl
            | (simp [Val.numberTyped, ConstType.IsNumeric] at hwf)
        · rfl
      all_goals rfl
    all_goals rfl

/-- C7 amended, at the integer constant 97 and the empty interface: both
functions box the `int` 97. -/
theorem castConstToTyped_eq_promoteConstToTyped_witness :
    castConstToTyped sampleHelpers sampleCtx .ConstInt (numberConst .ConstInt 97)
        emptyInterface (litNode "97" .ConstInt (numberConst .ConstInt 97))
      = promoteConstToTyped sampleHelpers sampleCtx .ConstInt (numberConst .ConstInt 97)
        emptyInterface (litNode "97" .ConstInt (numberConst .ConstInt 97)) ∧
    promoteConstToTyped sampleHelpers sampleCtx .ConstInt (numberConst .ConstInt 97)
        emptyInterface (litNode "97" .ConstInt (numberConst .ConstInt 97))
      = some (.iface emptyInterface (.int intType 97), []) :=
  ⟨castConstToTyped_eq_promoteConstToTyped sampleHelpers sampleCtx .ConstInt
    (numberConst .ConstInt 97) emptyInterface
    (litNode "97" .ConstInt (numberConst .ConstInt 97)) rfl (by decide) (by decide), rfl⟩

/-! ## Conversion of integer constants to signed integer types -/

theorem wrapSigned_of_range (bits : Nat) (v : Int) (hb : 0 < bits)
    (hlo : -(2 ^ (bits - 1) : Int) ≤ v) (hhi : v < 2 ^ (bits - 1)) :
    wrapSigned bits v = v := by
  have hp : (2 : Int) ^ bits = 2 * 2 ^ (bits - 1) := by
    obtain ⟨k, rfl⟩ : ∃ k, bits = k + 1 := ⟨bits - 1, by omega⟩
    simp [pow_succ]; ring
  unfold wrapSigned
  rw [Int.emod_eq_of_lt (by linarith) (by linarith)]
  ring

theorem integerPart_intCast (v : Int) : (BigComplex.mk (v : Rat) 0).integerPart = v := by
  simp [BigComplex.integerPart]

theorem bits_pos_of_signed (toT : RType) (hk : isSignedIntKind toT.Kind = true) :
    0 < toT.Bits := by
  unfold RType.Bits
  generalize toT.Kind = k at hk
  cases k <;> first | exact absurd hk (by decide) | decide

/-- The conversion of an integer constant to a signed integer type: the value
stored is the integer wrapped to the width of the type, and the only possible
diagnostic is the overflow. -/
theorem convertConstToTyped_signed (h : Helpers) (ctx : Ctx) (v : Int) (toT : RType)
    (isTypeCast : Bool) (expr : Expr) (hk : isSignedIntKind toT.Kind = true) :
    convertConstToTyped h ctx .ConstInt (.constNumber ⟨.ConstInt, ⟨v, 0⟩⟩) toT isTypeCast expr
      = some (Val.SetInt toT ((BigComplex.mk (v : Rat) 0).Int toT.Bits).1,
          (if ((BigComplex.mk (v : Rat) 0).Int toT.Bits).2.2 then
            [Err.ErrOverflowedConstant (atNode ctx expr) .ConstInt (.rtype toT)
              ⟨.ConstInt, ⟨v, 0⟩⟩] else [])) := by
  unfold convertConstToTyped convertConstToTypedFuel
  generalize hkk : toT.Kind = k at hk ⊢
  cases k <;> first
    | exact absurd hk (by decide)
    | simp [Val.asConstNumber, BigComplex.Int, BigComplex.Real]

/-- C8: for a signed integer target of N bits and an untyped integer constant
`v`, in both modes: when `v` lies in the signed range of N bits the conversion
returns the valid value `v` and no diagnostic; when `v` is 2^(N-1), one unit
beyond that range, it returns a valid value and exactly one diagnostic, an
`ErrOverflowedConstant`. The methods of `BigComplex` are those modelled from
the specification. -/
theorem convertConstToTyped_signed_range (h : Helpers) (ctx : Ctx) (v : Int) (toT : RType)
    (isTypeCast : Bool) (expr : Expr) (hk : isSignedIntKind toT.Kind = true) :
    (-(2 ^ (toT.Bits - 1) : Int) ≤ v → v < 2 ^ (toT.Bits - 1) →
      convertConstToTyped h ctx .ConstInt (.constNumber ⟨.ConstInt, ⟨v, 0⟩⟩) toT isTypeCast expr
        = some (.int toT v, [])) ∧
    (v = 2 ^ (toT.Bits - 1) →
      ∃ w, w.IsValid = true ∧
        convertConstToTyped h ctx .ConstInt (.constNumber ⟨.ConstInt, ⟨v, 0⟩⟩) toT isTypeCast expr
          = some (w, [.ErrOverflowedConstant (atNode ctx expr) .ConstInt (.rtype toT)
              ⟨.ConstInt, ⟨v, 0⟩⟩])) := by
  have hb : 0 < toT.Bits := bits_pos_of_signed toT hk
  constructor
  · intro hlo hhi
    have hw : wrapSigned toT.Bits v = v := wrapSigned_of_range _ _ hb hlo hhi
    rw [convertConstToTyped_signed h ctx v toT isTypeCast expr hk]
    simp [BigComplex.Int, integerPart_intCast, Val.SetInt, hw, hlo, hhi]
  · intro hv
    refine ⟨Val.SetInt toT ((BigComplex.mk (v : Rat) 0).Int toT.Bits).1, rfl, ?_⟩
    rw [convertConstToTyped_signed h ctx v toT isTypeCast expr hk]
    have hov : ¬ (v < 2 ^ (toT.Bits - 1)) := by rw [hv]; exact lt_irrefl _
    simp [BigComplex.Int, integerPart_intCast, hov]

/-- C8, at the target `int8`: 127 and -128 convert exactly and without
diagnostic; 128 gives a valid value and the one overflow diagnostic. -/
theorem convertConstToTyped_signed_range_witness :
    convertConstToTyped sampleHelpers sampleCtx .ConstInt (.constNumber ⟨.ConstInt, ⟨127, 0⟩⟩)
        (.basic .Int8) false (rawLit "127")
      = some (.int (.basic .Int8) 127, []) ∧
    convertConstToTyped sampleHelpers sampleCtx .ConstInt
        (.constNumber ⟨.ConstInt, ⟨((-128 : Int) : Rat), 0⟩⟩) (.basic .Int8) false (rawLit "-128")
      = some (.int (.basic .Int8) (-128), []) ∧
    (∃ w, w.IsValid = true ∧
      convertConstToTyped sampleHelpers sampleCtx .ConstInt
          (.constNumber ⟨.ConstInt, ⟨((128 : Int) : Rat), 0⟩⟩) (.basic .Int8) true (rawLit "128")
        = some (w, [.ErrOverflowedConstant (atNode sampleCtx (rawLit "128")) .ConstInt
            (.rtype (.basic .Int8)) ⟨.ConstInt, ⟨((128 : Int) : Rat), 0⟩⟩])) :=
  ⟨(convertConstToTyped_signed_range sampleHelpers sampleCtx 127 (.basic .Int8) false
      (rawLit "127") rfl).1 (by decide) (by decide),
   (convertConstToTyped_signed_range sampleHelpers sampleCtx (-128) (.basic .Int8) false
      (rawLit "-128") rfl).1 (by decide) (by decide),
   (convertConstToTyped_signed_range sampleHelpers sampleCtx 128 (.basic .Int8) true
      (rawLit "128") rfl).2 (by decide)⟩

/-! ## Default promotion -/

/-- C9 as stated fails: the default promotion of `ConstRune` is the type of
`'\000'`, the 32-bit `int32` (`rune`), not the machine `int`. -/
theorem defaultPromotion_rune_not_int :
    ConstType.DefaultPromotion .ConstRune = some (.basic .Int32) ∧
    ConstType.DefaultPromotion .ConstRune ≠ some intType :=
  ⟨rfl, by decide⟩

/-- C9, amended: `DefaultPromotion` maps `ConstInt` to `int`, `ConstRune` to
`int32`, `ConstFloat` to `float64` and `ConstComplex` to `complex128`. -/
theorem defaultPromotion_numeric :
    ConstType.DefaultPromotion .ConstInt = some intType ∧
    ConstType.DefaultPromotion .ConstRune = some (.basic .Int32) ∧
    ConstType.DefaultPromotion .ConstFloat = some f64 ∧
    ConstType.DefaultPromotion .ConstComplex = some c128 :=
  ⟨rfl, rfl, rfl, rfl⟩

/-! ## The builtin `make` -/

/-- C10: for a call `make(S, m, n)` whose first argument resolves without
diagnostics to a type `S` of slice kind and whose size arguments are accepted
by the integer check without diagnostics with values `m > n`,
`checkBuiltinMake` returns exactly one diagnostic, the `ErrMakeLenGtrThanCap`
carrying `m` and `n`, and the known type of the call is `S`, whatever the
element type. -/
theorem checkBuiltinMake_len_gtr_cap (ck : Checker) (ctx : Ctx) (env : Env) (call : CallExpr)
    (a0 a1 a2 x0 x1 x2 : Expr) (t : RType) (m n : Int)
    (hargs : call.Args = [a0, a1, a2])
    (h0 : ck.checkType ctx a0 env = (x0, .rtype t, true, []))
    (ht : t.Kind = .Slice)
    (h1 : ck.checkInteger ctx a1 env = (x1, m, true, []))
    (h2 : ck.checkInteger ctx a2 env = (x2, n, true, []))
    (hmn : m > n) :
    ∃ call2, checkBuiltinMake ck ctx call env
        = some (call2, [.ErrMakeLenGtrThanCap (atNode ctx (.CallExpr call2)) m n]) ∧
      call2.knownType = [.rtype t] ∧ call2.Args = [x0, x1, x2] := by
  refine ⟨{ call with knownType := [.rtype t], Args := [x0, x1, x2] }, ?_, rfl, rfl⟩
  simp [checkBuiltinMake, hargs, h0, Ty.Kind, ht, checkBuiltinMakeSizes, checkBuiltinMakeLoop,
    h1, h2, hmn, List.set]

/-- C10, at the call `make([]int, 5, 3)`. -/
theorem checkBuiltinMake_len_gtr_cap_witness :
    ∃ call2, checkBuiltinMake sampleChecker sampleCtx
        (makeCall [.ArrayType none (.Ident "int" ⟨[], .invalid⟩) ⟨[], .invalid⟩,
          rawLit "5", rawLit "3"]) sampleEnv
        = some (call2, [.ErrMakeLenGtrThanCap (atNode sampleCtx (.CallExpr call2)) 5 3]) ∧
      call2.knownType = [.rtype (.slice intType)] ∧
      call2.Args = [.ArrayType none (.Ident "int" ⟨[.rtype intType], .invalid⟩)
          ⟨[.rtype (.slice intType)], .invalid⟩,
        .BasicLit "5" ⟨[.const .ConstInt], numberConst .ConstInt 5⟩,
        .BasicLit "3" ⟨[.const .ConstInt], numberConst .ConstInt 3⟩] :=
  checkBuiltinMake_len_gtr_cap sampleChecker sampleCtx sampleEnv _ _ _ _ _ _ _
    (.slice intType) 5 3 rfl rfl rfl rfl rfl (by decide)

/-! ## The walker of calls and receives -/

theorem visit_found (e : Expr) : callRecvWalker.visit true e = (true, false) := rfl

theorem visit_not_found (e : Expr) :
    callRecvWalker.visit false e = (e.isCallOrRecv, !e.isCallOrRecv) := by
  cases e <;> simp [callRecvWalker.visit, Expr.isCallOrRecv]
  · split <;> simp_all
  · split <;> simp_all

mutual
/-- The walk with `callRecvWalker` finds a call or a receive exactly when one is
among the sub-expressions. -/
theorem walk_callRecv : ∀ (e : Expr) (s : Bool),
    walk callRecvWalker.visit e s = (s || e.subExprs.any Expr.isCallOrRecv)
  | e, true => by unfold walk; simp [visit_found]
  | .BadExpr, false => by unfold walk; simp [visit_not_found, Expr.subExprs, Expr.isCallOrRecv]
  | .Ident _ _, false => by
      unfold walk; simp [visit_not_found, Expr.subExprs, Expr.isCallOrRecv]
  | .BasicLit _ _, false => by
      unfold walk; simp [visit_not_found, Expr.subExprs, Expr.isCallOrRecv]
  | .Ellipsis elt, false => by
      unfold walk
      simp [visit_not_found, Expr.subExprs, Expr.isCallOrRecv, walkOpt_callRecv elt false]
  | .FuncLit typ _, false => by
      unfold walk
      simp [visit_not_found, Expr.subExprs, Expr.isCallOrRecv, walk_callRecv typ false]
  | .ParenExpr x _, false => by
      unfold walk
      simp [visit_not_found, Expr.subExprs, Expr.isCallOrRecv, walk_callRecv x false]
  | .CompositeLit ⟨typ, elts, _, _, _, _⟩, false => by
      unfold walk
      simp [visit_not_found, Expr.subExprs, Expr.isCallOrRecv, walkOpt_callRecv typ false,
        walkList_callRecv elts]
  | .SelectorExpr x _ _, false => by
      unfold walk
      simp [visit_not_found, Expr.subExprs, Expr.isCallOrRecv, walk_callRecv x false]
  | .IndexExpr x i _, false => by
      unfold walk
      simp [visit_not_found, Expr.subExprs, Expr.isCallOrRecv, walk_callRecv x false,
        walk_callRecv i]
  | .SliceExpr x lo hi _, false => by
      unfold walk
      simp [visit_not_found, Expr.subExprs, Expr.isCallOrRecv, walk_callRecv x false,
        walkOpt_callRecv lo, walkOpt_callRecv hi, Bool.or_assoc]
  | .TypeAssertExpr x typ _, false => by
      unfold walk
      simp [visit_not_found, Expr.subExprs, Expr.isCallOrRecv, walk_callRecv x false,
        walkOpt_callRecv typ]
  | .CallExpr ⟨f, args, _, _, _, _, tc, _, _⟩, false => by
      unfold walk
      cases tc <;>
        simp [visit_not_found, Expr.subExprs, Expr.isCallOrRecv, walk_callRecv f false,
          walkList_callRecv args]
  | .StarExpr x _, false => by
      unfold walk
      simp [visit_not_found, Expr.subExprs, Expr.isCallOrRecv, walk_callRecv x false]
  | .UnaryExpr op x _, false => by
      unfold walk
      by_cases hop : op = "<-" <;>
        simp [visit_not_found, Expr.subExprs, Expr.isCallOrRecv, walk_callRecv x, hop]
  | .BinaryExpr x _ y _, false => by
      unfold walk
      simp [visit_not_found, Expr.subExprs, Expr.isCallOrRecv, walk_callRecv x false,
        walk_callRecv y]
  | .KeyValueExpr k v, false => by
      unfold walk
      simp [visit_not_found, Expr.subExprs, Expr.isCallOrRecv, walk_callRecv k false,
        walk_callRecv v]
  | .ArrayType len elt _, false => by
      unfold walk
      simp [visit_not_found, Expr.subExprs, Expr.isCallOrRecv, walkOpt_callRecv len false,
        walk_callRecv elt]
  | .StructType fs _, false => by
      unfold walk
      simp [visit_not_found, Expr.subExprs, Expr.isCallOrRecv, walkFields_callRecv fs false]
  | .FuncType ps rs _, false => by
      unfold walk
      simp [visit_not_found, Expr.subExprs, Expr.isCallOrRecv, walkFields_callRecv ps false,
        walkFields_callRecv rs]
  | .InterfaceType ms _, false => by
      unfold walk
      simp [visit_not_found, Expr.subExprs, Expr.isCallOrRecv, walkFields_callRecv ms false]
  | .MapType k v _, false => by
      unfold walk
      simp [visit_not_found, Expr.subExprs, Expr.isCallOrRecv, walk_callRecv k false,
        walk_callRecv v]
  | .ChanType v _, false => by
      unfold walk
      simp [visit_not_found, Expr.subExprs, Expr.isCallOrRecv, walk_callRecv v false]
theorem walkOpt_callRecv : ∀ (o : Option Expr) (s : Bool),
    walkOpt callRecvWalker.visit o s = (s || (subExprsOpt o).any Expr.isCallOrRecv)
  | none, s => by simp [walkOpt, subExprsOpt]
  | some e, s => by simp [walkOpt, subExprsOpt, walk_callRecv e s]
theorem walkList_callRecv : ∀ (l : List Expr) (s : Bool),
    walkList callRecvWalker.visit l s = (s || (subExprsList l).any Expr.isCallOrRecv)
  | [], s => by simp [walkList, subExprsList]
  | e :: es, s => by
      simp [walkList, subExprsList, walk_callRecv e s, walkList_callRecv es, Bool.or_assoc]
theorem walkFields_callRecv : ∀ (l : List (String × Expr)) (s : Bool),
    walkFields callRecvWalker.visit l s = (s || (subExprsFields l).any Expr.isCallOrRecv)
  | [], s => by simp [walkFields, subExprsFields]
  | (_, e) :: es, s => by
      simp [walkFields, subExprsFields, walk_callRecv e s, walkFields_callRecv es,
        Bool.or_assoc]
end

/-! ## The arguments of `make` -/

/-- C11 fails on the code: the call `make([]int, 5)`, with a valid length and
no capacity, gets an `ErrMakeLenGtrThanCap`, the length being compared with
the zero left in `args[2]`. -/
theorem checkBuiltinMake_length_only :
    ∃ call2, checkBuiltinMake sampleChecker sampleCtx
        (builtinCall "make" [sliceOfIntExpr, rawLit "5"] 0) sampleEnv
      = some (call2, [.ErrMakeLenGtrThanCap (atNode sampleCtx (.CallExpr call2)) 5 0]) :=
  ⟨_, rfl⟩

/-- The defect behind C11, in general: a call `make(S, m)` with a slice type, a
positive length and no capacity reports that the length exceeds the
capacity 0. -/
theorem checkBuiltinMake_no_cap (ck : Checker) (ctx : Ctx) (env : Env) (call : CallExpr)
    (a0 a1 x0 x1 : Expr) (t : RType) (m : Int)
    (hargs : call.Args = [a0, a1])
    (h0 : ck.checkType ctx a0 env = (x0, .rtype t, true, []))
    (ht : t.Kind = .Slice)
    (h1 : ck.checkInteger ctx a1 env = (x1, m, true, []))
    (hm : 0 < m) :
    ∃ call2, checkBuiltinMake ck ctx call env
        = some (call2, [.ErrMakeLenGtrThanCap (atNode ctx (.CallExpr call2)) m 0]) := by
  refine ⟨{ call with knownType := [.rtype t], Args := [x0, x1] }, ?_⟩
  simp [checkBuiltinMake, hargs, h0, Ty.Kind, ht, checkBuiltinMakeSizes, checkBuiltinMakeLoop,
    h1, hm, List.set]

theorem checkBuiltinMakeLoop_length (ck : Checker) (ctx : Ctx) (env : Env) (narg : Nat) :
    ∀ (fuel i : Nat) (st : MakeState),
      (checkBuiltinMakeLoop ck ctx env narg fuel i st).call.Args.length
        = st.call.Args.length
  | 0, _, _ => rfl
  | fuel + 1, i, st => by
    unfold checkBuiltinMakeLoop
    split
    · split
      · rfl
      · rw [checkBuiltinMakeLoop_length ck ctx env narg fuel]
        simp only []
        split <;> [skip; split] <;> simp
    · rfl

theorem checkBuiltinMakeLoop_skip (ck : Checker) (ctx : Ctx) (env : Env) (narg : Nat) :
    ∀ (fuel i : Nat) (st : MakeState), st.skipOrdering = true →
      (checkBuiltinMakeLoop ck ctx env narg fuel i st).skipOrdering = true
  | 0, _, _, h => h
  | fuel + 1, i, st, h => by
    unfold checkBuiltinMakeLoop
    split
    · split
      · exact h
      · apply checkBuiltinMakeLoop_skip ck ctx env narg fuel
        simp only []
        split <;> [skip; split] <;> simp [h]
    · exact h

theorem checkBuiltinMakeLoop_errs (ck : Checker) (ctx : Ctx) (env : Env) (narg : Nat)
    (P : Err → Prop) (hNI : ∀ c i, P (.ErrMakeNonIntegerArg c i))
    (hCI : ∀ a, ∀ e ∈ (ck.checkInteger ctx a env).2.2.2, P e) :
    ∀ (fuel i : Nat) (st : MakeState), (∀ e ∈ st.errs, P e) →
      ∀ e ∈ (checkBuiltinMakeLoop ck ctx env narg fuel i st).errs, P e
  | 0, _, _, h => h
  | fuel + 1, i, st, h => by
    unfold checkBuiltinMakeLoop
    split
    · split
      · exact h
      · rename_i a _
        apply checkBuiltinMakeLoop_errs ck ctx env narg P hNI hCI fuel
        simp only []
        split <;> [skip; split]
        · intro e he
          simp only [List.mem_append, List.mem_singleton] at he
          rcases he with he | rfl
          · exact h e he
          · exact hNI _ _
        · intro e he
          simp only [List.mem_append] at he
          rcases he with he | he
          · exact h e he
          · exact hCI a e he
        · exact h
    · exact h


theorem checkBuiltinMakeLoop_one (ck : Checker) (ctx : Ctx) (env : Env) (narg fuel : Nat)
    (st : MakeState) (h : st.call.Args.length = 1) :
    checkBuiltinMakeLoop ck ctx env narg fuel 1 st = st := by
  cases fuel with
  | zero => rfl
  | succ n =>
    unfold checkBuiltinMakeLoop
    simp [h]

theorem checkBuiltinMakeSizes_spec (ck : Checker) (ctx : Ctx) (env : Env) (call : CallExpr)
    (narg : Nat) (skip : Bool) (errs0 : List Err)
    (hCI : ∀ a, ∀ e ∈ (ck.checkInteger ctx a env).2.2.2,
      e.isErrBuiltinWrongNumberOfArgs = false ∧ e.isErrMakeLenGtrThanCap = false)
    (h0 : ∀ e ∈ errs0, e.isErrBuiltinWrongNumberOfArgs = false ∧
      e.isErrMakeLenGtrThanCap = false) :
    ((∃ e ∈ (checkBuiltinMakeSizes ck ctx env call narg skip errs0).2,
        e.isErrBuiltinWrongNumberOfArgs = true) ↔ narg < call.Args.length) ∧
    (skip = true → ∀ e ∈ (checkBuiltinMakeSizes ck ctx env call narg skip errs0).2,
        e.isErrMakeLenGtrThanCap = false) := by
  have hlen := checkBuiltinMakeLoop_length ck ctx env narg narg 1
    { call := call, args := [0, 0, 0], skipOrdering := skip, errs := errs0 }
  have hP := checkBuiltinMakeLoop_errs ck ctx env narg
    (fun e => e.isErrBuiltinWrongNumberOfArgs = false ∧ e.isErrMakeLenGtrThanCap = false)
    (fun _ _ => ⟨rfl, rfl⟩) hCI narg 1
    { call := call, args := [0, 0, 0], skipOrdering := skip, errs := errs0 } h0
  have hskip := checkBuiltinMakeLoop_skip ck ctx env narg narg 1
    { call := call, args := [0, 0, 0], skipOrdering := skip, errs := errs0 }
  unfold checkBuiltinMakeSizes
  simp only [] at hlen hP hskip ⊢
  generalize checkBuiltinMakeLoop ck ctx env narg narg 1
    { call := call, args := [0, 0, 0], skipOrdering := skip, errs := errs0 } = st at *
  by_cases hgt : narg < st.call.Args.length
  · have hgt2 : narg < call.Args.length := hlen ▸ hgt
    simp only [gt_iff_lt, hgt, ↓reduceIte, hgt2, iff_true]
    refine ⟨⟨Err.ErrBuiltinWrongNumberOfArgs _,
      List.mem_append_right _ (List.mem_singleton.2 rfl), rfl⟩, ?_⟩
    intro _ e he
    simp only [List.mem_append, List.mem_singleton] at he
    rcases he with he | rfl
    · exact (hP e he).2
    · rfl
  · have hgt2 : ¬ narg < call.Args.length := hlen ▸ hgt
    simp only [gt_iff_lt, hgt, ↓reduceIte, hgt2, iff_false]
    constructor
    · rintro ⟨e, he, hw⟩
      split at he
      · split at he
        · simp only [List.mem_append, List.mem_singleton] at he
          rcases he with he | rfl
          · rw [(hP e he).1] at hw; cases hw
          · cases hw
        · rw [(hP e he).1] at hw; cases hw
      · rw [(hP e he).1] at hw; cases hw
    · intro hs e he
      have hs2 := hskip hs
      simp only [hs2, Bool.not_true, Bool.false_eq_true, ↓reduceIte] at he
      exact (hP e he).2

/-- C12: `make` with no argument returns exactly one
`ErrBuiltinWrongNumberOfArgs`. When the first argument resolves without
diagnostics to a type and the integer checks of the size arguments report no
arity or ordering diagnostic of their own: for a slice type the diagnostics
contain an `ErrBuiltinWrongNumberOfArgs` exactly when the call has 1 or more
than 3 arguments; for a map or channel type exactly when it has more than 2,
and they contain no `ErrMakeLenGtrThanCap`; for a type of any other kind they
are exactly one `ErrMakeBadType`. -/
theorem checkBuiltinMake_arity (ck : Checker) (ctx : Ctx) (env : Env) (call : CallExpr) :
    (call.Args = [] → checkBuiltinMake ck ctx call env
      = some (call, [.ErrBuiltinWrongNumberOfArgs (atNode ctx (.CallExpr call))])) ∧
    (∀ (arg0 : Expr) (rest : List Expr) (x : Expr) (t : RType),
      call.Args = arg0 :: rest →
      ck.checkType ctx arg0 env = (x, .rtype t, true, []) →
      (∀ a, ∀ e ∈ (ck.checkInteger ctx a env).2.2.2,
        e.isErrBuiltinWrongNumberOfArgs = false ∧ e.isErrMakeLenGtrThanCap = false) →
      ∃ call2 errs, checkBuiltinMake ck ctx call env = some (call2, errs) ∧
        (t.Kind = .Slice →
          ((∃ e ∈ errs, e.isErrBuiltinWrongNumberOfArgs = true) ↔
            (call.Args.length = 1 ∨ 3 < call.Args.length))) ∧
        (t.Kind = .Map ∨ t.Kind = .Chan →
          ((∃ e ∈ errs, e.isErrBuiltinWrongNumberOfArgs = true) ↔ 2 < call.Args.length) ∧
          ∀ e ∈ errs, e.isErrMakeLenGtrThanCap = false) ∧
        (t.Kind ≠ .Slice → t.Kind ≠ .Map → t.Kind ≠ .Chan →
          errs = [.ErrMakeBadType (atNode ctx x) (.rtype t)])) := by
  constructor
  · intro hargs
    simp [checkBuiltinMake, hargs]
  · intro arg0 rest x t hargs h0 hCI
    unfold checkBuiltinMake
    simp only [hargs, h0, Bool.not_true, Bool.false_eq_true, ↓reduceIte, List.isEmpty_nil,
      Ty.Kind]
    generalize hk : t.Kind = k
    have hlen : call.Args.length = rest.length + 1 := by rw [hargs]; rfl
    cases k
    case Slice =>
      simp only []
      rcases rest with _ | ⟨a1, rest2⟩
      · have hr : checkBuiltinMakeSizes ck ctx env
            { call with knownType := [.rtype t], Args := [x] } 3 false
            [.ErrBuiltinWrongNumberOfArgs (atNode ctx
              (.CallExpr { call with knownType := [.rtype t], Args := [x] }))]
            = ({ call with knownType := [.rtype t], Args := [x] },
               [.ErrBuiltinWrongNumberOfArgs (atNode ctx
                (.CallExpr { call with knownType := [.rtype t], Args := [x] }))]) := by
          unfold checkBuiltinMakeSizes
          rw [checkBuiltinMakeLoop_one ck ctx env 3 3]
          · simp
          · rfl
        refine ⟨_, _, congrArg some hr, ?_, ?_, ?_⟩
        · intro _
          simp [Err.isErrBuiltinWrongNumberOfArgs, hargs]
        · intro h; rcases h with h | h <;> cases h
        · intro h; exact absurd rfl h
      · have hs := (checkBuiltinMakeSizes_spec ck ctx env
          { call with knownType := [.rtype t], Args := x :: a1 :: rest2 } 3 false [] hCI
          (by simp)).1
        refine ⟨(checkBuiltinMakeSizes ck ctx env
          { call with knownType := [.rtype t], Args := x :: a1 :: rest2 } 3 false []).1,
          (checkBuiltinMakeSizes ck ctx env
          { call with knownType := [.rtype t], Args := x :: a1 :: rest2 } 3 false []).2,
          rfl, ?_, ?_, ?_⟩
        · intro _
          have h1 : ¬ (rest2.length + 1 + 1 = 1) := by omega
          simpa [hargs, h1] using hs
        · intro h; rcases h with h | h <;> cases h
        · intro h; exact absurd rfl h
    case Map =>
      have hs := checkBuiltinMakeSizes_spec ck ctx env
        { call with knownType := [.rtype t], Args := x :: rest } 2 true [] hCI (by simp)
      refine ⟨(checkBuiltinMakeSizes ck ctx env
        { call with knownType := [.rtype t], Args := x :: rest } 2 true []).1,
        (checkBuiltinMakeSizes ck ctx env
        { call with knownType := [.rtype t], Args := x :: rest } 2 true []).2, rfl, ?_, ?_, ?_⟩
      · intro h; cases h
      · intro _
        refine ⟨?_, hs.2 rfl⟩
        simpa [hargs] using hs.1
      · intro _ h; exact absurd rfl h
    case Chan =>
      have hs := checkBuiltinMakeSizes_spec ck ctx env
        { call with knownType := [.rtype t], Args := x :: rest } 2 true [] hCI (by simp)
      refine ⟨(checkBuiltinMakeSizes ck ctx env
        { call with knownType := [.rtype t], Args := x :: rest } 2 true []).1,
        (checkBuiltinMakeSizes ck ctx env
        { call with knownType := [.rtype t], Args := x :: rest } 2 true []).2, rfl, ?_, ?_, ?_⟩
      · intro h; cases h
      · intro _
        refine ⟨?_, hs.2 rfl⟩
        simpa [hargs] using hs.1
      · intro _ _ h; exact absurd rfl h
    all_goals
      refine ⟨_, _, rfl, ?_, ?_, ?_⟩
      · intro h; cases h
      · intro h; rcases h with h | h <;> cases h
      · intro _ _ _; rfl

theorem sampleChecker_checkInteger_errs (ctx : Ctx) (env : Env) (a : Expr) :
    (sampleChecker.checkInteger ctx a env).2.2.2 = [] := by
  cases a <;> simp only [sampleChecker]
  split <;> rfl

/-- C12, at `make()` and at `make([]int, 1, 2, 3)`: one arity diagnostic in the
first, an arity diagnostic among those of the second. -/
theorem checkBuiltinMake_arity_witness :
    checkBuiltinMake sampleChecker sampleCtx (builtinCall "make" [] 0) sampleEnv
      = some (builtinCall "make" [] 0,
          [.ErrBuiltinWrongNumberOfArgs
            (atNode sampleCtx (.CallExpr (builtinCall "make" [] 0)))]) ∧
    (∃ call2 errs, checkBuiltinMake sampleChecker sampleCtx
        (builtinCall "make" [sliceOfIntExpr, rawLit "1", rawLit "2", rawLit "3"] 0) sampleEnv
        = some (call2, errs) ∧
      ∃ e ∈ errs, e.isErrBuiltinWrongNumberOfArgs = true) := by
  refine ⟨(checkBuiltinMake_arity sampleChecker sampleCtx sampleEnv
    (builtinCall "make" [] 0)).1 rfl, ?_⟩
  obtain ⟨call2, errs, h, hs, _, _⟩ :=
    (checkBuiltinMake_arity sampleChecker sampleCtx sampleEnv
      (builtinCall "make" [sliceOfIntExpr, rawLit "1", rawLit "2", rawLit "3"] 0)).2
      sliceOfIntExpr [rawLit "1", rawLit "2", rawLit "3"] _ (.slice intType) rfl rfl
      (fun a e he => by
        rw [sampleChecker_checkInteger_errs] at he
        exact absurd he (List.not_mem_nil e))
  exact ⟨call2, errs, h, (hs rfl).2 (Or.inr (by decide))⟩

/-! ## The builtins len and cap -/

/-- C13: for `len` and `cap` of one operand that checks without diagnostics to a
fixed-size array type `[n]T`, no diagnostic is produced, the known type is `int`,
and the call receives the constant `n` exactly when the operand contains neither
a call other than a type conversion nor a receive from a channel; when it
contains one, the constant value of the call is left as it was. -/
theorem checkBuiltinLenCap_array (ck : Checker) (ctx : Ctx) (env : Env) (call : CallExpr)
    (arg0 x : Expr) (n : Nat) (elem : RType) (isLen : Bool)
    (hargs : call.Args = [arg0]) (hell : call.Ellipsis = 0)
    (hx : ck.CheckExpr ctx arg0 env = (x, []))
    (hs : ck.expectSingleType ctx x.KnownType x = (.rtype (.array n elem), none)) :
    ∃ call2, checkBuiltinLenCap ck ctx call env isLen = some (call2, []) ∧
      call2.knownType = [.rtype intType] ∧
      (x.containsCallOrRecv = false → call2.constValue = constValueOf n) ∧
      (x.containsCallOrRecv = true → call2.constValue = call.constValue) ∧
      (call.constValue = Val.invalid →
        (call2.constValue = constValueOf n ↔ x.containsCallOrRecv = false)) := by
  unfold checkBuiltinLenCap
  simp only [hargs, hell, hx, hs, bne_self_eq_false, Bool.false_eq_true, ↓reduceIte,
    List.isEmpty_nil, Bool.not_true, Bool.false_and, Ty.Kind, RType.Kind,
    checkBuiltinLenCapArray, walk_callRecv, Bool.false_or, Ty.Len, RType.Len,
    reduceCtorEq]
  have hc : x.subExprs.any Expr.isCallOrRecv = x.containsCallOrRecv := rfl
  rw [hc]
  cases hcc : x.containsCallOrRecv
  · refine ⟨_, rfl, rfl, fun _ => rfl, ?_, fun _ => ⟨fun _ => rfl, fun _ => rfl⟩⟩
    intro h
    cases h
  · refine ⟨_, rfl, rfl, ?_, fun _ => rfl, fun hi => ⟨fun h => ?_, ?_⟩⟩
    · intro h
      cases h
    · simp [hi, constValueOf] at h
    · intro h
      cases h

/-- C13, at `len(a)` with `a` of type `[3]int`: the call folds to the constant 3. -/
theorem checkBuiltinLenCap_array_witness :
    ∃ call2, checkBuiltinLenCap sampleChecker sampleCtx (builtinCall "len" [rawIdent "a"] 0)
        sampleVars true = some (call2, []) ∧
      call2.knownType = [.rtype intType] ∧
      call2.constValue = constValueOf 3 := by
  obtain ⟨call2, h, hk, hc, _, _⟩ :=
    checkBuiltinLenCap_array sampleChecker sampleCtx sampleVars
      (builtinCall "len" [rawIdent "a"] 0) (rawIdent "a")
      (typedIdent "a" (.rtype (.array 3 intType))) 3 intType true rfl rfl rfl rfl
  exact ⟨call2, h, hk, hc rfl⟩

/-- C14, at `len(p)` and `cap(p)` with `p` of type `*[3]int`: the operand checks
without diagnostics and contains no call and no receive, and `checkBuiltinLenCap`
panics: after the fall-through the length is asked of the pointer type. -/
theorem checkBuiltinLenCap_pointer_to_array :
    checkBuiltinLenCap sampleChecker sampleCtx (builtinCall "len" [rawIdent "p"] 0)
      sampleVars true = none ∧
    checkBuiltinLenCap sampleChecker sampleCtx (builtinCall "cap" [rawIdent "p"] 0)
      sampleVars false = none ∧
    sampleChecker.CheckExpr sampleCtx (rawIdent "p") sampleVars
      = (typedIdent "p" (.rtype (.ptr (.array 3 intType))), []) ∧
    Expr.containsCallOrRecv (typedIdent "p" (.rtype (.ptr (.array 3 intType)))) = false :=
  ⟨rfl, rfl, rfl, rfl⟩

/-- C15, at `len(q)` with `q` of type `*int`: the operand is a pointer to a type
that is not an array, and `checkBuiltinLenCap` returns no diagnostic. -/
theorem checkBuiltinLenCap_pointer_to_int :
    ∃ call2, checkBuiltinLenCap sampleChecker sampleCtx (builtinCall "len" [rawIdent "q"] 0)
        sampleVars true = some (call2, []) ∧
      call2.Args = [typedIdent "q" (.rtype (.ptr intType))] :=
  ⟨_, rfl, rfl⟩

/-! ## The builtin append -/

/-- The kind of a host type, as a type of the checker. -/
theorem Ty.Kind_rtype (t : RType) : (Ty.rtype t).Kind = some t.Kind := rfl

/-- C16, at `append(b, nil...)` with `b` of type `[]byte`: both arguments check
without diagnostics and `checkBuiltinAppend` panics, asking the untyped nil for
its kind. -/
theorem checkBuiltinAppend_bytes_nil :
    checkBuiltinAppend sampleHelpers sampleChecker sampleCtx
      (builtinCall "append" [rawIdent "b", rawIdent "nil"] 9) sampleVars = none ∧
    sampleChecker.CheckExpr sampleCtx (rawIdent "b") sampleVars
      = (typedIdent "b" (.rtype byteSlice), []) ∧
    sampleChecker.CheckExpr sampleCtx (rawIdent "nil") sampleVars
      = (typedIdent "nil" (.const .ConstNil), []) :=
  ⟨rfl, rfl, rfl⟩

/-- The ellipsis form `append(s, x...)` on a slice `s` and an operand `x` whose
type has a kind: one `ErrBuiltinWrongArgType` at `x` exactly when the type of `x`
is neither the type of `s` nor, with `s` the byte slice, of string kind. -/
theorem checkBuiltinAppend_ellipsis_typed (h : Helpers) (ck : Checker) (ctx : Ctx) (env : Env)
    (call : CallExpr) (a0 a1 s x : Expr) (sliceT : RType) (arg1T : Ty) (k : Kind)
    (hargs : call.Args = [a0, a1]) (hell : call.Ellipsis ≠ 0)
    (hs : ck.CheckExpr ctx a0 env = (s, []))
    (hx : ck.CheckExpr ctx a1 env = (x, []))
    (hst : ck.expectSingleType ctx s.KnownType s = (.rtype sliceT, none))
    (hxt : ck.expectSingleType ctx x.KnownType x = (arg1T, none))
    (hsk : sliceT.Kind = .Slice) (hk : arg1T.Kind = some k) :
    ∃ call2, checkBuiltinAppend h ck ctx call env
        = some (call2,
            if arg1T ≠ .rtype sliceT ∧ ¬ (sliceT = byteSlice ∧ k = .String) then
              [.ErrBuiltinWrongArgType (atNode ctx x) call2] else []) ∧
      call2.knownType = [.rtype sliceT] ∧ call2.Args = [s, x] := by
  unfold checkBuiltinAppend
  simp only [hargs, hs, hx, hst, hxt, List.isEmpty_nil, Bool.true_or, ↓reduceIte, ne_eq,
    reduceCtorEq, not_false_eq_true, Ty.Kind_rtype, hsk, beq_self_eq_true, bne_iff_ne, hell,
    Bool.not_true, Bool.false_and, Bool.false_eq_true, Ty.rtype.injEq, hk, List.nil_append]
  by_cases h1 : arg1T = .rtype sliceT
  · subst h1
    simp
  · by_cases h2 : sliceT = byteSlice
    · subst h2
      by_cases h3 : k = .String
      · simp [h1, h3]
      · simp [h1, h3]
    · simp [h1, h2]

/-- C17, at `append(anys, x)` with `anys` of type `[]interface{}` and `x` of type
`int`: `checkBuiltinAppend` reports an `ErrBuiltinWrongArgType` at `x`, although
an `int` is assignable to the empty interface. -/
theorem checkBuiltinAppend_interface_elem :
    ∃ call2, checkBuiltinAppend sampleHelpers sampleChecker sampleCtx
        (builtinCall "append" [rawIdent "anys", rawIdent "x"] 0) sampleVars
      = some (call2,
          [.ErrBuiltinWrongArgType (atNode sampleCtx (typedIdent "x" (.rtype intType))) call2]) ∧
      call2.knownType = [.rtype (.slice emptyInterface)] :=
  ⟨_, rfl, rfl⟩

/-- The form `append(s, x)` on a slice `s` of element type `E` and an operand `x`
that is not a constant: one `ErrBuiltinWrongArgType` exactly when the type of `x`
and `E` differ after `unhackType`. -/
theorem checkBuiltinAppend_typed_element (h : Helpers) (ck : Checker) (ctx : Ctx) (env : Env)
    (call : CallExpr) (a0 a1 s x : Expr) (sliceT E : RType) (t : Ty)
    (hargs : call.Args = [a0, a1]) (hell : call.Ellipsis = 0)
    (hs : ck.CheckExpr ctx a0 env = (s, []))
    (hx : ck.CheckExpr ctx a1 env = (x, []))
    (hst : ck.expectSingleType ctx s.KnownType s = (.rtype sliceT, none))
    (hxt : (ck.expectSingleType ctx x.KnownType x).2 = none)
    (hsk : sliceT.Kind = .Slice) (hse : sliceT.Elem = some E)
    (hxk : x.KnownType = [t]) (hnc : x.IsConst = false) :
    ∃ call2, checkBuiltinAppend h ck ctx call env
        = some (call2,
            if ck.unhackType t ≠ ck.unhackType (.rtype E) then
              [.ErrBuiltinWrongArgType (atNode ctx x) call2] else []) ∧
      call2.knownType = [.rtype sliceT] := by
  unfold checkBuiltinAppend
  rw [hxk] at hxt
  simp only [hargs, hell, hs, hx, hst, List.isEmpty_nil, Bool.true_or, ↓reduceIte, ne_eq,
    reduceCtorEq, not_false_eq_true, Ty.Kind_rtype, hsk, beq_self_eq_true, bne_self_eq_false,
    Bool.false_eq_true, checkBuiltinAppendArgs, hxt, Ty.Elem, hse, List.zip_cons_cons,
    List.zip_nil_right, checkBuiltinAppendElts, checkBuiltinAppendElt, hnc, hxk, List.head?_cons,
    Bool.not_true, Bool.not_false, bne_iff_ne, List.nil_append, hxk]
  by_cases hu : ck.unhackType t = ck.unhackType (.rtype E)
  · simp [hu]
  · simp [hu]

/-! ## The builtins copy and delete -/

/-- A type other than nil and the untyped nil has a kind. -/
theorem Ty.kind_some (t : Ty) (h1 : t ≠ .nil) (h2 : t ≠ .const .ConstNil) :
    ∃ k, t.Kind = some k := by
  cases t with
  | nil => exact absurd rfl h1
  | const c => cases c <;> first | exact ⟨_, rfl⟩ | exact absurd rfl h2
  | rtype t => exact ⟨_, rfl⟩

/-- A host type of slice kind has an element type. -/
theorem RType.slice_has_elem : ∀ t : RType, t.Kind = .Slice → ∃ e, t.Elem = some e
  | .named _ u, h => by
      simp only [RType.Kind] at h
      simpa [RType.Elem] using RType.slice_has_elem u h
  | .slice e, _ => ⟨e, rfl⟩
  | .basic b, h => by cases b <;> cases h
  | .array _ _, h => by cases h
  | .chan _, h => by cases h
  | .func _ _ _, h => by cases h
  | .iface _, h => by cases h
  | .map _ _, h => by cases h
  | .ptr _, h => by cases h
  | .struct _, h => by cases h

/-- A type of slice kind has an element type. -/
theorem Ty.elem_of_slice (t : Ty) (h : t.Kind = some .Slice) : ∃ e, t.Elem = some e := by
  cases t with
  | nil => cases h
  | const c => cases c <;> cases h
  | rtype t => exact RType.slice_has_elem t (Option.some.inj h)

/-- The diagnostics of `copy(dst, src)` on two operands that check without
diagnostics to types other than nil, with the comparison of element types as the
source writes it, after `unhackType`. -/
theorem checkBuiltinCopyExpr_spec (ck : Checker) (ctx : Ctx) (env : Env)
    (call : CallExpr) (a0 a1 x y : Expr) (xt yt : Ty)
    (hargs : call.Args = [a0, a1]) (hell : call.Ellipsis = 0)
    (hx : ck.CheckExpr ctx a0 env = (x, []))
    (hy : ck.CheckExpr ctx a1 env = (y, []))
    (hxt : ck.expectSingleType ctx x.KnownType x = (xt, none))
    (hyt : ck.expectSingleType ctx y.KnownType y = (yt, none))
    (hxn : xt ≠ .nil) (hxc : xt ≠ .const .ConstNil)
    (hyn : yt ≠ .nil) (hyc : yt ≠ .const .ConstNil) :
    ∃ call2 errs, checkBuiltinCopyExpr ck ctx call env = some (call2, errs) ∧
      call2.knownType = [.rtype intType] ∧
      (errs = [] ↔
        (xt.Kind = some .Slice ∧
          ((yt.Kind = some .Slice ∧
              ∃ xe ye, xt.Elem = some xe ∧ yt.Elem = some ye ∧
                ck.unhackType (.rtype xe) = ck.unhackType (.rtype ye)) ∨
           (yt.Kind = some .String ∧ xt = .rtype byteSlice)))) ∧
      ((xt.Kind ≠ some .Slice ∨ (yt.Kind ≠ some .Slice ∧ yt.Kind ≠ some .String)) →
        errs = [.ErrCopyArgsMustBeSlices (atNode ctx (.CallExpr call2)) xt yt]) ∧
      (errs ≠ [] → ¬ (xt.Kind ≠ some .Slice ∨ (yt.Kind ≠ some .Slice ∧ yt.Kind ≠ some .String)) →
        errs = [.ErrCopyArgsHaveDifferentEltTypes (atNode ctx (.CallExpr call2)) xt yt]) := by
  obtain ⟨xk, hxk⟩ := Ty.kind_some xt hxn hxc
  obtain ⟨yk, hyk⟩ := Ty.kind_some yt hyn hyc
  unfold checkBuiltinCopyExpr
  simp only [hargs, hell, hx, hy, hxt, hyt, bne_self_eq_false, Bool.false_eq_true, ↓reduceIte,
    List.isEmpty_nil, Bool.true_or, ne_eq, hxn, hyn, hxc, hyc, not_false_eq_true, and_self,
    hxk, hyk, Option.map_some', List.nil_append, Bool.not_true]
  by_cases hxs : xk = .Slice
  · subst hxs
    by_cases hys : yk = .Slice
    · subst hys
      obtain ⟨xe, hxe⟩ := Ty.elem_of_slice xt hxk
      obtain ⟨ye, hye⟩ := Ty.elem_of_slice yt hyk
      by_cases hu : ck.unhackType (.rtype xe) = ck.unhackType (.rtype ye)
      · simp only [hxe, hye, hu, bne_self_eq_false, Bool.false_or, Bool.false_and,
          Bool.false_eq_true, ↓reduceIte]
        exact ⟨_, _, rfl, rfl, by simp [hu]⟩
      · simp only [hxe, hye, bne_self_eq_false, Bool.false_or, Bool.false_and,
          Bool.false_eq_true, ↓reduceIte, bne_iff_ne, ne_eq, hu, not_false_eq_true]
        exact ⟨_, _, rfl, rfl, by simp [hu]⟩
    · by_cases hyS : yk = .String
      · subst hyS
        by_cases hb : xt = .rtype byteSlice
        · simp only [hb, bne_self_eq_false, Bool.false_or, Bool.and_false,
            Bool.false_eq_true, ↓reduceIte, beq_self_eq_true, not_true_eq_false]
          exact ⟨_, _, rfl, rfl, by simp⟩
        · simp only [hb, bne_self_eq_false, Bool.false_or, Bool.and_false,
            Bool.false_eq_true, ↓reduceIte, beq_self_eq_true, not_false_eq_true]
          exact ⟨_, _, rfl, rfl, by simp [hb]⟩
      · have hc : (Kind.Slice != Kind.Slice || yk != Kind.Slice && yk != Kind.String) = true := by
          simp [hys, hyS]
        simp only [hc, ↓reduceIte]
        exact ⟨_, _, rfl, rfl, by simp [hys, hyS]⟩
  · have hc : (xk != Kind.Slice || yk != Kind.Slice && yk != Kind.String) = true := by
      simp [hxs]
    simp only [hc, ↓reduceIte]
    exact ⟨_, _, rfl, rfl, by simp [hxs]⟩

/-- C18: for `copy(dst, src)` on two single-valued operands, not nil, that check
without diagnostics, the known type is `int`; no diagnostic is produced exactly
when `dst` is of slice kind and `src` is either of slice kind with the same
element type (compared after `unhackType`; identical when `unhackType` is
injective) or of string kind with `dst` the byte slice; when `dst` is not a slice
or `src` is neither a slice nor a string there is exactly one
`ErrCopyArgsMustBeSlices`; otherwise exactly one
`ErrCopyArgsHaveDifferentEltTypes`. -/
theorem checkBuiltinCopyExpr_diagnostics (ck : Checker) (ctx : Ctx) (env : Env)
    (call : CallExpr) (a0 a1 x y : Expr) (xt yt : Ty)
    (hargs : call.Args = [a0, a1]) (hell : call.Ellipsis = 0)
    (hx : ck.CheckExpr ctx a0 env = (x, []))
    (hy : ck.CheckExpr ctx a1 env = (y, []))
    (hxt : ck.expectSingleType ctx x.KnownType x = (xt, none))
    (hyt : ck.expectSingleType ctx y.KnownType y = (yt, none))
    (hxn : xt ≠ .nil) (hxc : xt ≠ .const .ConstNil)
    (hyn : yt ≠ .nil) (hyc : yt ≠ .const .ConstNil) :
    ∃ call2 errs, checkBuiltinCopyExpr ck ctx call env = some (call2, errs) ∧
      call2.knownType = [.rtype intType] ∧
      (errs = [] ↔
        (xt.Kind = some .Slice ∧
          ((yt.Kind = some .Slice ∧
              ∃ xe ye, xt.Elem = some xe ∧ yt.Elem = some ye ∧
                ck.unhackType (.rtype xe) = ck.unhackType (.rtype ye)) ∨
           (yt.Kind = some .String ∧ xt = .rtype byteSlice)))) ∧
      ((∀ a b, ck.unhackType a = ck.unhackType b → a = b) →
        (errs = [] ↔
          (xt.Kind = some .Slice ∧
            ((yt.Kind = some .Slice ∧ xt.Elem = yt.Elem) ∨
             (yt.Kind = some .String ∧ xt = .rtype byteSlice))))) ∧
      ((xt.Kind ≠ some .Slice ∨ (yt.Kind ≠ some .Slice ∧ yt.Kind ≠ some .String)) →
        errs = [.ErrCopyArgsMustBeSlices (atNode ctx (.CallExpr call2)) xt yt]) ∧
      (errs ≠ [] → ¬ (xt.Kind ≠ some .Slice ∨ (yt.Kind ≠ some .Slice ∧ yt.Kind ≠ some .String)) →
        errs = [.ErrCopyArgsHaveDifferentEltTypes (atNode ctx (.CallExpr call2)) xt yt]) := by
  obtain ⟨call2, errs, h, hk, hiff, hB, hC⟩ :=
    checkBuiltinCopyExpr_spec ck ctx env call a0 a1 x y xt yt hargs hell hx hy hxt hyt
      hxn hxc hyn hyc
  refine ⟨call2, errs, h, hk, hiff, fun hinj => hiff.trans ⟨?_, ?_⟩, hB, hC⟩
  · rintro ⟨hxs, h1 | h1⟩
    · obtain ⟨hys, xe, ye, hxe, hye, hu⟩ := h1
      have he : xe = ye := Ty.rtype.inj (hinj _ _ hu)
      exact ⟨hxs, Or.inl ⟨hys, by rw [hxe, hye, he]⟩⟩
    · exact ⟨hxs, Or.inr h1⟩
  · rintro ⟨hxs, h1 | h1⟩
    · obtain ⟨hys, he⟩ := h1
      obtain ⟨xe, hxe⟩ := Ty.elem_of_slice xt hxs
      exact ⟨hxs, Or.inl ⟨hys, xe, xe, hxe, he ▸ hxe, rfl⟩⟩
    · exact ⟨hxs, Or.inr h1⟩

/-- C18, at `copy(b, str)` with `b` of type `[]byte` and `str` of type `string`:
no diagnostic, and the known type is `int`. -/
theorem checkBuiltinCopyExpr_diagnostics_witness :
    ∃ call2 errs, checkBuiltinCopyExpr sampleChecker sampleCtx
        (builtinCall "copy" [rawIdent "b", rawIdent "str"] 0) sampleVars
        = some (call2, errs) ∧
      call2.knownType = [.rtype intType] ∧ errs = [] := by
  obtain ⟨call2, errs, h, hk, hiff, _, _, _⟩ :=
    checkBuiltinCopyExpr_diagnostics sampleChecker sampleCtx sampleVars
      (builtinCall "copy" [rawIdent "b", rawIdent "str"] 0) (rawIdent "b") (rawIdent "str")
      (typedIdent "b" (.rtype byteSlice)) (typedIdent "str" (.rtype (.basic .String)))
      (.rtype byteSlice) (.rtype (.basic .String)) rfl rfl rfl rfl rfl rfl
      (by simp) (by simp) (by simp) (by simp)
  exact ⟨call2, errs, h, hk, hiff.2 ⟨rfl, Or.inr ⟨rfl, rfl⟩⟩⟩

/-- C19, at `delete(m, k)` with `m` of type `map[string]int` and `k` of type
`string`: the key is assignable to the key type `string`, and
`checkBuiltinDeleteExpr` reports an `ErrBuiltinWrongArgType` at `k`, having
compared it with the value type `int`. -/
theorem checkBuiltinDeleteExpr_string_key :
    ∃ call2, checkBuiltinDeleteExpr sampleChecker sampleCtx
        (builtinCall "delete" [rawIdent "m", rawIdent "k"] 0) sampleVars
      = some (call2,
          [.ErrBuiltinWrongArgType
            (atNode sampleCtx (typedIdent "k" (.rtype (.basic .String)))) call2]) ∧
      call2.Args = [typedIdent "m" (.rtype (.map (.basic .String) intType)),
        typedIdent "k" (.rtype (.basic .String))] ∧
      (sampleChecker.exprAssignableTo sampleCtx (typedIdent "k" (.rtype (.basic .String)))
        (.rtype (.basic .String))).1 = true :=
  ⟨_, rfl, rfl, rfl⟩

/-- The key of `delete(m, key)` on a map `map[K]V` is compared with the value
type `V`: one `ErrBuiltinWrongArgType` at the key exactly when it is not
assignable to `V`. -/
theorem checkBuiltinDeleteExpr_key_check (ck : Checker) (ctx : Ctx) (env : Env)
    (call : CallExpr) (a0 a1 m key : Expr) (K V : RType) (keyT : Ty)
    (hargs : call.Args = [a0, a1]) (hell : call.Ellipsis = 0)
    (hm : ck.CheckExpr ctx a0 env = (m, []))
    (hk : ck.CheckExpr ctx a1 env = (key, []))
    (hmt : ck.expectSingleType ctx m.KnownType m = (.rtype (.map K V), none))
    (hkt : ck.expectSingleType ctx key.KnownType key = (keyT, none))
    (hkn : keyT ≠ .nil) :
    ∃ call2, checkBuiltinDeleteExpr ck ctx call env
        = some (call2,
            if (ck.exprAssignableTo ctx key (.rtype V)).1 then
              (ck.exprAssignableTo ctx key (.rtype V)).2
            else [.ErrBuiltinWrongArgType (atNode ctx key) call2]) ∧
      call2.Args = [m, key] := by
  unfold checkBuiltinDeleteExpr
  simp only [hargs, hell, hm, hk, hmt, hkt, bne_self_eq_false, Bool.false_eq_true, ↓reduceIte,
    List.isEmpty_nil, Bool.true_or, ne_eq, reduceCtorEq, not_false_eq_true, Ty.Kind_rtype,
    RType.Kind, hkn, Ty.Elem, RType.Elem, List.nil_append, Bool.not_true]
  cases hr : ck.exprAssignableTo ctx key (.rtype V) with
  | mk ok convErrs =>
    cases ok <;> cases convErrs <;> simp

/-! ## The ellipsis on builtins that are not variadic -/

/-- C20, at `make([]int, 1, 2...)` and at `new([]int...)`: both calls are written
with the ellipsis and neither returns a diagnostic, so no
`ErrBuiltinInvalidEllipsis` is reported. -/
theorem checkBuiltinMake_ellipsis :
    (∃ call2, checkBuiltinMake sampleChecker sampleCtx
        (builtinCall "make" [sliceOfIntExpr, rawLit "1", rawLit "2"] 17) sampleEnv
      = some (call2, [])) ∧
    (∃ call2, checkBuiltinNew sampleChecker sampleCtx
        (builtinCall "new" [sliceOfIntExpr] 13) sampleEnv
      = some (call2, [])) :=
  ⟨⟨_, rfl⟩, ⟨_, rfl⟩⟩

/-! ## The builtins complex, real and imag -/

/-- The diagnostics of a step are appended when there are any: the guard on the nil slice changes nothing. -/
theorem append_if_nonempty (base more : List Err) :
    (if (!more.isEmpty) = true then base ++ more else base) = base ++ more := by
  cases more <;> simp

/-- The same on an empty list of diagnostics. -/
theorem self_if_nonempty (more : List Err) :
    (if (!more.isEmpty) = true then more else []) = more := by
  cases more <;> simp

/-- The promotion of an untyped numeric constant to `float64` gives the `float64` of its value. -/
theorem promoteConstToTyped_f64 (h : Helpers) (ctx : Ctx) (ct : ConstType) (n : ConstNumber)
    (expr : Expr) (hn : ct.IsNumeric = true) :
    ∃ errs, promoteConstToTyped h ctx ct (.constNumber n) f64 expr
      = some (.float f64 (h.Float64 n.Value).1, errs) := by
  refine ⟨if (h.Float64 n.Value).2.1 then
    [.ErrTruncatedConstant (atNode ctx expr) .ConstFloat n] else [], ?_⟩
  cases ct <;> simp [ConstType.IsNumeric] at hn <;>
    simp [promoteConstToTyped, convertConstToTyped, convertConstToTypedFuel,
      Val.asConstNumber, f64, RType.Kind, BasicType.Kind]

/-- C21: for `complex(x, y)` without ellipsis on two operands accepted by
`checkBinaryOperands`: when both have the same host type of kind `float32` the
known type is `complex64`, of kind `float64` it is `complex128`, with no
diagnostic added; when both are untyped numeric constants the known type is
`complex128` and the constant value is the complex of the two `float64`
values; when both have the same host type of another kind exactly one
`ErrBuiltinWrongArgType` is added and no known type is set; when they have
different host types exactly one diagnostic is added and no known type is set:
the `ErrBuiltinMismatchedArgs` carrying the two types, unless `unhackType`
gives both the same type, in which case it is the `ErrBuiltinWrongArgType`. -/
theorem checkBuiltinComplex_types (h : Helpers) (ck : Checker) (ctx : Ctx) (env : Env)
    (call : CallExpr) (a0 a1 x y : Expr) (moreErrs : List Err) (xt yt : Ty)
    (xrest yrest : List Ty)
    (hargs : call.Args = [a0, a1]) (hell : call.Ellipsis = 0)
    (hck : ck.checkBinaryOperands ctx a0 a1 env = (x, y, true, moreErrs))
    (hxt : x.KnownType = xt :: xrest) (hyt : y.KnownType = yt :: yrest) :
    (∀ t, xt = .rtype t → yt = .rtype t → t.Kind = .Float32 →
      (x.IsConst = true → y.IsConst = true →
        x.Const.getFloat.isSome = true ∧ y.Const.getFloat.isSome = true) →
      ∃ call2, checkBuiltinComplex h ck ctx call env = some (call2, moreErrs) ∧
        call2.knownType = [.rtype c64]) ∧
    (∀ t, xt = .rtype t → yt = .rtype t → t.Kind = .Float64 →
      (x.IsConst = true → y.IsConst = true →
        x.Const.getFloat.isSome = true ∧ y.Const.getFloat.isSome = true) →
      ∃ call2, checkBuiltinComplex h ck ctx call env = some (call2, moreErrs) ∧
        call2.knownType = [.rtype c128]) ∧
    (∀ xct yct nx ny, xt = .const xct → yt = .const yct →
      xct.IsNumeric = true → yct.IsNumeric = true →
      x.Const = .constNumber nx → y.Const = .constNumber ny →
      ∃ call2 errs, checkBuiltinComplex h ck ctx call env = some (call2, errs) ∧
        call2.knownType = [.rtype c128] ∧
        call2.constValue = .complex c128 (h.Float64 nx.Value).1 (h.Float64 ny.Value).1) ∧
    (∀ t, xt = .rtype t → yt = .rtype t → t.Kind ≠ .Float32 → t.Kind ≠ .Float64 →
      ∃ call2, checkBuiltinComplex h ck ctx call env
          = some (call2, moreErrs ++ [.ErrBuiltinWrongArgType (atNode ctx x) call2]) ∧
        call2.knownType = call.knownType) ∧
    (∀ s t, xt = .rtype s → yt = .rtype t → s ≠ t →
      ∃ call2, checkBuiltinComplex h ck ctx call env
          = some (call2, moreErrs ++
              [if ck.unhackType (.rtype s) = ck.unhackType (.rtype t) then
                .ErrBuiltinWrongArgType (atNode ctx x) call2
               else .ErrBuiltinMismatchedArgs (atNode ctx (.CallExpr call2)) (.rtype s) (.rtype t)]) ∧
        call2.knownType = call.knownType) := by
  refine ⟨?_, ?_, ?_, ?_, ?_⟩
  · intro t h1 h2 hk hwf
    subst h1 h2
    unfold checkBuiltinComplex
    simp only [hargs, hell, hck, hxt, hyt, bne_self_eq_false, Bool.false_eq_true, ↓reduceIte,
      append_if_nonempty, self_if_nonempty, List.nil_append, Bool.not_true, List.head?_cons, Ty.Kind_rtype, hk,
      checkBuiltinComplexFloat, beq_self_eq_true]
    cases hx : x.IsConst <;> cases hy : y.IsConst <;>
      simp only [Bool.and_self, Bool.and_false, Bool.false_and, Bool.false_eq_true, ↓reduceIte]
    · exact ⟨_, rfl, rfl⟩
    · exact ⟨_, rfl, rfl⟩
    · exact ⟨_, rfl, rfl⟩
    · obtain ⟨h3, h4⟩ := hwf hx hy
      obtain ⟨xf, hxf⟩ := Option.isSome_iff_exists.1 h3
      obtain ⟨yf, hyf⟩ := Option.isSome_iff_exists.1 h4
      simp only [hxf, hyf, Bool.and_self, ↓reduceIte]
      exact ⟨_, rfl, rfl⟩
  · intro t h1 h2 hk hwf
    subst h1 h2
    unfold checkBuiltinComplex
    simp only [hargs, hell, hck, hxt, hyt, bne_self_eq_false, Bool.false_eq_true, ↓reduceIte,
      append_if_nonempty, self_if_nonempty, List.nil_append, Bool.not_true, List.head?_cons, Ty.Kind_rtype, hk,
      checkBuiltinComplexFloat, beq_self_eq_true, reduceCtorEq, beq_iff_eq]
    cases hx : x.IsConst <;> cases hy : y.IsConst <;>
      simp only [Bool.and_self, Bool.and_false, Bool.false_and, Bool.false_eq_true, ↓reduceIte]
    · exact ⟨_, rfl, rfl⟩
    · exact ⟨_, rfl, rfl⟩
    · exact ⟨_, rfl, rfl⟩
    · obtain ⟨h3, h4⟩ := hwf hx hy
      obtain ⟨xf, hxf⟩ := Option.isSome_iff_exists.1 h3
      obtain ⟨yf, hyf⟩ := Option.isSome_iff_exists.1 h4
      simp only [hxf, hyf, Bool.and_self, ↓reduceIte]
      exact ⟨_, rfl, rfl⟩
  · intro xct yct nx ny h1 h2 hxn hyn hxc hyc
    subst h1 h2
    obtain ⟨xerrs, hpx⟩ := promoteConstToTyped_f64 h ctx xct nx x hxn
    obtain ⟨yerrs, hpy⟩ := promoteConstToTyped_f64 h ctx yct ny y hyn
    unfold checkBuiltinComplex
    simp only [hargs, hell, hck, hxt, hyt, bne_self_eq_false, Bool.false_eq_true, ↓reduceIte,
      append_if_nonempty, self_if_nonempty, List.nil_append, Bool.not_true, List.head?_cons, hxn, hyn,
      Bool.and_self, hxc, hyc, hpx, hpy, Val.IsValid, Val.getFloat]
    exact ⟨_, _, rfl, rfl, rfl⟩
  · intro t h1 h2 hk1 hk2
    subst h1 h2
    unfold checkBuiltinComplex
    simp only [hargs, hell, hck, hxt, hyt, bne_self_eq_false, Bool.false_eq_true, ↓reduceIte,
      append_if_nonempty, self_if_nonempty, List.nil_append, Bool.not_true, List.head?_cons, Ty.Kind_rtype,
      checkBuiltinComplexFloat, beq_iff_eq, hk1, hk2, checkBuiltinComplexTail]
    exact ⟨_, rfl, rfl⟩
  · intro s t h1 h2 hne
    subst h1 h2
    have hne2 : ¬ (Ty.rtype s = Ty.rtype t) := fun hh => hne (Ty.rtype.inj hh)
    unfold checkBuiltinComplex
    simp only [hargs, hell, hck, hxt, hyt, bne_self_eq_false, Bool.false_eq_true, ↓reduceIte,
      append_if_nonempty, self_if_nonempty, List.nil_append, Bool.not_true, List.head?_cons, hne2,
      checkBuiltinComplexTail]
    by_cases hu : ck.unhackType (.rtype s) = ck.unhackType (.rtype t)
    · simp only [hu, ↓reduceIte]
      exact ⟨_, rfl, rfl⟩
    · simp only [hu, ↓reduceIte]
      exact ⟨_, rfl, rfl⟩

/-- C21, at `complex(s32, s32)` with `s32` of type `float32`, of known type
`complex64`, and at `complex(s32, s64)` with `s64` of type `float64`, where one
diagnostic is added. -/
theorem checkBuiltinComplex_types_witness :
    (∃ call2, checkBuiltinComplex sampleHelpers sampleChecker sampleCtx
        (builtinCall "complex" [rawIdent "s32", rawIdent "s32"] 0) callVars = some (call2, []) ∧
      call2.knownType = [.rtype c64]) ∧
    (∃ call2, checkBuiltinComplex sampleHelpers sampleChecker sampleCtx
        (builtinCall "complex" [rawIdent "s32", rawIdent "s64"] 0) callVars
        = some (call2, [] ++
            [if sampleChecker.unhackType (.rtype f32) = sampleChecker.unhackType (.rtype f64) then
              .ErrBuiltinWrongArgType (atNode sampleCtx (typedIdent "s32" (.rtype f32))) call2
             else .ErrBuiltinMismatchedArgs (atNode sampleCtx (.CallExpr call2))
              (.rtype f32) (.rtype f64)]) ∧
      call2.knownType = []) :=
  ⟨(checkBuiltinComplex_types sampleHelpers sampleChecker sampleCtx callVars
      (builtinCall "complex" [rawIdent "s32", rawIdent "s32"] 0) (rawIdent "s32") (rawIdent "s32")
      (typedIdent "s32" (.rtype f32)) (typedIdent "s32" (.rtype f32)) [] (.rtype f32)
      (.rtype f32) [] [] rfl rfl rfl rfl rfl).1 f32 rfl rfl rfl (fun hc => by cases hc),
   (checkBuiltinComplex_types sampleHelpers sampleChecker sampleCtx callVars
      (builtinCall "complex" [rawIdent "s32", rawIdent "s64"] 0) (rawIdent "s32") (rawIdent "s64")
      (typedIdent "s32" (.rtype f32)) (typedIdent "s64" (.rtype f64)) [] (.rtype f32)
      (.rtype f64) [] [] rfl rfl rfl rfl rfl).2.2.2.2 f32 f64 rfl rfl (by decide)⟩

/-- C22: for `real(x)` and `imag(x)` without ellipsis on one operand that checks
without diagnostics to a single type other than the untyped nil: a host type of
kind `complex64` gives the known type `float32` and one of kind `complex128`
the known type `float64`, with no diagnostic, a typed operand that is constant
holding a complex value; an untyped complex constant gives the known type
`float64`, the constant value of the part asked for, and no diagnostic; every
other host type and every other untyped constant type gives exactly one
`ErrBuiltinWrongArgType` and no known type. -/
theorem checkBuiltinRealImag_types (h : Helpers) (ck : Checker) (ctx : Ctx) (env : Env)
    (call : CallExpr) (arg0 x : Expr) (xt : Ty) (isReal : Bool)
    (hargs : call.Args = [arg0]) (hell : call.Ellipsis = 0)
    (hx : ck.CheckExpr ctx arg0 env = (x, []))
    (hs : ck.expectSingleType ctx x.KnownType x = (xt, none)) :
    (∀ t, xt = .rtype t → t.Kind = .Complex64 →
      (x.IsConst = true → x.Const.getComplex.isSome = true) →
      ∃ call2, checkBuiltinRealImag h ck ctx call env isReal = some (call2, []) ∧
        call2.knownType = [.rtype f32]) ∧
    (∀ t, xt = .rtype t → t.Kind = .Complex128 →
      (x.IsConst = true → x.Const.getComplex.isSome = true) →
      ∃ call2, checkBuiltinRealImag h ck ctx call env isReal = some (call2, []) ∧
        call2.knownType = [.rtype f64]) ∧
    (∀ n, xt = .const .ConstComplex → x.Const = .constNumber n →
      ∃ call2, checkBuiltinRealImag h ck ctx call env isReal = some (call2, []) ∧
        call2.knownType = [.rtype f64] ∧
        call2.constValue = realImagConst h false isReal (h.Complex128 n.Value).1) ∧
    (∀ t, xt = .rtype t → t.Kind ≠ .Complex64 → t.Kind ≠ .Complex128 →
      ∃ call2, checkBuiltinRealImag h ck ctx call env isReal
          = some (call2, [.ErrBuiltinWrongArgType (atNode ctx x) call2]) ∧
        call2.knownType = call.knownType) ∧
    (∀ ct, xt = .const ct → ct ≠ .ConstComplex → ct ≠ .ConstNil →
      ∃ call2, checkBuiltinRealImag h ck ctx call env isReal
          = some (call2, [.ErrBuiltinWrongArgType (atNode ctx x) call2]) ∧
        call2.knownType = call.knownType) := by
  refine ⟨?_, ?_, ?_, ?_, ?_⟩
  · intro t h1 hk hwf
    subst h1
    unfold checkBuiltinRealImag
    simp only [hargs, hell, hx, hs, bne_self_eq_false, Bool.false_eq_true, ↓reduceIte,
      List.isEmpty_nil, Bool.not_true, Bool.false_and, reduceCtorEq, Ty.Kind_rtype, hk,
      beq_iff_eq, beq_self_eq_true]
    cases hc : x.IsConst
    · simp only [Bool.false_eq_true, ↓reduceIte]
      exact ⟨_, rfl, rfl⟩
    · obtain ⟨c, hcc⟩ := Option.isSome_iff_exists.1 (hwf hc)
      simp only [hcc, ↓reduceIte]
      exact ⟨_, rfl, rfl⟩
  · intro t h1 hk hwf
    subst h1
    unfold checkBuiltinRealImag
    simp only [hargs, hell, hx, hs, bne_self_eq_false, Bool.false_eq_true, ↓reduceIte,
      List.isEmpty_nil, Bool.not_true, Bool.false_and, reduceCtorEq, Ty.Kind_rtype, hk,
      beq_iff_eq, beq_self_eq_true]
    cases hc : x.IsConst
    · simp only [Bool.false_eq_true, ↓reduceIte]
      exact ⟨_, rfl, rfl⟩
    · obtain ⟨c, hcc⟩ := Option.isSome_iff_exists.1 (hwf hc)
      simp only [hcc, ↓reduceIte]
      exact ⟨_, rfl, rfl⟩
  · intro n h1 hc
    subst h1
    unfold checkBuiltinRealImag
    simp only [hargs, hell, hx, hs, bne_self_eq_false, Bool.false_eq_true, ↓reduceIte,
      List.isEmpty_nil, Bool.not_true, Bool.false_and, reduceCtorEq, hc,
      promoteConstToTyped, convertConstToTyped, convertConstToTypedFuel, Val.asConstNumber,
      c128, RType.Kind, BasicType.Kind, Val.IsValid, Val.getComplex, Ty.const.injEq]
    exact ⟨_, rfl, rfl, rfl⟩
  · intro t h1 hk1 hk2
    subst h1
    unfold checkBuiltinRealImag
    simp only [hargs, hell, hx, hs, bne_self_eq_false, Bool.false_eq_true, ↓reduceIte,
      List.isEmpty_nil, Bool.not_true, Bool.false_and, reduceCtorEq, Ty.Kind_rtype, hk1, hk2,
      beq_iff_eq, List.nil_append]
    exact ⟨_, rfl, rfl⟩
  · intro ct h1 hc1 hc2
    subst h1
    unfold checkBuiltinRealImag
    simp only [hargs, hell, hx, hs, bne_self_eq_false, Bool.false_eq_true, ↓reduceIte,
      List.isEmpty_nil, Bool.not_true, Bool.false_and, Ty.const.injEq, hc1, hc2,
      List.nil_append]
    exact ⟨_, rfl, rfl⟩

/-- C22, at `real(z64)` with `z64` of type `complex64`, of known type
`float32`; at `imag(x)` with `x` of type `int`, which is rejected; at
`real(1i)`, an untyped complex constant, of known type `float64` without a
diagnostic; and at `real(1)`, an untyped integer constant, which is
rejected. -/
theorem checkBuiltinRealImag_types_witness :
    (∃ call2, checkBuiltinRealImag sampleHelpers sampleChecker sampleCtx
        (builtinCall "real" [rawIdent "z64"] 0) callVars true = some (call2, []) ∧
      call2.knownType = [.rtype f32]) ∧
    (∃ call2, checkBuiltinRealImag sampleHelpers sampleChecker sampleCtx
        (builtinCall "imag" [rawIdent "x"] 0) callVars false
        = some (call2, [.ErrBuiltinWrongArgType
            (atNode sampleCtx (typedIdent "x" (.rtype intType))) call2]) ∧
      call2.knownType = []) ∧
    (∃ call2, checkBuiltinRealImag sampleHelpers constantChecker sampleCtx
        (builtinCall "real" [litNode "1i" .ConstComplex (.constNumber ⟨.ConstComplex, ⟨0, 1⟩⟩)] 0)
        callVars true = some (call2, []) ∧
      call2.knownType = [.rtype f64]) ∧
    (∃ call2, checkBuiltinRealImag sampleHelpers constantChecker sampleCtx
        (builtinCall "real" [litNode "1" .ConstInt (numberConst .ConstInt 1)] 0) callVars true
        = some (call2, [.ErrBuiltinWrongArgType
            (atNode sampleCtx (litNode "1" .ConstInt (numberConst .ConstInt 1))) call2]) ∧
      call2.knownType = []) := by
  refine ⟨?_, ?_, ?_, ?_⟩
  · exact (checkBuiltinRealImag_types sampleHelpers sampleChecker sampleCtx callVars
      (builtinCall "real" [rawIdent "z64"] 0) (rawIdent "z64") (typedIdent "z64" (.rtype c64))
      (.rtype c64) true rfl rfl rfl rfl).1 c64 rfl rfl (fun hc => by cases hc)
  · exact (checkBuiltinRealImag_types sampleHelpers sampleChecker sampleCtx callVars
      (builtinCall "imag" [rawIdent "x"] 0) (rawIdent "x") (typedIdent "x" (.rtype intType))
      (.rtype intType) false rfl rfl rfl rfl).2.2.2.1 intType rfl (by decide) (by decide)
  · obtain ⟨call2, hres, hk, _⟩ :=
      (checkBuiltinRealImag_types sampleHelpers constantChecker sampleCtx callVars
        (builtinCall "real" [litNode "1i" .ConstComplex (.constNumber ⟨.ConstComplex, ⟨0, 1⟩⟩)] 0)
        (litNode "1i" .ConstComplex (.constNumber ⟨.ConstComplex, ⟨0, 1⟩⟩))
        (litNode "1i" .ConstComplex (.constNumber ⟨.ConstComplex, ⟨0, 1⟩⟩))
        (.const .ConstComplex) true rfl rfl rfl rfl).2.2.1 ⟨.ConstComplex, ⟨0, 1⟩⟩ rfl rfl
    exact ⟨call2, hres, hk⟩
  · exact (checkBuiltinRealImag_types sampleHelpers constantChecker sampleCtx callVars
      (builtinCall "real" [litNode "1" .ConstInt (numberConst .ConstInt 1)] 0)
      (litNode "1" .ConstInt (numberConst .ConstInt 1))
      (litNode "1" .ConstInt (numberConst .ConstInt 1))
      (.const .ConstInt) true rfl rfl rfl rfl).2.2.2.2 .ConstInt rfl (by decide) (by decide)

/-! ## Calls of functions -/

/-- A type with a signature is of function kind. -/
theorem RType.kind_of_sig : ∀ (t : RType) (s : List RType × List RType × Bool),
    t.sig = some s → t.Kind = .Func
  | .named _ u, s, h => by
      simp only [RType.sig] at h
      simpa [RType.Kind] using RType.kind_of_sig u s h
  | .func _ _ _, _, _ => rfl
  | .basic _, _, h => by cases h
  | .array _ _, _, h => by cases h
  | .chan _, _, h => by cases h
  | .iface _, _, h => by cases h
  | .map _ _, _, h => by cases h
  | .ptr _, _, h => by cases h
  | .slice _, _, h => by cases h
  | .struct _, _, h => by cases h

/-- The element that follows a prefix of a list is at the index of its length. -/
theorem get?_append_length {α : Type} (pre : List α) (p : α) (suf : List α) :
    (pre ++ p :: suf).get? pre.length = some p := by
  induction pre with
  | nil => rfl
  | cons a l ih => simpa using ih

/-- The first loop of the spread branch always ends. -/
theorem checkCallFunSpreadFixed_total (ck : Checker) (ctx : Ctx) (call : CallExpr) (arg0 : Expr)
    (ins : List RType) : ∀ (ts : List Ty) (i : Nat) (errs : List Err),
      ∃ j e, checkCallFunSpreadFixed ck ctx call arg0 ins ts i errs = some (j, e)
  | [], i, errs => ⟨i, errs, rfl⟩
  | t :: ts, i, errs => by
    unfold checkCallFunSpreadFixed
    by_cases hi : i + 1 < ins.length
    · obtain ⟨p, hp⟩ : ∃ p, ins.get? i = some p :=
        ⟨_, List.get?_eq_get (by omega)⟩
      simp only [hi, ↓reduceIte, hp]
      exact checkCallFunSpreadFixed_total ck ctx call arg0 ins ts (i + 1) _
    · simp only [hi, ↓reduceIte]
      exact ⟨_, _, rfl⟩

/-- The two loops of the spread branch on as many result types as parameters:
together they compare every result type with the parameter type of the same
position. -/
theorem checkCallFunSpread_equal (ck : Checker) (ctx : Ctx) (call : CallExpr) (arg0 : Expr)
    (ins : List RType) (arg0T : List Ty) :
    ∀ (ts : List Ty) (suf : List RType) (preT : List Ty) (pre : List RType) (errs : List Err),
      arg0T = preT ++ ts → ins = pre ++ suf → preT.length = pre.length →
      ts.length = suf.length → ts ≠ [] →
      ∃ j e1 argNT, checkCallFunSpreadFixed ck ctx call arg0 ins ts pre.length errs = some (j, e1) ∧
        ins.get? j = some argNT ∧
        checkCallFunSpreadRest ck ctx call arg0 (.rtype argNT) (arg0T.drop j) j e1
          = errs ++ spreadDiagnostics ck ctx call arg0 ts suf pre.length
  | [], _, _, _, _, _, _, _, _, hne => absurd rfl hne
  | [t], suf, preT, pre, errs, hT, hP, hlen, hl, _ => by
    match suf, hl with
    | [p], _ =>
      have h1 : ¬ (pre.length + 1 < ins.length) := by rw [hP]; simp
      have h2 : ins.get? pre.length = some p := by rw [hP]; simp
      have h3 : arg0T.drop pre.length = [t] := by rw [hT, ← hlen]; simp
      refine ⟨pre.length, errs, p, ?_, h2, ?_⟩
      · simp [checkCallFunSpreadFixed, h1]
      · rw [h3]
        by_cases ha : ck.typeAssignableTo t (.rtype p) <;>
          simp [checkCallFunSpreadRest, spreadDiagnostics, ha]
  | t :: t2 :: ts, suf, preT, pre, errs, hT, hP, hlen, hl, _ => by
    match suf, hl with
    | p :: p2 :: suf2, hl2 =>
      have h1 : pre.length + 1 < ins.length := by rw [hP]; simp
      have h2 : ins.get? pre.length = some p := by rw [hP]; exact get?_append_length _ _ _
      obtain ⟨j, e1, argNT, hj, hg, hr⟩ :=
        checkCallFunSpread_equal ck ctx call arg0 ins arg0T (t2 :: ts) (p2 :: suf2)
          (preT ++ [t]) (pre ++ [p])
          (if !ck.typeAssignableTo t (.rtype p) then
            errs ++ [.ErrWrongArgType (atNode ctx arg0) call pre.length] else errs)
          (by rw [hT]; simp) (by rw [hP]; simp) (by simp [hlen])
          (by simpa using hl2) (by simp)
      refine ⟨j, e1, argNT, ?_, hg, ?_⟩
      · rw [← hj]
        conv_lhs => unfold checkCallFunSpreadFixed
        simp only [h1, ↓reduceIte, h2, List.length_append, List.length_singleton]
      · rw [hr]
        by_cases ha : ck.typeAssignableTo t (.rtype p) <;>
          simp [spreadDiagnostics, ha]

/-- C23: for a call `f(g())` whose callee checks without diagnostics to a
function type that is not variadic, with parameter types `P`, and whose single
argument has the known types `R`, at least two, and is a call once the
superfluous parentheses are skipped: `checkCallFunExpr` sets the flag
`arg0MultiValued`, and when `R` and `P` have the same length the diagnostics
are exactly one `ErrWrongArgType`, with `argPos` `i`, for each position `i` at
which `R[i]` is not assignable to `P[i]`, in increasing position. -/
theorem checkCallFunExpr_spread (ck : Checker) (ctx : Ctx) (env : Env) (call : CallExpr)
    (fn arg0 : Expr) (ft : RType) (P outs : List RType) (R : List Ty)
    (hfun : ck.CheckExpr ctx call.Fun env = (fn, []))
    (hst : ck.expectSingleType ctx fn.KnownType fn = (.rtype ft, none))
    (hsig : ft.sig = some (P, outs, false))
    (hargs : call.Args = [arg0]) (hR : arg0.KnownType = R) (hlen : 2 ≤ R.length)
    (hcall : (ck.skipSuperfluousParens arg0).isCallExpr = true) :
    ∃ call2 errs, checkCallFunExpr ck ctx call env = some (call2, errs) ∧
      call2.arg0MultiValued = true ∧
      (R.length = P.length → errs = spreadDiagnostics ck ctx call2 arg0 R P 0) := by
  have hk : ft.Kind = .Func := RType.kind_of_sig ft _ hsig
  have hlt : (1 < R.length) := by omega
  unfold checkCallFunExpr
  simp only [hfun, hst, hargs, hR, hcall, List.isEmpty_nil, Bool.not_true, Bool.false_and,
    Bool.false_eq_true, ↓reduceIte, reduceCtorEq, Ty.Kind_rtype, hk, bne_self_eq_false,
    Ty.sig, hsig, hlt, decide_True, Bool.and_self, Bool.not_false, List.isEmpty_nil]
  by_cases hl : R.length = P.length
  · obtain ⟨j, e1, argNT, hj, hg, hr⟩ :=
      checkCallFunSpread_equal ck ctx
        { Fun := fn, Args := [arg0], Ellipsis := call.Ellipsis, knownType := outs.map Ty.rtype,
          constValue := call.constValue, isBuiltin := call.isBuiltin,
          isTypeConversion := call.isTypeConversion, arg0MultiValued := true,
          argNEllipsis := call.argNEllipsis } arg0 P R R P [] [] [] rfl rfl rfl hl
        (by intro h0; rw [h0] at hlen; simp at hlen)
    simp only [List.length_nil] at hj hr
    simp only [hj, hl, bne_self_eq_false, Bool.false_eq_true, ↓reduceIte, hg, hr,
      List.nil_append]
    exact ⟨_, _, rfl, rfl, fun _ => rfl⟩
  · obtain ⟨j, e1, hj⟩ := checkCallFunSpreadFixed_total ck ctx
        { Fun := fn, Args := [arg0], Ellipsis := call.Ellipsis, knownType := outs.map Ty.rtype,
          constValue := call.constValue, isBuiltin := call.isBuiltin,
          isTypeConversion := call.isTypeConversion, arg0MultiValued := true,
          argNEllipsis := call.argNEllipsis } arg0 P R 0 []
    simp only [hj, bne_iff_ne, ne_eq, hl, not_false_eq_true, ↓reduceIte]
    exact ⟨_, _, rfl, rfl, fun h0 => h0.elim⟩

/-- C23, at `f(g())` with `g` returning `(int, string)`: no diagnostic for
`f(int, string)`, and exactly one `ErrWrongArgType` with `argPos` 1 for
`f2(int, int)`, the argument being parenthesised. -/
theorem checkCallFunExpr_spread_witness :
    (∃ call2 errs, checkCallFunExpr sampleChecker sampleCtx
        (rawCall (rawIdent "f") [pairCall] 0) callVars = some (call2, errs) ∧
      call2.arg0MultiValued = true ∧ errs = []) ∧
    (∃ call2 errs, checkCallFunExpr sampleChecker sampleCtx
        (rawCall (rawIdent "f2") [.ParenExpr pairCall ⟨pairCall.KnownType, .invalid⟩] 0) callVars
        = some (call2, errs) ∧
      call2.arg0MultiValued = true ∧
      errs = [.ErrWrongArgType
        (atNode sampleCtx (.ParenExpr pairCall ⟨pairCall.KnownType, .invalid⟩)) call2 1]) := by
  constructor
  · obtain ⟨call2, errs, h, hm, he⟩ :=
      checkCallFunExpr_spread sampleChecker sampleCtx callVars
        (rawCall (rawIdent "f") [pairCall] 0)
        (typedIdent "f" (.rtype (.func [intType, .basic .String] [] false))) pairCall
        (.func [intType, .basic .String] [] false) [intType, .basic .String] []
        [.rtype intType, .rtype (.basic .String)] rfl rfl rfl rfl rfl (by decide) rfl
    exact ⟨call2, errs, h, hm, he rfl⟩
  · obtain ⟨call2, errs, h, hm, he⟩ :=
      checkCallFunExpr_spread sampleChecker sampleCtx callVars
        (rawCall (rawIdent "f2") [.ParenExpr pairCall ⟨pairCall.KnownType, .invalid⟩] 0)
        (typedIdent "f2" (.rtype (.func [intType, intType] [] false)))
        (.ParenExpr pairCall ⟨pairCall.KnownType, .invalid⟩)
        (.func [intType, intType] [] false) [intType, intType] []
        [.rtype intType, .rtype (.basic .String)] rfl rfl rfl rfl rfl (by decide) rfl
    exact ⟨call2, errs, h, hm, he rfl⟩

/-- A property of all the diagnostics of a list and of one more holds of the list extended by it. -/
theorem all_append_single {P : Err → Prop} {l : List Err} {x : Err}
    (hl : ∀ e ∈ l, P e) (hx : P x) : ∀ e ∈ l ++ [x], P e := by
  intro e he
  rcases List.mem_append.1 he with h | h
  · exact hl e h
  · rw [List.mem_singleton.1 h]; exact hx

/-- A property of all the diagnostics of two lists holds of their concatenation. -/
theorem all_append {P : Err → Prop} {l m : List Err}
    (hl : ∀ e ∈ l, P e) (hm : ∀ e ∈ m, P e) : ∀ e ∈ l ++ m, P e := by
  intro e he
  rcases List.mem_append.1 he with h | h
  · exact hl e h
  · exact hm e h

/-- The first loop of the spread branch adds diagnostics `ErrWrongArgType` only. -/
theorem checkCallFunSpreadFixed_all (P : Err → Prop) (ck : Checker) (ctx : Ctx)
    (call : CallExpr) (arg0 : Expr) (ins : List RType)
    (hP : ∀ c a i, P (.ErrWrongArgType c a i)) :
    ∀ (ts : List Ty) (i : Nat) (errs : List Err) (j : Nat) (e1 : List Err),
      (∀ e ∈ errs, P e) →
      checkCallFunSpreadFixed ck ctx call arg0 ins ts i errs = some (j, e1) → ∀ e ∈ e1, P e
  | [], i, errs, j, e1, he, h => by
    simp only [checkCallFunSpreadFixed, Option.some.injEq, Prod.mk.injEq] at h
    rw [← h.2]; exact he
  | t :: ts, i, errs, j, e1, he, h => by
    unfold checkCallFunSpreadFixed at h
    split at h
    · split at h
      · cases h
      · refine checkCallFunSpreadFixed_all P ck ctx call arg0 ins hP ts (i + 1) _ j e1 ?_ h
        split
        · exact all_append_single he (hP _ _ _)
        · exact he
    · simp only [Option.some.injEq, Prod.mk.injEq] at h
      rw [← h.2]; exact he

/-- The second loop of the spread branch adds diagnostics `ErrWrongArgType` only. -/
theorem checkCallFunSpreadRest_all (P : Err → Prop) (ck : Checker) (ctx : Ctx)
    (call : CallExpr) (arg0 : Expr) (argNT : Ty)
    (hP : ∀ c a i, P (.ErrWrongArgType c a i)) :
    ∀ (ts : List Ty) (i : Nat) (errs : List Err),
      (∀ e ∈ errs, P e) →
      ∀ e ∈ checkCallFunSpreadRest ck ctx call arg0 argNT ts i errs, P e
  | [], _, errs, he => by simpa [checkCallFunSpreadRest] using he
  | t :: ts, i, errs, he => by
    unfold checkCallFunSpreadRest
    refine checkCallFunSpreadRest_all P ck ctx call arg0 argNT hP ts (i + 1) _ ?_
    split
    · exact all_append_single he (hP _ _ _)
    · exact he

/-- The loop over single values adds diagnostics of `expectSingleType` only. -/
theorem checkCallFunSingle_all (P : Err → Prop) (ck : Checker) (ctx : Ctx)
    (hP : ∀ types e err, (ck.expectSingleType ctx types e).2 = some err → P err) :
    ∀ (args : List Expr) (errs : List Err),
      (∀ e ∈ errs, P e) → ∀ e ∈ (checkCallFunSingle ck ctx args errs).2, P e
  | [], errs, he => by simpa [checkCallFunSingle] using he
  | a :: as, errs, he => by
    unfold checkCallFunSingle
    split
    · next err heq =>
      exact checkCallFunSingle_all P ck ctx hP as _ (all_append_single he (hP _ _ _ heq))
    · exact checkCallFunSingle_all P ck ctx hP as _ he

/-- The check of one argument adds the diagnostics of `exprAssignableTo` or an `ErrWrongArgType`. -/
theorem checkCallFunArg_all (P : Err → Prop) (ck : Checker) (ctx : Ctx) (call : CallExpr)
    (hP : ∀ c a i, P (.ErrWrongArgType c a i))
    (hA : ∀ e t, ∀ x ∈ (ck.exprAssignableTo ctx e t).2, P x)
    (expr : Expr) (t : Ty) (i : Nat) (errs : List Err) (he : ∀ e ∈ errs, P e) :
    ∀ e ∈ checkCallFunArg ck ctx call expr t i errs, P e := by
  unfold checkCallFunArg
  simp only []
  split
  · exact all_append he (hA _ _)
  · exact all_append_single he (hP _ _ _)

/-- The loop over the fixed parameters adds the diagnostics of the checks of its arguments only. -/
theorem checkCallFunFixed_all (P : Err → Prop) (ck : Checker) (ctx : Ctx) (call : CallExpr)
    (ins : List RType)
    (hP : ∀ c a i, P (.ErrWrongArgType c a i))
    (hA : ∀ e t, ∀ x ∈ (ck.exprAssignableTo ctx e t).2, P x) :
    ∀ (args : List (Expr × Bool)) (i : Nat) (errs : List Err) (j : Nat) (e1 : List Err),
      (∀ e ∈ errs, P e) →
      checkCallFunFixed ck ctx call ins args i errs = some (j, e1) → ∀ e ∈ e1, P e
  | [], i, errs, j, e1, he, h => by
    simp only [checkCallFunFixed, Option.some.injEq, Prod.mk.injEq] at h
    rw [← h.2]; exact he
  | (expr, skip) :: rest, i, errs, j, e1, he, h => by
    unfold checkCallFunFixed at h
    split at h
    · split at h
      · exact checkCallFunFixed_all P ck ctx call ins hP hA rest (i + 1) _ j e1 he h
      · split at h
        · cases h
        · exact checkCallFunFixed_all P ck ctx call ins hP hA rest (i + 1) _ j e1
            (checkCallFunArg_all P ck ctx call hP hA _ _ _ _ he) h
    · simp only [Option.some.injEq, Prod.mk.injEq] at h
      rw [← h.2]; exact he

/-- The loop over the remaining arguments adds the diagnostics of the checks of its arguments only. -/
theorem checkCallFunRest_all (P : Err → Prop) (ck : Checker) (ctx : Ctx) (call : CallExpr)
    (argNT : Ty)
    (hP : ∀ c a i, P (.ErrWrongArgType c a i))
    (hA : ∀ e t, ∀ x ∈ (ck.exprAssignableTo ctx e t).2, P x) :
    ∀ (args : List (Expr × Bool)) (i : Nat) (errs : List Err),
      (∀ e ∈ errs, P e) → ∀ e ∈ checkCallFunRest ck ctx call argNT args i errs, P e
  | [], _, errs, he => by simpa [checkCallFunRest] using he
  | (expr, skip) :: rest, i, errs, he => by
    unfold checkCallFunRest
    split
    · exact checkCallFunRest_all P ck ctx call argNT hP hA rest (i + 1) _ he
    · exact checkCallFunRest_all P ck ctx call argNT hP hA rest (i + 1) _
        (checkCallFunArg_all P ck ctx call hP hA _ _ _ _ he)

/-- The diagnostics of `checkCallFunExpr`, when the functions it calls report no
`ErrWrongNumberOfArgs`: either they contain none, or they end with one and
contain no other. -/
theorem checkCallFunExpr_aux (ck : Checker) (ctx : Ctx) (env : Env) (call : CallExpr)
    (h1 : ∀ e ∈ (ck.CheckExpr ctx call.Fun env).2, e.isErrWrongNumberOfArgs = false)
    (h2 : ∀ types e err, (ck.expectSingleType ctx types e).2 = some err →
      err.isErrWrongNumberOfArgs = false)
    (h3 : ∀ e t, ∀ x ∈ (ck.exprAssignableTo ctx e t).2, x.isErrWrongNumberOfArgs = false)
    (call2 : CallExpr) (errs : List Err)
    (hres : checkCallFunExpr ck ctx call env = some (call2, errs)) :
    (∀ e ∈ errs, e.isErrWrongNumberOfArgs = false) ∨
    (∃ pre c n, errs = pre ++ [.ErrWrongNumberOfArgs c n] ∧
      ∀ e ∈ pre, e.isErrWrongNumberOfArgs = false) := by
  have hW : ∀ c a i, (Err.ErrWrongArgType c a i).isErrWrongNumberOfArgs = false :=
    fun _ _ _ => rfl
  unfold checkCallFunExpr at hres
  simp only [] at hres
  repeat' split at hres
  all_goals (try (simp only [Option.some.injEq, Prod.mk.injEq] at hres))
  all_goals first
    | (cases hres; done)
    | (obtain ⟨rfl, rfl⟩ := hres
       first
        | (left; exact h1)
        | (left; simp [Err.isErrWrongNumberOfArgs]; done)
        | (left; exact all_append_single h1 (h2 _ _ _ ‹_›))
        | (right; exact ⟨[], _, _, rfl, by simp⟩)
        | (right
           exact ⟨_, _, _, rfl,
             checkCallFunSpreadFixed_all _ ck ctx _ _ _ hW _ _ _ _ _ h1 ‹_›⟩)
        | (left
           exact checkCallFunSpreadRest_all _ ck ctx _ _ _ hW _ _ _
             (checkCallFunSpreadFixed_all _ ck ctx _ _ _ hW _ _ _ _ _ h1 ‹_›))
        | (right
           exact ⟨_, _, _, rfl,
             checkCallFunFixed_all _ ck ctx _ _ hW h3 _ _ _ _ _
               (checkCallFunSingle_all _ ck ctx h2 _ _ h1) ‹_›⟩)
        | (left
           exact checkCallFunFixed_all _ ck ctx _ _ hW h3 _ _ _ _ _
               (checkCallFunSingle_all _ ck ctx h2 _ _ h1) ‹_›)
        | (left
           exact checkCallFunRest_all _ ck ctx _ _ hW h3 _ _ _
             (checkCallFunFixed_all _ ck ctx _ _ hW h3 _ _ _ _ _
               (checkCallFunSingle_all _ ck ctx h2 _ _ h1) ‹_›))
        | (left
           exact all_append_single (checkCallFunRest_all _ ck ctx _ _ hW h3 _ _ _
             (checkCallFunFixed_all _ ck ctx _ _ hW h3 _ _ _ _ _
               (checkCallFunSingle_all _ ck ctx h2 _ _ h1) ‹_›)) rfl))

/-- C24: in `checkCallFunExpr`, when the diagnostics of the callee, of
`expectSingleType` and of `exprAssignableTo` contain no `ErrWrongNumberOfArgs`
of their own: whenever the returned diagnostics contain an
`ErrWrongNumberOfArgs`, it is their last element and occurs nowhere before
it. -/
theorem checkCallFunExpr_arity_last (ck : Checker) (ctx : Ctx) (env : Env) (call : CallExpr)
    (h1 : ∀ e ∈ (ck.CheckExpr ctx call.Fun env).2, e.isErrWrongNumberOfArgs = false)
    (h2 : ∀ types e err, (ck.expectSingleType ctx types e).2 = some err →
      err.isErrWrongNumberOfArgs = false)
    (h3 : ∀ e t, ∀ x ∈ (ck.exprAssignableTo ctx e t).2, x.isErrWrongNumberOfArgs = false)
    (call2 : CallExpr) (errs : List Err)
    (hres : checkCallFunExpr ck ctx call env = some (call2, errs))
    (hex : ∃ e ∈ errs, e.isErrWrongNumberOfArgs = true) :
    ∃ pre last, errs = pre ++ [last] ∧ last.isErrWrongNumberOfArgs = true ∧
      ∀ e ∈ pre, e.isErrWrongNumberOfArgs = false := by
  rcases checkCallFunExpr_aux ck ctx env call h1 h2 h3 call2 errs hres with h | ⟨pre, c, n, he, hp⟩
  · obtain ⟨e, hm, ht⟩ := hex
    rw [h e hm] at ht
    cases ht
  · exact ⟨pre, _, he, rfl, hp⟩

/-- The diagnostics of the sample `expectSingleType`. -/
theorem sampleChecker_expectSingleType_err (ctx : Ctx) (types : List Ty) (e : Expr) (err : Err)
    (h : (sampleChecker.expectSingleType ctx types e).2 = some err) :
    err = .ErrMissingValue (atNode ctx e) ∨ err = .ErrMultiInSingleContext (atNode ctx e) := by
  match types, h with
  | [], h => exact Or.inl (Option.some.inj h).symm
  | [_], h => cases h
  | _ :: _ :: _, h => exact Or.inr (Option.some.inj h).symm

/-- The sample `exprAssignableTo` reports no diagnostic. -/
theorem sampleChecker_exprAssignableTo_errs (ctx : Ctx) (e : Expr) (t : Ty) :
    (sampleChecker.exprAssignableTo ctx e t).2 = [] := by
  simp only [sampleChecker]
  split <;> rfl

/-- C24, at `f2(s, x, x)` with `f2(int, int)` and `s` a string: the
`ErrWrongNumberOfArgs` is the last diagnostic, after the `ErrWrongArgType` of
the first argument. -/
theorem checkCallFunExpr_arity_last_witness :
    ∃ call2 errs pre last, checkCallFunExpr sampleChecker sampleCtx
        (rawCall (rawIdent "f2")
          [typedIdent "s" (.rtype (.basic .String)), typedIdent "x" (.rtype intType),
            typedIdent "x" (.rtype intType)] 0)
        callVars = some (call2, errs) ∧
      errs = pre ++ [last] ∧ last.isErrWrongNumberOfArgs = true ∧
      pre = [.ErrWrongArgType (atNode sampleCtx (typedIdent "s" (.rtype (.basic .String))))
        call2 0] := by
  obtain ⟨call2, errs, hres, hex⟩ : ∃ call2 errs, checkCallFunExpr sampleChecker sampleCtx
        (rawCall (rawIdent "f2")
          [typedIdent "s" (.rtype (.basic .String)), typedIdent "x" (.rtype intType),
            typedIdent "x" (.rtype intType)] 0)
        callVars = some (call2, errs) ∧
      errs = [.ErrWrongArgType (atNode sampleCtx (typedIdent "s" (.rtype (.basic .String))))
        call2 0, .ErrWrongNumberOfArgs (atNode sampleCtx (.CallExpr call2)) 3] :=
    ⟨_, _, rfl, rfl⟩
  obtain ⟨pre, last, h, hl, _⟩ :=
    checkCallFunExpr_arity_last sampleChecker sampleCtx callVars
      (rawCall (rawIdent "f2")
        [typedIdent "s" (.rtype (.basic .String)), typedIdent "x" (.rtype intType),
          typedIdent "x" (.rtype intType)] 0)
      (fun e he => by cases he)
      (fun types e err h => by
        rcases sampleChecker_expectSingleType_err _ types e err h with h | h <;> rw [h] <;> rfl)
      (fun e t x hx => by
        rw [sampleChecker_exprAssignableTo_errs] at hx
        cases hx)
      call2 errs hres (by rw [hex]; exact ⟨_, List.mem_cons_of_mem _ (List.mem_singleton.2 rfl), rfl⟩)
  refine ⟨call2, errs, pre, last, hres, h, hl, ?_⟩
  rw [hex] at h
  have h2 : [Err.ErrWrongArgType (atNode sampleCtx (typedIdent "s" (.rtype (.basic .String))))
      call2 0] ++ [Err.ErrWrongNumberOfArgs (atNode sampleCtx (.CallExpr call2)) 3]
      = pre ++ [last] := h
  exact (List.append_inj_left' h2 rfl).symm

/-- C25 fails as stated: the call `f1(x, x...)` of the function `f1(int)`, not
variadic, is written with the ellipsis and has one argument too many; the
diagnostics are the `ErrWrongNumberOfArgs` alone, with no
`ErrInvalidEllipsisInCall`. -/
theorem checkCallFunExpr_ellipsis_wrong_count :
    ∃ call2, checkCallFunExpr sampleChecker sampleCtx
        (rawCall (rawIdent "f1") [typedIdent "x" (.rtype intType), typedIdent "x" (.rtype intType)]
          7) callVars
      = some (call2, [.ErrWrongNumberOfArgs (atNode sampleCtx (.CallExpr call2)) 2]) ∧
      call2.argNEllipsis = true :=
  ⟨_, rfl, rfl⟩

/-- The loop over the fixed parameters always ends. -/
theorem checkCallFunFixed_total (ck : Checker) (ctx : Ctx) (call : CallExpr) (ins : List RType) :
    ∀ (args : List (Expr × Bool)) (i : Nat) (errs : List Err),
      ∃ j e, checkCallFunFixed ck ctx call ins args i errs = some (j, e)
  | [], i, errs => ⟨i, errs, rfl⟩
  | (expr, skip) :: rest, i, errs => by
    unfold checkCallFunFixed
    by_cases hi : i + 1 < ins.length
    · obtain ⟨p, hp⟩ : ∃ p, ins.get? i = some p :=
        ⟨_, List.get?_eq_get (by omega)⟩
      simp only [hi, ↓reduceIte, hp]
      cases skip
      · simp only [Bool.false_eq_true, ↓reduceIte]
        exact checkCallFunFixed_total ck ctx call ins rest (i + 1) _
      · simp only [↓reduceIte]
        exact checkCallFunFixed_total ck ctx call ins rest (i + 1) _
    · simp only [hi, ↓reduceIte]
      exact ⟨_, _, rfl⟩

/-- C25, amended: for a function type that is not variadic, a callee that checks
without diagnostics and a non-empty argument list written with the ellipsis,
the first argument not being a spread multi-valued call: when the argument
count equals the parameter count the diagnostics of `checkCallFunExpr` end
with an `ErrInvalidEllipsisInCall`; when it does not they end with the
`ErrWrongNumberOfArgs`, and contain no `ErrInvalidEllipsisInCall` unless
`expectSingleType` or `exprAssignableTo` reports one. -/
theorem checkCallFunExpr_ellipsis (ck : Checker) (ctx : Ctx) (env : Env) (call : CallExpr)
    (fn arg0 : Expr) (rest : List Expr) (ft : RType) (P outs : List RType)
    (hfun : ck.CheckExpr ctx call.Fun env = (fn, []))
    (hst : ck.expectSingleType ctx fn.KnownType fn = (.rtype ft, none))
    (hsig : ft.sig = some (P, outs, false))
    (hargs : call.Args = arg0 :: rest) (hell : call.Ellipsis ≠ 0)
    (hns : (rest.isEmpty && decide (1 < arg0.KnownType.length) &&
      (ck.skipSuperfluousParens arg0).isCallExpr) = false) :
    ∃ call2 errs, checkCallFunExpr ck ctx call env = some (call2, errs) ∧
      (call.Args.length = P.length →
        ∃ pre, errs = pre ++ [.ErrInvalidEllipsisInCall (atNode ctx (.CallExpr call2))]) ∧
      (call.Args.length ≠ P.length →
        (∃ pre, errs = pre ++
          [.ErrWrongNumberOfArgs (atNode ctx (.CallExpr call2)) call.Args.length]) ∧
        ((∀ types e err, (ck.expectSingleType ctx types e).2 = some err →
            err.isErrInvalidEllipsisInCall = false) →
          (∀ e t, ∀ x ∈ (ck.exprAssignableTo ctx e t).2, x.isErrInvalidEllipsisInCall = false) →
          ∀ e ∈ errs, e.isErrInvalidEllipsisInCall = false)) := by
  have hk : ft.Kind = .Func := RType.kind_of_sig ft _ hsig
  have hell2 : (call.Ellipsis != 0) = true := by simpa using hell
  unfold checkCallFunExpr
  simp only [hfun, hst, hargs, hns, List.isEmpty_nil, Bool.not_true, Bool.false_and,
    Bool.false_eq_true, ↓reduceIte, reduceCtorEq, Ty.Kind_rtype, hk, bne_self_eq_false,
    Ty.sig, hsig, hell2, Bool.not_false, Bool.true_or, Bool.and_self, Bool.or_true]
  obtain ⟨j, e1, hj⟩ := checkCallFunFixed_total ck ctx
    { Fun := fn, Args := arg0 :: rest, Ellipsis := call.Ellipsis, knownType := outs.map Ty.rtype,
      constValue := call.constValue, isBuiltin := call.isBuiltin,
      isTypeConversion := call.isTypeConversion, arg0MultiValued := false,
      argNEllipsis := true } P
    ((arg0 :: rest).zip (checkCallFunSingle ck ctx (arg0 :: rest) []).1) 0
    (checkCallFunSingle ck ctx (arg0 :: rest) []).2
  simp only [hj]
  by_cases hl : (arg0 :: rest).length = P.length
  · obtain ⟨p, hp⟩ : ∃ p, P.get? (P.length - 1) = some p :=
      ⟨_, List.get?_eq_get (by rw [← hl]; simp)⟩
    simp only [hl, bne_self_eq_false, Bool.false_eq_true, ↓reduceIte, hp]
    exact ⟨_, _, rfl, fun _ => ⟨_, rfl⟩, fun hne => absurd rfl hne⟩
  · have hl2 : ((arg0 :: rest).length != P.length) = true := by simpa using hl
    simp only [hl2, ↓reduceIte]
    refine ⟨_, _, rfl, fun h0 => absurd h0 hl, fun _ => ⟨⟨_, rfl⟩, fun h2 h3 => ?_⟩⟩
    exact all_append_single
      (checkCallFunFixed_all (fun e => e.isErrInvalidEllipsisInCall = false) ck ctx _ _
        (fun _ _ _ => rfl) h3 _ _ _ _ _
        (checkCallFunSingle_all (fun e => e.isErrInvalidEllipsisInCall = false) ck ctx h2 _ _
          (fun e he => by cases he)) hj) rfl

/-- C25, at `f1(x...)` with `f1(int)`: the argument count is right and the
diagnostics end with the `ErrInvalidEllipsisInCall`. -/
theorem checkCallFunExpr_ellipsis_witness :
    ∃ call2 errs pre, checkCallFunExpr sampleChecker sampleCtx
        (rawCall (rawIdent "f1") [typedIdent "x" (.rtype intType)] 5) callVars
        = some (call2, errs) ∧
      errs = pre ++ [.ErrInvalidEllipsisInCall (atNode sampleCtx (.CallExpr call2))] := by
  obtain ⟨call2, errs, h, h1, _⟩ :=
    checkCallFunExpr_ellipsis sampleChecker sampleCtx callVars
      (rawCall (rawIdent "f1") [typedIdent "x" (.rtype intType)] 5)
      (typedIdent "f1" (.rtype (.func [intType] [] false))) (typedIdent "x" (.rtype intType)) []
      (.func [intType] [] false) [intType] [] rfl rfl rfl rfl (by decide) rfl
  obtain ⟨pre, hp⟩ := h1 rfl
  exact ⟨call2, errs, pre, h, hp⟩

/-! ## Calls and conversions -/

/-- C26, at `x(u)` with `x` a variable of type `int` and `u` undefined, and at
the conversion `[]int(u, x)`: the check of the argument `u` reports an
`ErrUndefined`, and `checkCallExpr` returns the `ErrCallNonFuncType` alone in
the first case and the `ErrWrongNumberOfArgs` alone in the second. -/
theorem checkCallExpr_drops_argument_diagnostics :
    (∃ call2, checkCallExpr sampleHelpers sampleChecker sampleCtx
        (rawCall (rawIdent "x") [rawIdent "u"] 0) sampleVars
      = some (call2, [.ErrCallNonFuncType (atNode sampleCtx (typedIdent "x" (.rtype intType)))])) ∧
    (sampleChecker.CheckExpr sampleCtx (rawIdent "u") sampleVars).2
      = [.ErrUndefined (atNode sampleCtx (rawIdent "u"))] ∧
    (∃ call2, checkCallExpr sampleHelpers sampleChecker sampleCtx
        (rawCall sliceOfIntExpr [rawIdent "u", rawIdent "x"] 0) sampleVars
      = some (call2, [.ErrWrongNumberOfArgs (atNode sampleCtx (.CallExpr call2)) 2])) :=
  ⟨⟨_, rfl⟩, rfl, ⟨_, rfl⟩⟩

/-- A call that is neither of a builtin nor a conversion gets the result of
`checkCallFunExpr` as it is: the diagnostics that `checkCallArgs` has collected
from the arguments are not part of it. -/
theorem checkCallExpr_function_call (h : Helpers) (ck : Checker) (ctx : Ctx)
    (callExpr : CallExpr) (env : Env) (c : CallExpr) (e : List Err)
    (hb : checkCallBuiltinExpr h ck ctx
      (rawCall callExpr.Fun callExpr.Args callExpr.Ellipsis) env = some (c, e, false))
    (ht : (ck.checkType ctx callExpr.Fun env).2.2.1 = false) :
    checkCallExpr h ck ctx callExpr env
      = checkCallFunExpr ck ctx
          { rawCall callExpr.Fun callExpr.Args callExpr.Ellipsis with
            Args := (checkCallArgs ck ctx env callExpr.Args []).1 } env := by
  unfold checkCallExpr
  simp only [rawCall] at hb
  simp only [hb, ht, Bool.false_eq_true, ↓reduceIte, rawCall]

/-- C27: for a conversion with exactly one argument, an untyped constant whose
cast to the target type fails with an `ErrBadConstConversion` as first
diagnostic: the known type is the target type and `isTypeConversion` is set;
when the constant is not nil the diagnostics are those of the cast followed by
one `ErrBadConversion` with the same context, source type, target type and
value, and the constant value of the call is that of the argument; when the
constant is nil the diagnostics are exactly those of the cast and the constant
value of the call is left as it was. -/
theorem checkCallTypeExpr_bad_const (h : Helpers) (ck : Checker) (ctx : Ctx) (env : Env)
    (call : CallExpr) (arg : Expr) (ct : ConstType) (t : RType)
    (c0 : ErrorContext) (f0 t0 : Ty) (v0 v : Val) (rest : List Err)
    (hargs : call.Args = [arg])
    (hst : ck.expectSingleType ctx arg.KnownType arg = (.const ct, none))
    (hcast : castConstToTyped h ctx ct arg.Const t arg
      = some (v, .ErrBadConstConversion c0 f0 t0 v0 :: rest)) :
    ∃ call2 errs, checkCallTypeExpr h ck ctx call (.rtype t) env = some (call2, errs) ∧
      call2.knownType = [.rtype t] ∧ call2.isTypeConversion = true ∧
      (ct ≠ .ConstNil →
        errs = (.ErrBadConstConversion c0 f0 t0 v0 :: rest) ++ [.ErrBadConversion c0 f0 t0 v0] ∧
        call2.constValue = arg.Const) ∧
      (ct = .ConstNil →
        errs = .ErrBadConstConversion c0 f0 t0 v0 :: rest ∧
        call2.constValue = call.constValue) := by
  unfold checkCallTypeExpr
  simp only [hargs, hst, hcast]
  by_cases hn : ct = .ConstNil
  · simp only [hn, ne_eq, not_true_eq_false, ↓reduceIte]
    exact ⟨_, _, rfl, rfl, rfl, fun hf => hf.elim, fun _ => ⟨rfl, rfl⟩⟩
  · simp only [hn, ne_eq, not_false_eq_true, ↓reduceIte, List.isEmpty_cons, Bool.not_false,
      List.head?_cons]
    exact ⟨_, _, rfl, rfl, rfl, fun _ => ⟨rfl, rfl⟩, fun hf => hf.elim⟩

/-- C27, at the conversion of the string constant `abc` to `int`, which gets
the two diagnostics, and of `nil` to `int`, which gets the one of the cast. -/
theorem checkCallTypeExpr_bad_const_witness :
    (∃ call2 errs, checkCallTypeExpr sampleHelpers sampleChecker sampleCtx
        (rawCall (rawIdent "int") [litNode "abc" .ConstString (stringConst "abc")] 0)
        (.rtype intType) sampleVars = some (call2, errs) ∧
      errs =
          [.ErrBadConstConversion (atNode sampleCtx (litNode "abc" .ConstString (stringConst "abc")))
              (.const .ConstString) (.rtype intType) (stringConst "abc"),
           .ErrBadConversion (atNode sampleCtx (litNode "abc" .ConstString (stringConst "abc")))
              (.const .ConstString) (.rtype intType) (stringConst "abc")] ∧
      call2.constValue = stringConst "abc") ∧
    (∃ call2 errs, checkCallTypeExpr sampleHelpers sampleChecker sampleCtx
        (rawCall (rawIdent "int") [typedIdent "nil" (.const .ConstNil)] 0)
        (.rtype intType) sampleVars = some (call2, errs) ∧
      errs =
          [.ErrBadConstConversion (atNode sampleCtx (typedIdent "nil" (.const .ConstNil)))
              (.const .ConstNil) (.rtype intType) .invalid] ∧
      call2.constValue = .invalid) := by
  constructor
  · obtain ⟨call2, errs, h, _, _, h1, _⟩ :=
      checkCallTypeExpr_bad_const sampleHelpers sampleChecker sampleCtx sampleVars
        (rawCall (rawIdent "int") [litNode "abc" .ConstString (stringConst "abc")] 0)
        (litNode "abc" .ConstString (stringConst "abc")) .ConstString intType
        (atNode sampleCtx (litNode "abc" .ConstString (stringConst "abc")))
        (.const .ConstString) (.rtype intType) (stringConst "abc") .invalid [] rfl rfl rfl
    exact ⟨call2, errs, h, (h1 (by decide)).1, (h1 (by decide)).2⟩
  · obtain ⟨call2, errs, h, _, _, _, h2⟩ :=
      checkCallTypeExpr_bad_const sampleHelpers sampleChecker sampleCtx sampleVars
        (rawCall (rawIdent "int") [typedIdent "nil" (.const .ConstNil)] 0)
        (typedIdent "nil" (.const .ConstNil)) .ConstNil intType
        (atNode sampleCtx (typedIdent "nil" (.const .ConstNil)))
        (.const .ConstNil) (.rtype intType) .invalid .invalid [] rfl rfl rfl
    exact ⟨call2, errs, h, (h2 rfl).1, (h2 rfl).2⟩

/-! ## Struct literals -/

/-- C28: on a literal with zero elements `checkCompositeLitStruct` returns the
literal with no diagnostics, for every type. -/
theorem checkCompositeLitStruct_empty (ck : Checker) (ctx : Ctx) (lit : CompositeLit) (t : Ty)
    (env : Env) (hempty : lit.Elts = []) :
    checkCompositeLitStruct ck ctx lit t env = some (lit, []) := by
  simp [checkCompositeLitStruct, hempty]

/-- C28, at the literal with no element of the struct type with two fields. -/
theorem checkCompositeLitStruct_empty_witness :
    checkCompositeLitStruct sampleChecker sampleCtx (rawLiteral []) (.rtype pairStruct)
      sampleVars = some (rawLiteral [], []) :=
  checkCompositeLitStruct_empty sampleChecker sampleCtx (rawLiteral []) (.rtype pairStruct)
    sampleVars rfl

/-- The loop over the positional elements, in closed form. -/
theorem checkCompositeLitStructPositional_spec (ck : Checker) (ctx : Ctx) (env : Env) :
    ∀ (elts : List Expr) (fields : List (String × RType)) (i : Nat) (errs : List Err),
      checkCompositeLitStructPositional ck ctx env elts fields i errs
        = (positionalFieldNodes ck ctx env elts fields, elts.drop fields.length,
            (List.range' i (min fields.length elts.length)).map Int.ofNat,
            errs ++ positionalFieldDiagnostics ck ctx env elts fields)
  | [], fields, i, errs => by
    cases fields <;>
      simp [checkCompositeLitStructPositional, positionalFieldNodes, positionalFieldDiagnostics]
  | e :: es, [], i, errs => by
    simp [checkCompositeLitStructPositional, positionalFieldNodes, positionalFieldDiagnostics]
  | e :: es, (n, ft) :: fs, i, errs => by
    simp only [checkCompositeLitStructPositional, append_if_nonempty,
      checkCompositeLitStructPositional_spec ck ctx env es fs (i + 1),
      positionalFieldNodes, positionalFieldDiagnostics, List.length_cons, List.drop_succ_cons,
      List.append_assoc, Nat.add_min_add_right, List.range'_succ, List.map_cons]
    rfl

/-- The loop over the surplus elements, in closed form. -/
theorem checkCompositeLitStructSurplus_spec (ck : Checker) (ctx : Ctx) (env : Env) :
    ∀ (elts : List Expr) (errs : List Err),
      checkCompositeLitStructSurplus ck ctx env elts errs
        = (elts.map (fun e => (ck.CheckExpr ctx e env).1),
            errs ++ checkedDiagnostics ck ctx env elts)
  | [], errs => by simp [checkCompositeLitStructSurplus, checkedDiagnostics]
  | e :: es, errs => by
    simp only [checkCompositeLitStructSurplus, append_if_nonempty,
      checkCompositeLitStructSurplus_spec ck ctx env es, checkedDiagnostics, List.map_cons,
      List.append_assoc]

/-- The diagnostics of the positional elements are an `ErrBadStructValue` or those of `checkExprAssignableTo`. -/
theorem positionalFieldDiagnostics_all (P : Err → Prop) (ck : Checker) (ctx : Ctx) (env : Env)
    (hB : ∀ c t, P (.ErrBadStructValue c t))
    (hA : ∀ e t, ∀ x ∈ (ck.checkExprAssignableTo ctx e t env).2.2, P x) :
    ∀ (elts : List Expr) (fields : List (String × RType)),
      ∀ x ∈ positionalFieldDiagnostics ck ctx env elts fields, P x
  | [], fields, x, hx => by cases fields <;> simp [positionalFieldDiagnostics] at hx
  | e :: es, [], x, hx => by simp [positionalFieldDiagnostics] at hx
  | e :: es, f :: fs, x, hx => by
    simp only [positionalFieldDiagnostics, List.mem_append] at hx
    rcases hx with hx | hx
    · unfold checkStructField at hx
      simp only [] at hx
      split at hx
      · rw [List.mem_singleton.1 hx]; exact hB _ _
      · exact hA _ _ x hx
    · exact positionalFieldDiagnostics_all P ck ctx env hB hA es fs x hx

/-- The diagnostics of the checked nodes are those of `CheckExpr`. -/
theorem checkedDiagnostics_all (P : Err → Prop) (ck : Checker) (ctx : Ctx) (env : Env)
    (hC : ∀ e, ∀ x ∈ (ck.CheckExpr ctx e env).2, P x) :
    ∀ (elts : List Expr), ∀ x ∈ checkedDiagnostics ck ctx env elts, P x
  | [], x, hx => by simp [checkedDiagnostics] at hx
  | e :: es, x, hx => by
    simp only [checkedDiagnostics, List.mem_append] at hx
    rcases hx with hx | hx
    · exact hC e x hx
    · exact checkedDiagnostics_all P ck ctx env hC es x hx

/-- No element of a list counts when the predicate is false of all of them. -/
theorem countP_eq_zero_of_all {p : Err → Bool} {l : List Err} (h : ∀ x ∈ l, p x = false) :
    l.countP p = 0 := by
  rw [List.countP_eq_zero]
  intro x hx
  simp [h x hx]

/-- C30: for a struct literal with at least one element and no keyed element,
against a struct type with the fields `fields`: the list `lit.fields` is
extended by 0, 1, ... up to the smaller of the field count and the element
count; the elements beyond the last field are replaced by their node checked by
`CheckExpr`; the diagnostics are those of the elements that have a field, then
one `ErrWrongNumberOfStructValues` when the element count differs from the
field count and none when it does not, then those of `CheckExpr` on the surplus
elements; and when `checkExprAssignableTo` and `CheckExpr` report no
`ErrWrongNumberOfStructValues` of their own the diagnostics contain it once in
the first case and not at all in the second. -/
theorem checkCompositeLitStruct_positional (ck : Checker) (ctx : Ctx) (env : Env)
    (lit : CompositeLit) (t : Ty) (fields : List (String × RType))
    (ht : t.structFields = some fields) (hne : lit.Elts ≠ [])
    (hnk : lit.Elts.any Expr.isKeyValue = false) :
    ∃ lit2 errs litAt, checkCompositeLitStruct ck ctx lit t env = some (lit2, errs) ∧
      lit2.fields = lit.fields ++
        (List.range (min fields.length lit.Elts.length)).map Int.ofNat ∧
      lit2.Elts = positionalFieldNodes ck ctx env lit.Elts fields ++
        (lit.Elts.drop fields.length).map (fun e => (ck.CheckExpr ctx e env).1) ∧
      errs = positionalFieldDiagnostics ck ctx env lit.Elts fields ++
        (if fields.length = lit.Elts.length then []
         else [.ErrWrongNumberOfStructValues (atNode ctx (.CompositeLit litAt))]) ++
        checkedDiagnostics ck ctx env (lit.Elts.drop fields.length) ∧
      ((∀ e ty, ∀ x ∈ (ck.checkExprAssignableTo ctx e ty env).2.2,
          x.isErrWrongNumberOfStructValues = false) →
        (∀ e, ∀ x ∈ (ck.CheckExpr ctx e env).2, x.isErrWrongNumberOfStructValues = false) →
        errs.countP Err.isErrWrongNumberOfStructValues
          = if fields.length = lit.Elts.length then 0 else 1) := by
  have hne2 : lit.Elts.isEmpty = false := by
    cases h : lit.Elts with
    | nil => exact absurd h hne
    | cons a l => rfl
  unfold checkCompositeLitStruct
  simp only [hne2, Bool.false_eq_true, ↓reduceIte, hnk, ht,
    checkCompositeLitStructPositional_spec, checkCompositeLitStructSurplus_spec,
    List.nil_append, List.range_eq_range']
  by_cases hl : fields.length = lit.Elts.length
  · simp only [hl, bne_self_eq_false, Bool.false_eq_true, ↓reduceIte, List.append_nil]
    refine ⟨_, _, lit, rfl, rfl, rfl, rfl, fun hA hC => ?_⟩
    rw [List.countP_append,
      countP_eq_zero_of_all (positionalFieldDiagnostics_all
        (fun x => x.isErrWrongNumberOfStructValues = false) ck ctx env (fun _ _ => rfl) hA _ _),
      countP_eq_zero_of_all (checkedDiagnostics_all
        (fun x => x.isErrWrongNumberOfStructValues = false) ck ctx env hC _)]
  · have hl2 : (fields.length != lit.Elts.length) = true := by simpa using hl
    simp only [hl2, hl, ↓reduceIte]
    refine ⟨_, _, _, rfl, rfl, rfl, rfl, fun hA hC => ?_⟩
    rw [List.countP_append, List.countP_append,
      countP_eq_zero_of_all (positionalFieldDiagnostics_all
        (fun x => x.isErrWrongNumberOfStructValues = false) ck ctx env (fun _ _ => rfl) hA _ _),
      countP_eq_zero_of_all (checkedDiagnostics_all
        (fun x => x.isErrWrongNumberOfStructValues = false) ck ctx env hC _)]
    rfl

/-- C30, at the literal of the elements `x`, `str`, `u` against the struct with
two fields: the fields 0 and 1, then the count diagnostic, then the
`ErrUndefined` of the surplus element `u`. -/
theorem checkCompositeLitStruct_positional_witness :
    ∃ lit2 errs litAt, checkCompositeLitStruct sampleChecker sampleCtx
        (rawLiteral [rawIdent "x", rawIdent "str", rawIdent "u"]) (.rtype pairStruct) sampleVars
        = some (lit2, errs) ∧
      lit2.fields = [0, 1] ∧
      errs = [.ErrWrongNumberOfStructValues (atNode sampleCtx (.CompositeLit litAt)),
        .ErrUndefined (atNode sampleCtx (rawIdent "u"))] := by
  obtain ⟨lit2, errs, litAt, h, hf, _, he, _⟩ :=
    checkCompositeLitStruct_positional sampleChecker sampleCtx sampleVars
      (rawLiteral [rawIdent "x", rawIdent "str", rawIdent "u"]) (.rtype pairStruct)
      [("A", intType), ("B", .basic .String)] rfl (by simp [rawLiteral]) rfl
  exact ⟨lit2, errs, litAt, h, hf, he⟩

/-- The diagnostics of `checkStructField` are an `ErrBadStructValue` or those of `checkExprAssignableTo`. -/
theorem checkStructField_all (P : Err → Prop) (ck : Checker) (ctx : Ctx) (env : Env)
    (hB : ∀ c t, P (.ErrBadStructValue c t))
    (hA : ∀ e t, ∀ x ∈ (ck.checkExprAssignableTo ctx e t env).2.2, P x)
    (e : Expr) (ft : RType) : ∀ x ∈ (checkStructField ck ctx e ft env).2, P x := by
  intro x hx
  unfold checkStructField at hx
  simp only [] at hx
  split at hx
  · rw [List.mem_singleton.1 hx]; exact hB _ _
  · exact hA _ _ x hx

/-- No element of a list is kept when the predicate is false of all of them. -/
theorem filter_eq_nil_of_all {p : Err → Bool} {l : List Err} (h : ∀ x ∈ l, p x = false) :
    l.filter p = [] := by
  rw [List.filter_eq_nil_iff]
  intro x hx
  simp [h x hx]

/-- The loop over the elements of a literal with keys reports the first bare
element, once: the diagnostics `ErrMixedStructValues` of the result are those
of the initial state and, when the flag `mixed` is not yet set, one at the first
bare element. -/
theorem checkCompositeLitStructKeyed_mixed (ck : Checker) (ctx : Ctx) (t : Ty) (env : Env)
    (hA : ∀ e ty, ∀ x ∈ (ck.checkExprAssignableTo ctx e ty env).2.2,
      x.isErrMixedStructValues = false) :
    ∀ (elts : List Expr) (st : StructKeyedState) (r : List Expr × StructKeyedState),
      checkCompositeLitStructKeyed ck ctx t env elts st = some r →
      r.2.errs.filter Err.isErrMixedStructValues
        = st.errs.filter Err.isErrMixedStructValues ++
          (if st.mixed then []
           else match firstBare elts with
             | some b => [.ErrMixedStructValues (atNode ctx b)]
             | none => [])
  | [], st, r, h => by
    simp only [checkCompositeLitStructKeyed, Option.some.injEq] at h
    subst h
    cases st.mixed <;> simp [firstBare]
  | elt :: rest, st, r, h => by
    unfold checkCompositeLitStructKeyed at h
    simp only [] at h
    split at h
    · cases h
    · next elt1 st1 hstep =>
      split at h
      · cases h
      · next rest1 st2 hrec =>
        simp only [Option.some.injEq] at h
        subst h
        have ih := checkCompositeLitStructKeyed_mixed ck ctx t env hA rest st1 _ hrec
        simp only [] at ih ⊢
        rw [ih]
        clear ih hrec
        split at hstep
        · next key value =>
          have hfb : firstBare (Expr.KeyValueExpr key value :: rest) = firstBare rest := by
            simp [firstBare, Expr.isKeyValue]
          rw [hfb]
          split at hstep
          · split at hstep
            · cases hstep
            · simp only [Option.some.injEq, Prod.mk.injEq] at hstep
              obtain ⟨_, rfl⟩ := hstep
              simp [List.filter_append, Err.isErrMixedStructValues]
            · simp only [Option.some.injEq, Prod.mk.injEq] at hstep
              obtain ⟨_, rfl⟩ := hstep
              simp only [append_if_nonempty, List.filter_append]
              rw [filter_eq_nil_of_all (checkStructField_all
                (fun x => x.isErrMixedStructValues = false) ck ctx env (fun _ _ => rfl) hA _ _)]
              split <;> simp [List.filter_append, Err.isErrMixedStructValues]
          · simp only [Option.some.injEq, Prod.mk.injEq] at hstep
            obtain ⟨_, rfl⟩ := hstep
            simp [List.filter_append, Err.isErrMixedStructValues]
        · next hnkv =>
          have hb : elt.isKeyValue = false := by
            cases elt <;> first | rfl | exact absurd rfl (hnkv _ _)
          have hfb : firstBare (elt :: rest) = some elt := by
            simp [firstBare, hb]
          rw [hfb]
          split at hstep
          · next hm =>
            simp only [Option.some.injEq, Prod.mk.injEq] at hstep
            obtain ⟨_, rfl⟩ := hstep
            have hm2 : st.mixed = false := by simpa using hm
            simp [hm2, List.filter_append, Err.isErrMixedStructValues]
          · next hm =>
            simp only [Option.some.injEq, Prod.mk.injEq] at hstep
            obtain ⟨_, rfl⟩ := hstep
            have hm2 : st.mixed = true := by simpa using hm
            simp [hm2]

/-- On a struct type the loop over the elements of a literal with keys always ends. -/
theorem checkCompositeLitStructKeyed_total (ck : Checker) (ctx : Ctx) (t : Ty) (env : Env)
    (fields : List (String × RType)) (ht : t.structFields = some fields) :
    ∀ (elts : List Expr) (st : StructKeyedState),
      ∃ r, checkCompositeLitStructKeyed ck ctx t env elts st = some r
  | [], st => ⟨_, rfl⟩
  | elt :: rest, st => by
    unfold checkCompositeLitStructKeyed
    simp only [Ty.FieldByName, ht, Option.map_some']
    split
    · next hstep =>
      exfalso
      revert hstep
      split
      · split
        · split
          · rename_i h
            exact Option.noConfusion h
          · simp
          · simp
        · simp
      · split <;> simp
    · next elt1 st1 hstep =>
      obtain ⟨r, hr⟩ := checkCompositeLitStructKeyed_total ck ctx t env fields ht rest st1
      rw [hr]
      exact ⟨_, rfl⟩

/-- C29: for a struct literal against a struct type, when
`checkExprAssignableTo` and `CheckExpr` report no `ErrMixedStructValues` of
their own: if some element is keyed and some element is bare, the diagnostics
of `checkCompositeLitStruct` contain exactly one `ErrMixedStructValues`,
located at the first bare element; if every element is keyed, or none is, they
contain none. -/
theorem checkCompositeLitStruct_mixed (ck : Checker) (ctx : Ctx) (env : Env)
    (lit : CompositeLit) (t : Ty) (fields : List (String × RType))
    (ht : t.structFields = some fields)
    (hA : ∀ e ty, ∀ x ∈ (ck.checkExprAssignableTo ctx e ty env).2.2,
      x.isErrMixedStructValues = false)
    (hC : ∀ e, ∀ x ∈ (ck.CheckExpr ctx e env).2, x.isErrMixedStructValues = false) :
    ∃ lit2 errs, checkCompositeLitStruct ck ctx lit t env = some (lit2, errs) ∧
      (lit.Elts.any Expr.isKeyValue = true →
        ∀ b, firstBare lit.Elts = some b →
          errs.filter Err.isErrMixedStructValues = [.ErrMixedStructValues (atNode ctx b)]) ∧
      (lit.Elts.all Expr.isKeyValue = true ∨ lit.Elts.any Expr.isKeyValue = false →
        errs.filter Err.isErrMixedStructValues = []) := by
  unfold checkCompositeLitStruct
  cases hemp : lit.Elts.isEmpty
  swap
  · have h0 : lit.Elts = [] := List.isEmpty_iff.1 hemp
    simp only [↓reduceIte]
    refine ⟨_, _, rfl, fun hany => ?_, fun _ => rfl⟩
    rw [h0] at hany
    cases hany
  · simp only [Bool.false_eq_true, ↓reduceIte]
    cases hk : lit.Elts.any Expr.isKeyValue
    · simp only [Bool.false_eq_true, ↓reduceIte, ht, checkCompositeLitStructPositional_spec,
        checkCompositeLitStructSurplus_spec, List.nil_append]
      refine ⟨_, _, rfl, fun hany => hany.elim, fun _ => ?_⟩
      apply filter_eq_nil_of_all
      have hpos := positionalFieldDiagnostics_all (fun x => x.isErrMixedStructValues = false)
          ck ctx env (fun _ _ => rfl) hA lit.Elts fields
      refine all_append ?_ ?_
      · split
        · exact all_append hpos (fun x hx => by rw [List.mem_singleton.1 hx]; rfl)
        · exact hpos
      · exact checkedDiagnostics_all (fun x => x.isErrMixedStructValues = false)
          ck ctx env hC _
    · simp only [↓reduceIte]
      obtain ⟨r, hr⟩ := checkCompositeLitStructKeyed_total ck ctx t env fields ht lit.Elts
        { seen := [], mixed := false, fields := lit.fields, errs := [] }
      have hm := checkCompositeLitStructKeyed_mixed ck ctx t env hA lit.Elts _ r hr
      simp only [List.filter_nil, List.nil_append, Bool.false_eq_true, ↓reduceIte] at hm
      rw [hr]
      refine ⟨_, _, rfl, fun _ b hb => ?_, fun hall => ?_⟩
      · rw [hm, hb]
      · rcases hall with hall | hall
        · have hfb : firstBare lit.Elts = none := by
            unfold firstBare
            rw [List.find?_eq_none]
            intro x hx
            simp [List.all_eq_true.1 hall x hx]
          rw [hm, hfb]
        · cases hall

/-- The diagnostics of the sample `checkExprAssignableTo` are an
`ErrUndefined` or an `ErrBadBasicLit`. -/
theorem sampleChecker_checkExprAssignableTo_errs (ctx : Ctx) (e : Expr) (t : Ty) (env : Env) :
    ∀ x ∈ (sampleChecker.checkExprAssignableTo ctx e t env).2.2,
      x = .ErrUndefined (atNode ctx e) ∨ x = .ErrBadBasicLit (atNode ctx e) := by
  intro x hx
  simp only [sampleChecker] at hx
  split at hx
  · split at hx
    · cases hx
    · exact Or.inl (List.mem_singleton.1 hx)
  · exact Or.inr (List.mem_singleton.1 hx)

/-- The diagnostics of the sample `CheckExpr` are an `ErrUndefined` or an
`ErrBadBasicLit`. -/
theorem sampleChecker_CheckExpr_errs (ctx : Ctx) (e : Expr) (env : Env) :
    ∀ x ∈ (sampleChecker.CheckExpr ctx e env).2,
      x = .ErrUndefined (atNode ctx e) ∨ x = .ErrBadBasicLit (atNode ctx e) := by
  intro x hx
  simp only [sampleChecker] at hx
  split at hx
  · cases hx
  · split at hx
    · cases hx
    · exact Or.inl (List.mem_singleton.1 hx)
  · exact Or.inr (List.mem_singleton.1 hx)

/-- C29, at the literal of the elements `A: x`, `str`, `x` against the struct
with two fields: one `ErrMixedStructValues`, at the first bare element
`str`. -/
theorem checkCompositeLitStruct_mixed_witness :
    ∃ lit2 errs, checkCompositeLitStruct sampleChecker sampleCtx
        (rawLiteral [keyed "A" (rawIdent "x"), rawIdent "str", rawIdent "x"])
        (.rtype pairStruct) sampleVars = some (lit2, errs) ∧
      errs.filter Err.isErrMixedStructValues
        = [.ErrMixedStructValues (atNode sampleCtx (rawIdent "str"))] := by
  obtain ⟨lit2, errs, h, hm, _⟩ :=
    checkCompositeLitStruct_mixed sampleChecker sampleCtx sampleVars
      (rawLiteral [keyed "A" (rawIdent "x"), rawIdent "str", rawIdent "x"])
      (.rtype pairStruct) [("A", intType), ("B", .basic .String)] rfl
      (fun e ty x hx => by
        rcases sampleChecker_checkExprAssignableTo_errs _ e ty _ x hx with h | h <;>
          rw [h] <;> rfl)
      (fun e x hx => by
        rcases sampleChecker_CheckExpr_errs _ e _ x hx with h | h <;> rw [h] <;> rfl)
  exact ⟨lit2, errs, h, hm rfl _ rfl⟩

/-! ## Totality of the promotion of constant types -/

/-- C40: on each of the 49 ordered pairs of untyped constant types,
`promoteConsts` returns, and returns a type or a list of diagnostics that is
not empty: its final panic is not reached. `promoteConstNumbers` panics if and
only if one of its arguments is not one of `ConstInt`, `ConstRune`,
`ConstFloat`, `ConstComplex`. -/
theorem promoteConsts_total (ctx : Ctx) (x y : ConstType) (xexpr yexpr : Expr)
    (xval yval : Val) :
    (∃ r errs, promoteConsts ctx x y xexpr yexpr xval yval = some (r, errs) ∧
      (r.isSome = true ∨ errs ≠ [])) ∧
    (promoteConstNumbers x y = none ↔
      (x ∉ [ConstType.ConstInt, .ConstRune, .ConstFloat, .ConstComplex] ∨
       y ∉ [ConstType.ConstInt, .ConstRune, .ConstFloat, .ConstComplex])) := by
  constructor
  · cases x <;> cases y <;>
      first
        | exact ⟨_, _, rfl, Or.inl rfl⟩
        | exact ⟨_, _, rfl, Or.inr (List.cons_ne_nil _ _)⟩
  · cases x <;> cases y <;> simp [promoteConstNumbers]

/-! ## Conversions of typed arguments -/

/-- The conversion of a typed argument: when the type of the argument is not
convertible to the target type, `checkCallTypeExpr` returns one diagnostic, an
`ErrBadConstConversion` located at the call with the invalid value; when it is
convertible, it returns none. -/
theorem checkCallTypeExpr_typed (h : Helpers) (ck : Checker) (ctx : Ctx) (env : Env)
    (call : CallExpr) (arg : Expr) (fromT t : RType)
    (hargs : call.Args = [arg])
    (hst : ck.expectSingleType ctx arg.KnownType arg = (.rtype fromT, none)) :
    ∃ call2 errs, checkCallTypeExpr h ck ctx call (.rtype t) env = some (call2, errs) ∧
      (h.ConvertibleTo fromT t = true → errs = []) ∧
      (h.ConvertibleTo fromT t = false →
        errs = [.ErrBadConstConversion
          (atNode ctx (.CallExpr { call with knownType := [.rtype t], isTypeConversion := true }))
          (.rtype fromT) (.rtype t) .invalid]) := by
  unfold checkCallTypeExpr
  simp only [hargs, hst]
  cases hc : h.ConvertibleTo fromT t
  · simp only [Bool.false_eq_true, ↓reduceIte]
    exact ⟨_, _, rfl, fun hf => hf.elim, fun _ => rfl⟩
  · simp only [↓reduceIte]
    cases arg.IsConst
    · simp only [Bool.false_eq_true, ↓reduceIte]
      exact ⟨_, _, rfl, fun _ => rfl, fun hf => Bool.noConfusion hf⟩
    · simp only [↓reduceIte]
      exact ⟨_, _, rfl, fun _ => rfl, fun hf => Bool.noConfusion hf⟩

/-- C38, at the conversion `[]int(x)` with `x` a variable of type `int`, a
type that is not convertible to `[]int`: `checkCallExpr` returns exactly one
diagnostic, which is an `ErrBadConstConversion` located at the call and not an
`ErrBadConversion`. -/
theorem checkCallTypeExpr_typed_not_convertible :
    sampleHelpers.ConvertibleTo intType (.slice intType) = false ∧
    (sampleChecker.CheckExpr sampleCtx (rawIdent "x") sampleVars).1.KnownType
      = [.rtype intType] ∧
    ∃ call2, checkCallExpr sampleHelpers sampleChecker sampleCtx
        (rawCall sliceOfIntExpr [rawIdent "x"] 0) sampleVars
      = some (call2, [.ErrBadConstConversion (atNode sampleCtx (.CallExpr call2))
          (.rtype intType) (.rtype (.slice intType)) .invalid]) ∧
      (Err.ErrBadConstConversion (atNode sampleCtx (.CallExpr call2))
          (.rtype intType) (.rtype (.slice intType)) .invalid).isErrBadConversion = false :=
  ⟨rfl, rfl, _, rfl, rfl⟩

/-! ## Literals of a type that has no literal -/

/-- A literal whose type, given by its prefix, is of a kind other than map,
array, slice and struct makes `checkCompositeLitR` panic. -/
theorem checkCompositeLitR_other_kind (h : Helpers) (ck : Checker) (ctx : Ctx) (env : Env)
    (lit : CompositeLitOf Expr) (typ typ2 : Expr) (t : RType) (b : Bool) (t0 : Ty)
    (htyp : lit.Typ = some typ)
    (hck : ck.checkType ctx typ env = (typ2, .rtype t, b, []))
    (hk : isContainerKind t.Kind = false) :
    checkCompositeLitR h ck ctx lit t0 env = none := by
  obtain ⟨ltyp, elts, kt, ind, fl, len⟩ := lit
  simp only at htyp
  subst htyp
  unfold checkCompositeLitR
  simp only [hck, List.isEmpty_nil, Bool.not_true, Bool.false_eq_true, ↓reduceIte, Ty.Kind_rtype]
  cases hkk : t.Kind <;> simp_all [isContainerKind]

/-- C35, at the literal `int{}`, whose type prefix resolves to `int` without a
diagnostic, and at a literal without prefix checked against the pointer type
`*int`: `checkCompositeLit` and `checkCompositeLitR` panic. -/
theorem checkCompositeLitR_int_panics :
    literalChecker.checkType sampleCtx (rawIdent "int") literalVars
      = (rawIdent "int", .rtype intType, true, []) ∧
    checkCompositeLit sampleHelpers literalChecker sampleCtx
      (typedLiteral (rawIdent "int") []) literalVars = none ∧
    checkCompositeLitR sampleHelpers literalChecker sampleCtx (rawLiteral [])
      (.rtype (.ptr intType)) literalVars = none :=
  ⟨rfl, rfl, rfl⟩

/-! ## Nested literals with a type prefix of their own -/

/-- A nested literal that is a map value or an element of an array or slice
of a container type gets the result of `checkCompositeLitR` as it is. -/
theorem checkValue_nested_literal (h : Helpers) (ck : Checker) (ctx : Ctx) (env : Env)
    (lit : CompositeLitOf Expr) (eltT : RType) (hk : isContainerKind eltT.Kind = true) :
    checkMapValue h ck ctx (.CompositeLit lit) eltT env
      = (checkCompositeLitR h ck ctx lit (.rtype eltT) env).map
          (fun r => (Expr.CompositeLit r.1, r.2)) ∧
    checkArrayValue h ck ctx (.CompositeLit lit) eltT env
      = (checkCompositeLitR h ck ctx lit (.rtype eltT) env).map
          (fun r => (Expr.CompositeLit r.1, r.2)) := by
  have hkk : eltT.Kind = .Array ∨ eltT.Kind = .Slice ∨ eltT.Kind = .Map ∨ eltT.Kind = .Struct := by
    cases hc : eltT.Kind <;> simp_all [isContainerKind]
  constructor
  · unfold checkMapValue
    simp only [hkk, ↓reduceIte]
    cases checkCompositeLitR h ck ctx lit (.rtype eltT) env <;> rfl
  · unfold checkArrayValue
    simp only [hkk, ↓reduceIte]
    cases checkCompositeLitR h ck ctx lit (.rtype eltT) env <;> rfl

/-- C37, at the literal `[]string{s}` as an element of a `[][]int` and as a
value of a `map[int][]int`, with `s` a variable of type `string`: the slice
type `[]string` is not assignable to `[]int`, and `checkArrayValue`,
`checkMapValue` and the check of the whole literal `[][]int{[]string{s}}`
return no diagnostic; the nested literal keeps the type `[]string`. -/
theorem checkArrayValue_typed_literal :
    sampleChecker.typeAssignableTo (.rtype (.slice (.basic .String))) (.rtype (.slice intType))
      = false ∧
    (∃ e, checkArrayValue sampleHelpers literalChecker sampleCtx
        (.CompositeLit (typedLiteral (sliceExpr (rawIdent "string")) [rawIdent "s"]))
        (.slice intType) literalVars = some (e, []) ∧
      e.KnownType = [.rtype (.slice (.basic .String))]) ∧
    (∃ e, checkMapValue sampleHelpers literalChecker sampleCtx
        (.CompositeLit (typedLiteral (sliceExpr (rawIdent "string")) [rawIdent "s"]))
        (.slice intType) literalVars = some (e, []) ∧
      e.KnownType = [.rtype (.slice (.basic .String))]) ∧
    (∃ lit2, checkCompositeLit sampleHelpers literalChecker sampleCtx
        (typedLiteral (sliceExpr (sliceExpr (rawIdent "int")))
          [.CompositeLit (typedLiteral (sliceExpr (rawIdent "string")) [rawIdent "s"])])
        literalVars = some (lit2, []) ∧
      lit2.knownType = [.rtype (.slice (.slice intType))]) :=
  ⟨rfl, ⟨_, rfl, rfl⟩, ⟨_, rfl, rfl⟩, ⟨_, rfl, rfl⟩⟩

/-! ## Duplicate indices of array and slice literals -/

/-- An element without a key that takes an index already used makes the loop
of `checkCompositeLitArrayOrSlice` panic, whatever comes after it. -/
theorem checkCompositeLitArrayElts_unkeyed_duplicate (h : Helpers) (ck : Checker) (ctx : Ctx)
    (env : Env) (t : Ty) (length : Int) (eltT : RType) (elt : Expr) (rest : List Expr)
    (i : Nat) (st : ArrayLitState)
    (hkey : elt.isKeyValue = false) (hused : st.used.contains st.curIndex = true) :
    checkCompositeLitArrayElts h ck ctx env t length eltT (elt :: rest) i st = none := by
  have hp : checkCompositeLitArrayPlace ctx t length elt none st = none := by
    unfold checkCompositeLitArrayPlace
    simp only [hused, ↓reduceIte]
  cases elt <;> first
    | (simp [Expr.isKeyValue] at hkey; done)
    | (unfold checkCompositeLitArrayElts; simp only [hp])

/-- C33, at the literal `[]int{1: a, 0: b, c}` with `a`, `b` and `c` variables
of type `int`: the element `c` takes the index 1, used by the first element,
and `checkCompositeLit` panics instead of returning an `ErrDuplicateArrayKey`;
with the key written, `[]int{1: a, 0: b, 1: c}`, it returns that diagnostic
alone. -/
theorem checkCompositeLitArrayOrSlice_unkeyed_duplicate :
    checkCompositeLit sampleHelpers literalChecker sampleCtx
      (typedLiteral (sliceExpr (rawIdent "int"))
        [.KeyValueExpr (rawLit "1") (rawIdent "a"), .KeyValueExpr (rawLit "0") (rawIdent "b"),
         rawIdent "c"]) literalVars = none ∧
    checkCompositeLitArrayOrSlice sampleHelpers literalChecker sampleCtx
      (rawLiteral [.KeyValueExpr (rawLit "1") (rawIdent "a"),
         .KeyValueExpr (rawLit "0") (rawIdent "b"), rawIdent "c"])
      (.rtype (.slice intType)) literalVars = none ∧
    (∃ lit2, checkCompositeLit sampleHelpers literalChecker sampleCtx
      (typedLiteral (sliceExpr (rawIdent "int"))
        [.KeyValueExpr (rawLit "1") (rawIdent "a"), .KeyValueExpr (rawLit "0") (rawIdent "b"),
         .KeyValueExpr (rawLit "1") (rawIdent "c")]) literalVars
      = some (lit2, [.ErrDuplicateArrayKey
          (atNode sampleCtx (litNode "1" .ConstInt (numberConst .ConstInt 1))) 1])) :=
  ⟨rfl, rfl, _, rfl⟩

/-! ## The diagnostics of map values and of array and slice elements -/

/-- An expression that is not a nested literal of a container type is checked
by the statements that `checkMapValue` and `checkArrayValue` share. -/
theorem checkValue_not_nested (h : Helpers) (ck : Checker) (ctx : Ctx) (env : Env)
    (expr : Expr) (eltT : RType)
    (hd : expr.isCompositeLit = true → isContainerKind eltT.Kind = false) :
    checkMapValue h ck ctx expr eltT env
      = checkValueAssignable ck ctx expr eltT env Err.ErrBadMapValue ∧
    checkArrayValue h ck ctx expr eltT env
      = checkValueAssignable ck ctx expr eltT env Err.ErrBadArrayValue := by
  cases expr
  case CompositeLit lit =>
    have hk := hd rfl
    have hkk : ¬ (eltT.Kind = .Array ∨ eltT.Kind = .Slice ∨ eltT.Kind = .Map ∨
        eltT.Kind = .Struct) := by
      cases hc : eltT.Kind <;> simp_all [isContainerKind]
    constructor
    · unfold checkMapValue
      simp only [hkk, ↓reduceIte]
    · unfold checkArrayValue
      simp only [hkk, ↓reduceIte]
  all_goals exact ⟨by unfold checkMapValue; rfl, by unfold checkArrayValue; rfl⟩

/-- C34: for a map value or an element of an array or slice that is checked
against the element type by `checkExprAssignableTo`, is found not assignable
and has an `ErrBadConstConversion` as first diagnostic: when the source type
of the conversion is `ConstNil`, `checkMapValue` and `checkArrayValue` return
the diagnostics unchanged; when it is `ConstString`, they return them followed
by one `ErrBadMapValue`, respectively `ErrBadArrayValue`; for any other source
type they return that generic diagnostic alone. -/
theorem checkValue_const_conversion (h : Helpers) (ck : Checker) (ctx : Ctx) (env : Env)
    (expr aexpr : Expr) (eltT : RType) (c0 : ErrorContext) (fromT toT : Ty) (v0 : Val)
    (rest : List Err)
    (hd : expr.isCompositeLit = true → isContainerKind eltT.Kind = false)
    (hck : ck.checkExprAssignableTo ctx expr (.rtype eltT) env
      = (aexpr, false, .ErrBadConstConversion c0 fromT toT v0 :: rest)) :
    (fromT = .const .ConstNil →
      checkMapValue h ck ctx expr eltT env
        = some (aexpr, .ErrBadConstConversion c0 fromT toT v0 :: rest) ∧
      checkArrayValue h ck ctx expr eltT env
        = some (aexpr, .ErrBadConstConversion c0 fromT toT v0 :: rest)) ∧
    (fromT = .const .ConstString →
      checkMapValue h ck ctx expr eltT env
        = some (aexpr, (.ErrBadConstConversion c0 fromT toT v0 :: rest) ++
            [.ErrBadMapValue (atNode ctx aexpr) (.rtype eltT)]) ∧
      checkArrayValue h ck ctx expr eltT env
        = some (aexpr, (.ErrBadConstConversion c0 fromT toT v0 :: rest) ++
            [.ErrBadArrayValue (atNode ctx aexpr) (.rtype eltT)])) ∧
    (fromT ≠ .const .ConstNil → fromT ≠ .const .ConstString →
      checkMapValue h ck ctx expr eltT env
        = some (aexpr, [.ErrBadMapValue (atNode ctx aexpr) (.rtype eltT)]) ∧
      checkArrayValue h ck ctx expr eltT env
        = some (aexpr, [.ErrBadArrayValue (atNode ctx aexpr) (.rtype eltT)])) := by
  obtain ⟨hm, ha⟩ := checkValue_not_nested h ck ctx env expr eltT hd
  rw [hm, ha]
  unfold checkValueAssignable
  simp only [hck, Bool.not_false, ↓reduceIte]
  refine ⟨fun hn => ?_, fun hs => ?_, fun hn hs => ?_⟩
  · simp only [hn, ↓reduceIte, and_self]
  · subst hs
    simp
  · simp only [hn, hs, ↓reduceIte, ne_eq, not_false_eq_true, and_self]

/-- C34, at the element `1` of a `[]string` and at the value `1` of a
`map[int]string`: the integer constant is not assignable to `string`, the
first diagnostic is the `ErrBadConstConversion` from `ConstInt`, and the result
is the generic diagnostic alone. -/
theorem checkValue_const_conversion_witness :
    checkMapValue sampleHelpers literalChecker sampleCtx (rawLit "1") (.basic .String)
        literalVars
      = some (litNode "1" .ConstInt (numberConst .ConstInt 1),
          [.ErrBadMapValue (atNode sampleCtx (litNode "1" .ConstInt (numberConst .ConstInt 1)))
            (.rtype (.basic .String))]) ∧
    checkArrayValue sampleHelpers literalChecker sampleCtx (rawLit "1") (.basic .String)
        literalVars
      = some (litNode "1" .ConstInt (numberConst .ConstInt 1),
          [.ErrBadArrayValue (atNode sampleCtx (litNode "1" .ConstInt (numberConst .ConstInt 1)))
            (.rtype (.basic .String))]) :=
  (checkValue_const_conversion sampleHelpers literalChecker sampleCtx literalVars (rawLit "1")
    (litNode "1" .ConstInt (numberConst .ConstInt 1)) (.basic .String)
    (atNode sampleCtx (litNode "1" .ConstInt (numberConst .ConstInt 1)))
    (.const .ConstInt) (.rtype (.basic .String)) (numberConst .ConstInt 1) []
    (fun hf => Bool.noConfusion hf) rfl).2.2 (by decide) (by decide)

/-! ## Nested literals without a type prefix -/

/-- The literal that `checkCompositeLitStruct` returns has the known type of
the literal that it is given. -/
theorem checkCompositeLitStruct_knownType (ck : Checker) (ctx : Ctx) (env : Env)
    (lit lit2 : CompositeLit) (t : Ty) (errs : List Err)
    (hres : checkCompositeLitStruct ck ctx lit t env = some (lit2, errs)) :
    lit2.knownType = lit.knownType ∧ lit2.Typ = lit.Typ := by
  unfold checkCompositeLitStruct at hres
  simp only [] at hres
  repeat' split at hres
  all_goals first
    | (cases hres; done)
    | (simp only [Option.some.injEq, Prod.mk.injEq] at hres
       obtain ⟨rfl, _⟩ := hres
       exact ⟨rfl, rfl⟩)

/-- The literal that `checkCompositeLitR` checks against a context type, when
it has no type prefix and the type is not nil: the check is that of the
container of the kind of the type, on the literal with that type as known
type. -/
theorem checkCompositeLitR_untyped (h : Helpers) (ck : Checker) (ctx : Ctx) (env : Env)
    (lit : CompositeLitOf Expr) (eltT : RType) (htyp : lit.Typ = none) :
    checkCompositeLitR h ck ctx lit (.rtype eltT) env
      = match eltT.Kind with
        | .Map => checkCompositeLitMap h ck ctx
            { rawLiteral lit.Elts with knownType := [.rtype eltT] } (.rtype eltT) env
        | .Array | .Slice => checkCompositeLitArrayOrSlice h ck ctx
            { rawLiteral lit.Elts with knownType := [.rtype eltT] } (.rtype eltT) env
        | .Struct => checkCompositeLitStruct ck ctx
            { rawLiteral lit.Elts with knownType := [.rtype eltT] } (.rtype eltT) env
        | _ => none := by
  obtain ⟨ltyp, elts, kt, ind, fl, len⟩ := lit
  simp only at htyp
  subst htyp
  unfold checkCompositeLitR
  simp only [reduceCtorEq, ↓reduceIte, Ty.Kind_rtype, rawLiteral]
  cases hk : eltT.Kind <;> simp only [checkCompositeLitMap, checkCompositeLitArrayOrSlice,
    Ty.Kind_rtype, hk]

/-- C36, amended: a nested composite literal without a type prefix that is a
map value or an element of an array or slice, the expected element type being
of map, array, slice or struct kind, is checked by `checkCompositeLitR`
against that type: the check is that of the container of that kind, on the
literal with the element type as known type, and the literal that it returns
has that known type. -/
theorem checkValue_untyped_literal (h : Helpers) (ck : Checker) (ctx : Ctx) (env : Env)
    (lit : CompositeLitOf Expr) (eltT : RType)
    (htyp : lit.Typ = none) (hk : isContainerKind eltT.Kind = true) :
    checkMapValue h ck ctx (.CompositeLit lit) eltT env
      = (checkCompositeLitR h ck ctx lit (.rtype eltT) env).map
          (fun r => (Expr.CompositeLit r.1, r.2)) ∧
    checkArrayValue h ck ctx (.CompositeLit lit) eltT env
      = (checkCompositeLitR h ck ctx lit (.rtype eltT) env).map
          (fun r => (Expr.CompositeLit r.1, r.2)) ∧
    checkCompositeLitR h ck ctx lit (.rtype eltT) env
      = (match eltT.Kind with
        | .Map => checkCompositeLitMap h ck ctx
            { rawLiteral lit.Elts with knownType := [.rtype eltT] } (.rtype eltT) env
        | .Array | .Slice => checkCompositeLitArrayOrSlice h ck ctx
            { rawLiteral lit.Elts with knownType := [.rtype eltT] } (.rtype eltT) env
        | .Struct => checkCompositeLitStruct ck ctx
            { rawLiteral lit.Elts with knownType := [.rtype eltT] } (.rtype eltT) env
        | _ => none) ∧
    ∀ lit2 errs, checkCompositeLitR h ck ctx lit (.rtype eltT) env = some (lit2, errs) →
      lit2.knownType = [.rtype eltT] ∧ lit2.Typ = none := by
  have hv := checkValue_nested_literal h ck ctx env lit eltT hk
  have hu := checkCompositeLitR_untyped h ck ctx env lit eltT htyp
  refine ⟨hv.1, hv.2, hu, ?_⟩
  intro lit2 errs hres
  rw [hu] at hres
  cases hkk : eltT.Kind <;> rw [hkk] at hres <;> simp only [] at hres
  all_goals first
    | (cases hres; done)
    | exact checkCompositeLitStruct_knownType ck ctx env _ lit2 _ errs hres
    | (unfold checkCompositeLitMap at hres
       repeat' split at hres
       all_goals first
         | (cases hres; done)
         | (simp only [Option.some.injEq, Prod.mk.injEq] at hres
            obtain ⟨rfl, _⟩ := hres
            exact ⟨rfl, rfl⟩))
    | (unfold checkCompositeLitArrayOrSlice at hres
       simp only [] at hres
       repeat' split at hres
       all_goals first
         | (cases hres; done)
         | (simp only [Option.some.injEq, Prod.mk.injEq] at hres
            obtain ⟨rfl, _⟩ := hres
            exact ⟨rfl, rfl⟩))

/-- C36, at the literal `{1}` without a type prefix as an element of a
`[][]int`: it is checked as a `[]int`, which is its known type, without a
diagnostic. -/
theorem checkValue_untyped_literal_witness :
    checkArrayValue sampleHelpers literalChecker sampleCtx
        (.CompositeLit (rawLiteral [rawLit "1"])) (.slice intType) literalVars
      = (checkCompositeLitR sampleHelpers literalChecker sampleCtx (rawLiteral [rawLit "1"])
          (.rtype (.slice intType)) literalVars).map (fun r => (Expr.CompositeLit r.1, r.2)) ∧
    ∃ lit2, checkCompositeLitR sampleHelpers literalChecker sampleCtx (rawLiteral [rawLit "1"])
        (.rtype (.slice intType)) literalVars = some (lit2, []) ∧
      lit2.knownType = [.rtype (.slice intType)] ∧ lit2.Typ = none :=
  ⟨(checkValue_untyped_literal sampleHelpers literalChecker sampleCtx literalVars
      (rawLiteral [rawLit "1"]) (.slice intType) rfl rfl).2.1,
    _, rfl,
    (checkValue_untyped_literal sampleHelpers literalChecker sampleCtx literalVars
      (rawLiteral [rawLit "1"]) (.slice intType) rfl rfl).2.2.2 _ _ rfl⟩

/-- C36, at the literal `{}` without a type prefix as the value of a struct
field of type `[]int`: `checkStructField` hands it to `checkExprAssignableTo`,
which checks it without a contextual type and reports the
`ErrMissingCompositeLitType`; the field gets an `ErrBadStructValue` and the
literal has no known type. As an element of a `[][]int` the same literal is
checked without a diagnostic and has the known type `[]int`. -/
theorem checkStructField_untyped_literal :
    (literalChecker.checkExprAssignableTo sampleCtx (.CompositeLit (rawLiteral []))
        (.rtype (.slice intType)) literalVars)
      = (.CompositeLit (rawLiteral []), false,
          [.ErrMissingCompositeLitType (atNode sampleCtx (.CompositeLit (rawLiteral [])))]) ∧
    checkStructField literalChecker sampleCtx (.CompositeLit (rawLiteral [])) (.slice intType)
        literalVars
      = (.CompositeLit (rawLiteral []),
          [.ErrBadStructValue (atNode sampleCtx (.CompositeLit (rawLiteral [])))
            (.rtype (.slice intType))]) ∧
    (Expr.CompositeLit (rawLiteral [])).KnownType ≠ [.rtype (.slice intType)] ∧
    (∃ e, checkArrayValue sampleHelpers literalChecker sampleCtx (.CompositeLit (rawLiteral []))
        (.slice intType) literalVars = some (e, []) ∧
      e.KnownType = [.rtype (.slice intType)]) :=
  ⟨rfl, rfl, by decide, _, rfl, rfl⟩

/-! ## The parameter accesses of a call -/

/-- The index at which the first loop of the spread branch stops: the loop
runs while result types are left and the index is before the last
parameter. -/
theorem checkCallFunSpreadFixed_index (ck : Checker) (ctx : Ctx) (call : CallExpr) (arg0 : Expr)
    (ins : List RType) : ∀ (ts : List Ty) (i : Nat) (errs : List Err),
      ∃ e, checkCallFunSpreadFixed ck ctx call arg0 ins ts i errs
        = some (min (i + ts.length) (max i (ins.length - 1)), e)
  | [], i, errs => ⟨errs, by simp [checkCallFunSpreadFixed]⟩
  | t :: ts, i, errs => by
    unfold checkCallFunSpreadFixed
    by_cases hi : i + 1 < ins.length
    · obtain ⟨p, hp⟩ : ∃ p, ins.get? i = some p :=
        ⟨_, List.get?_eq_get (by omega)⟩
      simp only [hi, ↓reduceIte, hp]
      obtain ⟨e, he⟩ := checkCallFunSpreadFixed_index ck ctx call arg0 ins ts (i + 1)
        (if !ck.typeAssignableTo t (.rtype p) then
            errs ++ [.ErrWrongArgType (atNode ctx arg0) call i]
          else errs)
      refine ⟨e, ?_⟩
      rw [he]
      have hm : min (i + 1 + ts.length) (max (i + 1) (ins.length - 1))
          = min (i + (t :: ts).length) (max i (ins.length - 1)) := by
        simp only [List.length_cons]
        omega
      rw [hm]
    · simp only [hi, ↓reduceIte]
      refine ⟨errs, ?_⟩
      have hm : min (i + (t :: ts).length) (max i (ins.length - 1)) = i := by
        simp only [List.length_cons]
        omega
      rw [hm]

/-- C39: for every call whose callee has a function type, the last parameter
of which is a slice when the function is variadic, `checkCallFunExpr` returns:
no access `In(i)` is out of the range of the parameters, and `Elem` is taken
of the last parameter of a variadic function only. The accesses are those of
the embedding, where an index out of range and the `Elem` of a type that has
none give no result. -/
theorem checkCallFunExpr_params_in_range (ck : Checker) (ctx : Ctx) (env : Env)
    (call : CallExpr) (ft : RType) (ins outs : List RType) (variadic : Bool)
    (hst : (ck.expectSingleType ctx (ck.CheckExpr ctx call.Fun env).1.KnownType
      (ck.CheckExpr ctx call.Fun env).1).1 = .rtype ft)
    (hsig : ft.sig = some (ins, outs, variadic))
    (hv : variadic = true → ∃ p, ins.getLast? = some p ∧ p.Kind = .Slice) :
    ∃ call2 errs, checkCallFunExpr ck ctx call env = some (call2, errs) := by
  have hkind : ft.Kind = .Func := RType.kind_of_sig ft _ hsig
  have hlast : ∀ p, ins.getLast? = some p → ins.get? (ins.length - 1) = some p := by
    intro p hp
    rw [List.getLast?_eq_getElem?] at hp
    rw [List.get?_eq_getElem?]
    exact hp
  unfold checkCallFunExpr
  simp only [hst, Ty.Kind_rtype, hkind, Ty.sig, hsig, reduceCtorEq, ↓reduceIte, bne_self_eq_false,
    Bool.false_eq_true]
  split
  · exact ⟨_, _, rfl⟩
  split
  · exact ⟨_, _, rfl⟩
  split
  · split <;> exact ⟨_, _, rfl⟩
  rename_i arg0 rest hargs
  split
  · -- the spread of a multi-valued argument
    rename_i hmulti
    have hlen : 1 < arg0.KnownType.length := by
      simp only [Bool.and_eq_true, decide_eq_true_eq] at hmulti
      exact hmulti.1.2
    obtain ⟨e, he⟩ := checkCallFunSpreadFixed_index ck ctx
      { call with Fun := (ck.CheckExpr ctx call.Fun env).1, knownType := outs.map Ty.rtype,
                  arg0MultiValued := rest.isEmpty && decide (1 < arg0.KnownType.length) &&
                    (ck.skipSuperfluousParens arg0).isCallExpr }
      arg0 ins arg0.KnownType 0 (ck.CheckExpr ctx call.Fun env).2
    rw [he]
    simp only []
    cases hvar : variadic
    · simp only [Bool.not_false, ↓reduceIte]
      split
      · exact ⟨_, _, rfl⟩
      · rename_i hne
        have hn : arg0.KnownType.length = ins.length := by simpa using hne
        have hj : min (0 + arg0.KnownType.length) (max 0 (ins.length - 1)) = ins.length - 1 := by
          omega
        obtain ⟨p, hp⟩ : ∃ p, ins.get? (ins.length - 1) = some p :=
          ⟨_, List.get?_eq_get (by omega)⟩
        rw [hj, hp]
        exact ⟨_, _, rfl⟩
    · simp only [Bool.not_true, Bool.false_eq_true, ↓reduceIte]
      split
      · exact ⟨_, _, rfl⟩
      · rename_i hge
        obtain ⟨p, hp, hps⟩ := hv hvar
        obtain ⟨el, hel⟩ := RType.slice_has_elem p hps
        have hj : min (0 + arg0.KnownType.length) (max 0 (ins.length - 1)) = ins.length - 1 := by
          omega
        rw [hj, hlast p hp, show (some p).bind RType.Elem = some el from hel]
        exact ⟨_, _, rfl⟩
  · -- one value for each argument
    obtain ⟨j, e, he⟩ := checkCallFunFixed_total ck ctx
      { call with Fun := (ck.CheckExpr ctx call.Fun env).1, knownType := outs.map Ty.rtype,
                  arg0MultiValued := rest.isEmpty && decide (1 < arg0.KnownType.length) &&
                    (ck.skipSuperfluousParens arg0).isCallExpr,
                  argNEllipsis := call.Ellipsis != 0 }
      ins ((arg0 :: rest).zip (checkCallFunSingle ck ctx (arg0 :: rest)
        (ck.CheckExpr ctx call.Fun env).2).1) 0
      (checkCallFunSingle ck ctx (arg0 :: rest) (ck.CheckExpr ctx call.Fun env).2).2
    simp only [hargs] at he ⊢
    rw [he]
    simp only []
    split
    · split
      · exact ⟨_, _, rfl⟩
      · rename_i hne
        have hn : (arg0 :: rest).length = ins.length := by simpa using hne
        obtain ⟨p, hp⟩ : ∃ p, ins.get? (ins.length - 1) = some p :=
          ⟨_, List.get?_eq_get (by simp only [List.length_cons] at hn; omega)⟩
        rw [hp]
        simp only []
        split <;> exact ⟨_, _, rfl⟩
    · rename_i hcond
      have hvar : variadic = true := by
        cases variadic
        · simp at hcond
        · rfl
      obtain ⟨p, hp, hps⟩ := hv hvar
      obtain ⟨el, hel⟩ := RType.slice_has_elem p hps
      split
      · exact ⟨_, _, rfl⟩
      · split
        · exact ⟨_, _, rfl⟩
        · rw [hlast p hp, show (some p).bind RType.Elem = some el from hel]
          simp only []
          split <;> exact ⟨_, _, rfl⟩

/-- C39, at the call `v(x, x, x)` of a variadic function `v(int, ...int)`
with `x` of type `int`: the call is checked, without a diagnostic. -/
theorem checkCallFunExpr_params_in_range_witness :
    ∃ call2 errs, checkCallFunExpr sampleChecker sampleCtx
        (rawCall (rawIdent "v") [typedIdent "x" (.rtype intType),
          typedIdent "x" (.rtype intType), typedIdent "x" (.rtype intType)] 0)
        ⟨[("v", .func [intType, .slice intType] [] true)], []⟩ = some (call2, errs) :=
  checkCallFunExpr_params_in_range sampleChecker sampleCtx
    ⟨[("v", .func [intType, .slice intType] [] true)], []⟩
    (rawCall (rawIdent "v") [typedIdent "x" (.rtype intType),
      typedIdent "x" (.rtype intType), typedIdent "x" (.rtype intType)] 0)
    (.func [intType, .slice intType] [] true) [intType, .slice intType] [] true rfl rfl
    (fun _ => ⟨.slice intType, rfl, rfl⟩)

/-! ## Duplicate keys of map literals -/

/-- The diagnostics of a kind that a list keeps when diagnostics of other
kinds are appended to it. -/
theorem filter_append_of_all {p : Err → Bool} (l m : List Err)
    (hm : ∀ e ∈ m, p e = false) : (l ++ m).filter p = l.filter p := by
  rw [List.filter_append, filter_eq_nil_of_all hm, List.append_nil]

/-- Wrapping to 64 bits a value that is wrapped to 64 bits leaves it as it
is. -/
theorem wrapSigned_idem64 (x : Int) : wrapSigned 64 (wrapSigned 64 x) = wrapSigned 64 x := by
  unfold wrapSigned
  norm_num

/-- Wrapping to 32 bits a value that is wrapped to 32 bits leaves it as it
is. -/
theorem wrapSigned_idem32 (x : Int) : wrapSigned 32 (wrapSigned 32 x) = wrapSigned 32 x := by
  unfold wrapSigned
  norm_num

/-- The key that `checkCompositeLitMap` computes for a constant key is the
boxed value that the specification resolves the constant to. -/
theorem constKeyOf_eq_boxedKey (h : Helpers) (ctx : Ctx) (k : Expr) (c : Option Val)
    (hb : boxedKey h k = some c) : constKeyOf h ctx k = some c := by
  unfold boxedKey at hb
  unfold constKeyOf
  split at hb
  all_goals first
    | (cases hb; done)
    | (rename_i hk hc
       simp only [Option.some.injEq] at hb
       subst hb
       simp only [hk, hc, ConstType.DefaultPromotion, ConstType.Typ, promoteConstToTyped,
         convertConstToTyped, convertConstToTypedFuel, Val.asConstNumber, RType.Kind,
         BasicType.Kind, BigComplex.Int, Val.SetInt, RType.Bits, Kind.Bits, intType,
         Val.Interface, wrapSigned_idem64, wrapSigned_idem32, Val.getString, Val.getBool,
         f64, c128, Val.IsValid, ↓reduceIte, reduceCtorEq])
    | (rename_i hk
       simp only [Option.some.injEq] at hb
       subst hb
       simp only [hk])

/-- On the keys that are plain, the comparison of the map lookup is the
equality of the values. -/
theorem keyEq_plain (a b : Option Val) (ha : plainKey a = true) (hb : plainKey b = true) :
    keyEq a b = decide (a = b) := by
  rw [Bool.eq_iff_iff, decide_eq_true_iff]
  rcases a with _ | a <;> rcases b with _ | b
  · simp [keyEq]
  · simp [keyEq]
  · simp [keyEq]
  · cases a <;> cases b <;>
      simp_all [keyEq, plainKey, float64Eq]
    constructor
    · rintro ⟨⟨ht, hre⟩, him⟩
      refine ⟨ht, ?_, ?_⟩
      · rcases hre with hre | ⟨h1, h2⟩
        · exact hre
        · rw [h1, h2]
      · rcases him with him | ⟨h1, h2⟩
        · exact him
        · rw [h1, h2]
    · rintro ⟨ht, hre, him⟩
      exact ⟨⟨ht, Or.inl hre⟩, Or.inl him⟩

/-- A plain key can be hashed. -/
theorem keyHashable_plain (c : Option Val) (hc : plainKey c = true) : keyHashable c = true := by
  rcases c with _ | c
  · rfl
  · cases c <;> simp_all [keyHashable, plainKey]

/-- The lookup in the map `seen` of a plain key among plain keys does not
panic, and finds the key exactly when it has been recorded. -/
theorem mapKeySeen_plain (seen : List (Option Val)) (c : Option Val)
    (hc : plainKey c = true) (hs : ∀ s ∈ seen, plainKey s = true) :
    mapKeySeen seen c = some (seen.contains c) := by
  unfold mapKeySeen
  simp only [keyHashable_plain c hc, ↓reduceIte, Option.some.injEq]
  induction seen with
  | nil => rfl
  | cons s rest ih =>
    have h1 := keyEq_plain s c (hs s (List.mem_cons_self _ _)) hc
    have h2 := ih (fun x hx => hs x (List.mem_cons_of_mem _ hx))
    simp only [List.any_cons, h1, h2, List.contains_cons]
    by_cases he : s = c
    · simp [he]
    · have he2 : ¬ c = s := fun e => he e.symm
      simp [he, he2]

/-- The diagnostics of the check of a key against the key type contain no
`ErrDuplicateMapKey` besides those that the list had. -/
theorem checkCompositeLitMapKey_check (ck : Checker) (ctx : Ctx) (env : Env) (kT : RType)
    (key : Expr) (errs : List Err)
    (hkerrs : ∀ e ∈ (ck.checkExprAssignableTo ctx key (.rtype kT) env).2.2,
      e.isErrDuplicateMapKey = false) :
    (if !(ck.checkExprAssignableTo ctx key (.rtype kT) env).2.1 then
        if (ck.checkExprAssignableTo ctx key (.rtype kT) env).1.KnownType.length != 0 then
          errs ++ [.ErrBadMapKey
            (atNode ctx ((ck.fakeCheckExpr key env).setKnownType
              (ck.checkExprAssignableTo ctx key (.rtype kT) env).1.KnownType)) (.rtype kT)]
        else errs
      else errs ++ (ck.checkExprAssignableTo ctx key (.rtype kT) env).2.2).filter
        Err.isErrDuplicateMapKey
      = errs.filter Err.isErrDuplicateMapKey := by
  split
  · split
    · exact filter_append_of_all _ _ (by simp [Err.isErrDuplicateMapKey])
    · rfl
  · exact filter_append_of_all _ _ hkerrs

/-- The statements on the key of an entry when duplicates are tracked and the
key is a constant that the specification resolves to a plain key, the keys
recorded being plain: the key is recorded, and one `ErrDuplicateMapKey` is
added when it had been recorded before. -/
theorem checkCompositeLitMapKey_tracked (h : Helpers) (ck : Checker) (ctx : Ctx) (env : Env)
    (kT : RType) (key : Expr) (st : MapLitState) (c : Option Val)
    (hconst : (ck.checkExprAssignableTo ctx key (.rtype kT) env).1.IsConst = true)
    (hc : boxedKey h (ck.checkExprAssignableTo ctx key (.rtype kT) env).1 = some c)
    (hp : plainKey c = true) (hs : ∀ s ∈ st.seen, plainKey s = true)
    (hkerrs : ∀ e ∈ (ck.checkExprAssignableTo ctx key (.rtype kT) env).2.2,
      e.isErrDuplicateMapKey = false) :
    ∃ errs2, checkCompositeLitMapKey h ck ctx env kT true key st
        = some ((ck.checkExprAssignableTo ctx key (.rtype kT) env).1,
            { seen := c :: st.seen, errs := errs2 }) ∧
      errs2.filter Err.isErrDuplicateMapKey = st.errs.filter Err.isErrDuplicateMapKey ++
        (if st.seen.contains c then
          [.ErrDuplicateMapKey (atNode ctx (ck.checkExprAssignableTo ctx key (.rtype kT) env).1)]
         else []) := by
  have hf := checkCompositeLitMapKey_check ck ctx env kT key st.errs hkerrs
  unfold checkCompositeLitMapKey
  simp only [hconst, constKeyOf_eq_boxedKey h ctx _ c hc, Bool.and_self, ↓reduceIte,
    mapKeySeen_plain st.seen c hp hs]
  refine ⟨_, rfl, ?_⟩
  cases hcs : st.seen.contains c
  · simp only [Bool.false_eq_true, ↓reduceIte, List.append_nil]
    exact hf
  · simp only [↓reduceIte]
    rw [List.filter_append, hf]
    rfl

/-- The statements on the key of an entry when duplicates are not tracked:
no `ErrDuplicateMapKey` is added. -/
theorem checkCompositeLitMapKey_untracked (h : Helpers) (ck : Checker) (ctx : Ctx) (env : Env)
    (kT : RType) (key : Expr) (st : MapLitState)
    (hkerrs : ∀ e ∈ (ck.checkExprAssignableTo ctx key (.rtype kT) env).2.2,
      e.isErrDuplicateMapKey = false) :
    ∃ errs2, checkCompositeLitMapKey h ck ctx env kT false key st
        = some ((ck.checkExprAssignableTo ctx key (.rtype kT) env).1,
            { seen := st.seen, errs := errs2 }) ∧
      errs2.filter Err.isErrDuplicateMapKey = st.errs.filter Err.isErrDuplicateMapKey := by
  have hf := checkCompositeLitMapKey_check ck ctx env kT key st.errs hkerrs
  unfold checkCompositeLitMapKey
  simp only [Bool.false_and, Bool.false_eq_true, ↓reduceIte]
  exact ⟨_, rfl, hf⟩

/-- The loop of `checkCompositeLitMap` over keyed entries with constant keys,
duplicates being tracked: it returns, and the `ErrDuplicateMapKey` that it adds
are those of the entries whose key equals a key recorded before. -/
theorem checkCompositeLitMapElts_tracked (h : Helpers) (ck : Checker) (ctx : Ctx) (env : Env)
    (kT eltT : RType) :
    ∀ (entries : List (Expr × Expr)) (st : MapLitState),
      (∀ s ∈ st.seen, plainKey s = true) →
      (∀ p ∈ entries, (ck.checkExprAssignableTo ctx p.1 (.rtype kT) env).1.IsConst = true ∧
        ∃ c, boxedKey h (ck.checkExprAssignableTo ctx p.1 (.rtype kT) env).1 = some c ∧
          plainKey c = true) →
      (∀ p ∈ entries, ∀ e ∈ (ck.checkExprAssignableTo ctx p.1 (.rtype kT) env).2.2,
        e.isErrDuplicateMapKey = false) →
      (∀ p ∈ entries, ∃ v errs, checkMapValue h ck ctx p.2 eltT env = some (v, errs) ∧
        ∀ e ∈ errs, e.isErrDuplicateMapKey = false) →
      ∃ elts2 st2, checkCompositeLitMapElts h ck ctx env kT true eltT
          (entries.map (fun p => Expr.KeyValueExpr p.1 p.2)) st = some (elts2, st2) ∧
        st2.errs.filter Err.isErrDuplicateMapKey
          = st.errs.filter Err.isErrDuplicateMapKey ++
              duplicateMapKeys h ck ctx env kT entries st.seen
  | [], st, _, _, _, _ => ⟨[], st, by simp [checkCompositeLitMapElts, duplicateMapKeys]⟩
  | (key, value) :: rest, st, hs, hconst, hkerrs, hval => by
    obtain ⟨hk, c, hc, hp⟩ := hconst (key, value) (List.mem_cons_self _ _)
    obtain ⟨v, verrs, hv, hve⟩ := hval (key, value) (List.mem_cons_self _ _)
    obtain ⟨errs2, hkey, hf2⟩ := checkCompositeLitMapKey_tracked h ck ctx env kT key st c hk hc
      hp hs (hkerrs (key, value) (List.mem_cons_self _ _))
    obtain ⟨elts2, st2, hrec, hf3⟩ := checkCompositeLitMapElts_tracked h ck ctx env kT eltT rest
      { seen := c :: st.seen, errs := if !verrs.isEmpty then errs2 ++ verrs else errs2 }
      (by
        intro s hmem
        rcases List.mem_cons.1 hmem with rfl | hmem
        · exact hp
        · exact hs s hmem)
      (fun p hp => hconst p (List.mem_cons_of_mem _ hp))
      (fun p hp => hkerrs p (List.mem_cons_of_mem _ hp))
      (fun p hp => hval p (List.mem_cons_of_mem _ hp))
    simp only at hkey hv hc
    refine ⟨.KeyValueExpr (ck.checkExprAssignableTo ctx key (.rtype kT) env).1 v :: elts2,
      st2, ?_, ?_⟩
    · simp only [List.map_cons, checkCompositeLitMapElts, hkey, hv, hrec]
    · rw [hf3]
      simp only [append_if_nonempty, duplicateMapKeys, hc]
      rw [filter_append_of_all _ _ hve, hf2, List.append_assoc]

/-- The loop of `checkCompositeLitMap` over keyed entries, duplicates not
being tracked: it returns and adds no `ErrDuplicateMapKey`. -/
theorem checkCompositeLitMapElts_untracked (h : Helpers) (ck : Checker) (ctx : Ctx) (env : Env)
    (kT eltT : RType) :
    ∀ (entries : List (Expr × Expr)) (st : MapLitState),
      (∀ p ∈ entries, ∀ e ∈ (ck.checkExprAssignableTo ctx p.1 (.rtype kT) env).2.2,
        e.isErrDuplicateMapKey = false) →
      (∀ p ∈ entries, ∃ v errs, checkMapValue h ck ctx p.2 eltT env = some (v, errs) ∧
        ∀ e ∈ errs, e.isErrDuplicateMapKey = false) →
      ∃ elts2 st2, checkCompositeLitMapElts h ck ctx env kT false eltT
          (entries.map (fun p => Expr.KeyValueExpr p.1 p.2)) st = some (elts2, st2) ∧
        st2.errs.filter Err.isErrDuplicateMapKey = st.errs.filter Err.isErrDuplicateMapKey
  | [], st, _, _ => ⟨[], st, by simp [checkCompositeLitMapElts]⟩
  | (key, value) :: rest, st, hkerrs, hval => by
    obtain ⟨v, verrs, hv, hve⟩ := hval (key, value) (List.mem_cons_self _ _)
    obtain ⟨errs2, hkey, hf2⟩ := checkCompositeLitMapKey_untracked h ck ctx env kT key st
      (hkerrs (key, value) (List.mem_cons_self _ _))
    obtain ⟨elts2, st2, hrec, hf3⟩ := checkCompositeLitMapElts_untracked h ck ctx env kT eltT rest
      { seen := st.seen, errs := if !verrs.isEmpty then errs2 ++ verrs else errs2 }
      (fun p hp => hkerrs p (List.mem_cons_of_mem _ hp))
      (fun p hp => hval p (List.mem_cons_of_mem _ hp))
    simp only at hkey hv
    refine ⟨.KeyValueExpr (ck.checkExprAssignableTo ctx key (.rtype kT) env).1 v :: elts2,
      st2, ?_, ?_⟩
    · simp only [List.map_cons, checkCompositeLitMapElts, hkey, hv, hrec]
    · rw [hf3]
      simp only [append_if_nonempty]
      rw [filter_append_of_all _ _ hve, hf2]

/-- C31: for a map literal whose entries are all keyed, the checks of the keys
and of the values returning without an `ErrDuplicateMapKey` of their own:
when the key type is not an interface type and every key is a constant, a
plain value in the data model of the specification, `checkCompositeLitMap`
returns and its `ErrDuplicateMapKey` diagnostics are, in order, one for each
entry whose constant key equals the key of an earlier entry, located at the
key, and none for the others; when the key type is an interface type it
returns and reports none. -/
theorem checkCompositeLitMap_duplicate_keys (h : Helpers) (ck : Checker) (ctx : Ctx) (env : Env)
    (lit : CompositeLit) (t : Ty) (kT eltT : RType) (entries : List (Expr × Expr))
    (hK : t.Key = some kT) (hE : t.Elem = some eltT)
    (helts : lit.Elts = entries.map (fun p => Expr.KeyValueExpr p.1 p.2))
    (hconst : kT.Kind ≠ .Interface →
      ∀ p ∈ entries, (ck.checkExprAssignableTo ctx p.1 (.rtype kT) env).1.IsConst = true ∧
        ∃ c, boxedKey h (ck.checkExprAssignableTo ctx p.1 (.rtype kT) env).1 = some c ∧
          plainKey c = true)
    (hkerrs : ∀ p ∈ entries, ∀ e ∈ (ck.checkExprAssignableTo ctx p.1 (.rtype kT) env).2.2,
      e.isErrDuplicateMapKey = false)
    (hval : ∀ p ∈ entries, ∃ v errs, checkMapValue h ck ctx p.2 eltT env = some (v, errs) ∧
      ∀ e ∈ errs, e.isErrDuplicateMapKey = false) :
    ∃ lit2 errs, checkCompositeLitMap h ck ctx lit t env = some (lit2, errs) ∧
      (kT.Kind ≠ .Interface →
        errs.filter Err.isErrDuplicateMapKey = duplicateMapKeys h ck ctx env kT entries []) ∧
      (kT.Kind = .Interface → errs.filter Err.isErrDuplicateMapKey = []) := by
  unfold checkCompositeLitMap
  simp only [hK, hE, helts]
  by_cases hi : kT.Kind = .Interface
  · obtain ⟨elts2, st2, hrec, hf⟩ := checkCompositeLitMapElts_untracked h ck ctx env kT eltT
      entries { seen := [], errs := [] } hkerrs hval
    simp only [hi, bne_self_eq_false, hrec]
    exact ⟨_, _, rfl, fun hne => absurd rfl hne, fun _ => by simpa using hf⟩
  · obtain ⟨elts2, st2, hrec, hf⟩ := checkCompositeLitMapElts_tracked h ck ctx env kT eltT
      entries { seen := [], errs := [] } (fun s hs => absurd hs (List.not_mem_nil s))
      (hconst hi) hkerrs hval
    have hb : (kT.Kind != Kind.Interface) = true := by simpa using hi
    simp only [hb, hrec]
    exact ⟨_, _, rfl, fun _ => by simpa using hf, fun he => absurd he hi⟩

/-- C31, at the literals `map[int]int{1: a, 1: b}` and `map[int]int{1: a, 2: b}`
with `a` and `b` variables of type `int`: exactly one `ErrDuplicateMapKey`, at
the second key, for the first, and none for the second. -/
theorem checkCompositeLitMap_duplicate_keys_witness :
    (∃ lit2 errs, checkCompositeLitMap sampleHelpers literalChecker sampleCtx
        (rawLiteral [.KeyValueExpr (rawLit "1") (rawIdent "a"),
          .KeyValueExpr (rawLit "1") (rawIdent "b")])
        (.rtype (.map intType intType)) literalVars = some (lit2, errs) ∧
      errs.filter Err.isErrDuplicateMapKey
        = [.ErrDuplicateMapKey
            (atNode sampleCtx (litNode "1" .ConstInt (numberConst .ConstInt 1)))]) ∧
    (∃ lit2 errs, checkCompositeLitMap sampleHelpers literalChecker sampleCtx
        (rawLiteral [.KeyValueExpr (rawLit "1") (rawIdent "a"),
          .KeyValueExpr (rawLit "2") (rawIdent "b")])
        (.rtype (.map intType intType)) literalVars = some (lit2, errs) ∧
      errs.filter Err.isErrDuplicateMapKey = []) := by
  constructor
  · obtain ⟨lit2, errs, hres, hd, _⟩ :=
      checkCompositeLitMap_duplicate_keys sampleHelpers literalChecker sampleCtx literalVars
        (rawLiteral [.KeyValueExpr (rawLit "1") (rawIdent "a"),
          .KeyValueExpr (rawLit "1") (rawIdent "b")])
        (.rtype (.map intType intType)) intType intType
        [(rawLit "1", rawIdent "a"), (rawLit "1", rawIdent "b")] rfl rfl rfl
        (by
          intro _ p hp
          simp only [List.mem_cons, List.mem_singleton, List.not_mem_nil, or_false] at hp
          rcases hp with rfl | rfl <;>
            exact ⟨rfl, some (.int intType 1), by decide, rfl⟩)
        (by
          intro p hp e he
          simp only [List.mem_cons, List.mem_singleton, List.not_mem_nil, or_false] at hp
          rcases hp with rfl | rfl <;> cases he)
        (by
          intro p hp
          simp only [List.mem_cons, List.mem_singleton, List.not_mem_nil, or_false] at hp
          rcases hp with rfl | rfl <;> exact ⟨_, _, rfl, fun e he => by cases he⟩)
    exact ⟨lit2, errs, hres, (hd (by decide)).trans rfl⟩
  · obtain ⟨lit2, errs, hres, hd, _⟩ :=
      checkCompositeLitMap_duplicate_keys sampleHelpers literalChecker sampleCtx literalVars
        (rawLiteral [.KeyValueExpr (rawLit "1") (rawIdent "a"),
          .KeyValueExpr (rawLit "2") (rawIdent "b")])
        (.rtype (.map intType intType)) intType intType
        [(rawLit "1", rawIdent "a"), (rawLit "2", rawIdent "b")] rfl rfl rfl
        (by
          intro _ p hp
          simp only [List.mem_cons, List.mem_singleton, List.not_mem_nil, or_false] at hp
          rcases hp with rfl | rfl
          · exact ⟨rfl, some (.int intType 1), by decide, rfl⟩
          · exact ⟨rfl, some (.int intType 2), by decide, rfl⟩)
        (by
          intro p hp e he
          simp only [List.mem_cons, List.mem_singleton, List.not_mem_nil, or_false] at hp
          rcases hp with rfl | rfl <;> cases he)
        (by
          intro p hp
          simp only [List.mem_cons, List.mem_singleton, List.not_mem_nil, or_false] at hp
          rcases hp with rfl | rfl <;> exact ⟨_, _, rfl, fun e he => by cases he⟩)
    exact ⟨lit2, errs, hres, (hd (by decide)).trans rfl⟩

/-- A key that the runtime cannot hash makes the statements on the key panic:
so does the constant `[]byte("a")`, a typed constant of the type `[]byte`. -/
theorem checkCompositeLitMapKey_unhashable (h : Helpers) (ck : Checker) (ctx : Ctx) (env : Env)
    (kT : RType) (key : Expr) (st : MapLitState) (t : RType) (s : String)
    (hconst : (ck.checkExprAssignableTo ctx key (.rtype kT) env).1.IsConst = true)
    (hc : constKeyOf h ctx (ck.checkExprAssignableTo ctx key (.rtype kT) env).1
      = some (some (.bytes t s))) :
    checkCompositeLitMapKey h ck ctx env kT true key st = none := by
  unfold checkCompositeLitMapKey
  simp only [hconst, hc, Bool.and_self, ↓reduceIte, mapKeySeen, keyHashable, Bool.false_eq_true]

/-! ## The placement of the elements of array and slice literals -/

/-- A type of array kind has a length. -/
theorem RType.array_has_len : ∀ t : RType, t.Kind = .Array → ∃ n, t.Len = some n
  | .named _ u, h => by
      simp only [RType.Kind] at h
      simpa [RType.Len] using RType.array_has_len u h
  | .array n _, _ => ⟨n, rfl⟩
  | .basic b, h => by cases b <;> cases h
  | .slice _, h => by cases h
  | .chan _, h => by cases h
  | .func _ _ _, h => by cases h
  | .iface _, h => by cases h
  | .map _ _, h => by cases h
  | .ptr _, h => by cases h
  | .struct _, h => by cases h

/-- The statements on an element placed at the current index always return
for an element with a key; for an element without a key they return when the
index is not used yet. They record the index as used and raise the largest
index to it. -/
theorem checkCompositeLitArrayPlace_spec (ctx : Ctx) (t : Ty) (length : Int) (elt : Expr)
    (kvKey : Option Expr) (st : ArrayLitState)
    (hk : kvKey = none → st.used.contains st.curIndex = false) :
    ∃ st1, checkCompositeLitArrayPlace ctx t length elt kvKey st = some st1 ∧
      st1.used = st.curIndex :: st.used ∧ st1.maxIndex = max st.maxIndex st.curIndex ∧
      st1.curIndex = st.curIndex ∧ st1.indices = st.indices := by
  have hmax : (if st.maxIndex < st.curIndex then st.curIndex else st.maxIndex)
      = max st.maxIndex st.curIndex := by
    split
    · exact (max_eq_right (le_of_lt ‹_›)).symm
    · exact (max_eq_left (not_lt.mp ‹_›)).symm
  unfold checkCompositeLitArrayPlace
  simp only [hmax]
  cases hu : st.used.contains st.curIndex
  · simp only [Bool.false_eq_true, ↓reduceIte]
    exact ⟨_, rfl, rfl, rfl, rfl, rfl⟩
  · simp only [↓reduceIte]
    cases kvKey with
    | none => rw [hk rfl] at hu; cases hu
    | some key => exact ⟨_, rfl, rfl, rfl, rfl, rfl⟩

/-- The step of the loop of `checkCompositeLitArrayOrSlice` on an element
without a key. -/
theorem checkCompositeLitArrayElts_unkeyed (h : Helpers) (ck : Checker) (ctx : Ctx) (env : Env)
    (t : Ty) (length : Int) (eltT : RType) (elt : Expr) (rest : List Expr) (i : Nat)
    (st : ArrayLitState) (hkey : elt.isKeyValue = false) :
    checkCompositeLitArrayElts h ck ctx env t length eltT (elt :: rest) i st
      = match checkCompositeLitArrayPlace ctx t length elt none st with
        | none => none
        | some st1 =>
          match checkArrayValue h ck ctx elt eltT env with
          | none => none
          | some (v, verrs) =>
            match checkCompositeLitArrayElts h ck ctx env t length eltT rest (i + 1)
                { st1 with curIndex := wrapSigned 64 (st1.curIndex + 1),
                           errs := if !verrs.isEmpty then st1.errs ++ verrs else st1.errs } with
            | none => none
            | some (rest1, st2) => some (v :: rest1, st2) := by
  cases elt <;> first
    | (simp [Expr.isKeyValue] at hkey; done)
    | (rw [checkCompositeLitArrayElts] <;> first | rfl | (intro _ _ hh; cases hh))

/-- The additions of the loop on an index in the range of `int` below its
largest value do not wrap. -/
theorem wrapSigned_succ (c : Int) (hlo : -(2 ^ 63 : Int) ≤ c) (hhi : c < 2 ^ 63 - 1) :
    wrapSigned 64 (c + 1) = c + 1 :=
  wrapSigned_of_range 64 (c + 1) (by decide) (by norm_num; linarith) (by norm_num; linarith)

/-- Taking one from an index and adding it back gives the index. -/
theorem wrapSigned_pred_succ (c : Int) (hlo : -(2 ^ 63 : Int) ≤ c) (hhi : c < 2 ^ 63) :
    wrapSigned 64 (wrapSigned 64 (c - 1) + 1) = c := by
  unfold wrapSigned
  norm_num
  omega

/-- The loop of `checkCompositeLitArrayOrSlice`, from any state: when the
check of every value returns, no element without a key takes a used index and
the indices stay below the largest `int`, the loop returns; the indices that it
marks as used are the placements of the specification, the largest index is
their maximum, and the pairs added to `lit.indices` are those of the elements
with a valid key. -/
theorem checkCompositeLitArrayElts_placement (h : Helpers) (ck : Checker) (ctx : Ctx) (env : Env)
    (t : Ty) (length : Int) (eltT : RType) :
    ∀ (elts : List Expr) (i : Nat) (st : ArrayLitState),
      (∀ e ∈ elts, ∃ v errs, checkArrayValue h ck ctx (elementValue e) eltT env
        = some (v, errs)) →
      unkeyedFresh (elts.map (arrayKeyOf ck ctx env)) st.curIndex st.used = true →
      (-(2 ^ 63 : Int) ≤ st.curIndex ∧ st.curIndex < 2 ^ 63) →
      (∀ p ∈ (placements (elts.map (arrayKeyOf ck ctx env)) st.curIndex).reduceOption,
        -(2 ^ 63 : Int) ≤ p ∧ p < 2 ^ 63 - 1) →
      ∃ elts2 st2, checkCompositeLitArrayElts h ck ctx env t length eltT elts i st
          = some (elts2, st2) ∧
        st2.used = ((placements (elts.map (arrayKeyOf ck ctx env)) st.curIndex).reduceOption).reverse
          ++ st.used ∧
        st2.maxIndex = ((placements (elts.map (arrayKeyOf ck ctx env))
          st.curIndex).reduceOption).foldl max st.maxIndex ∧
        st2.indices = st.indices ++ keyedIndices (elts.map (arrayKeyOf ck ctx env)) i
  | [], i, st, _, _, _, _ =>
    ⟨[], st, by simp [checkCompositeLitArrayElts, placements, keyedIndices]⟩
  | elt :: rest, i, st, hval, hfresh, hcur, hbound => by
    obtain ⟨v, verrs, hv⟩ := hval elt (List.mem_cons_self _ _)
    have hvalr : ∀ e ∈ rest, ∃ v errs, checkArrayValue h ck ctx (elementValue e) eltT env
        = some (v, errs) := fun e he => hval e (List.mem_cons_of_mem _ he)
    by_cases hkv : elt.isKeyValue = true
    · -- an element with a key
      obtain ⟨key, value, rfl⟩ : ∃ key value, elt = .KeyValueExpr key value := by
        cases elt <;> simp [Expr.isKeyValue] at hkv
        exact ⟨_, _, rfl⟩
      simp only [elementValue] at hv
      by_cases hbad : (!(ck.checkArrayIndex ctx key env).2.2.1 ||
          !(ck.checkArrayIndex ctx key env).2.2.2.isEmpty) = true
      · -- the key is not valid
        have hkey : arrayKeyOf ck ctx env (.KeyValueExpr key value) = some none := by
          simp only [arrayKeyOf, hbad, ↓reduceIte]
        simp only [List.map_cons, hkey, unkeyedFresh, placements, List.reduceOption_cons_of_none,
          keyedIndices] at hfresh hbound ⊢
        obtain ⟨elts2, st2, hrec, hu, hm, hi⟩ :=
          checkCompositeLitArrayElts_placement h ck ctx env t length eltT rest (i + 1)
            { st with curIndex := st.curIndex,
                      errs :=
                        if !verrs.isEmpty then
                          (st.errs ++ (ck.checkArrayIndex ctx key env).2.2.2.filter
                            Err.isErrUndefined ++
                            [.ErrBadArrayKey (atNode ctx (ck.checkArrayIndex ctx key env).1)])
                            ++ verrs
                        else
                          st.errs ++ (ck.checkArrayIndex ctx key env).2.2.2.filter
                            Err.isErrUndefined ++
                            [.ErrBadArrayKey (atNode ctx (ck.checkArrayIndex ctx key env).1)] }
            hvalr hfresh hcur hbound
        refine ⟨.KeyValueExpr (ck.checkArrayIndex ctx key env).1 v :: elts2, st2, ?_, hu, hm, hi⟩
        rw [checkCompositeLitArrayElts]
        simp only [hbad, ↓reduceIte, hv, wrapSigned_pred_succ st.curIndex hcur.1 hcur.2, hrec]
      · -- the key is valid
        have hkey : arrayKeyOf ck ctx env (.KeyValueExpr key value)
            = some (some (ck.checkArrayIndex ctx key env).2.1) := by
          simp only [arrayKeyOf, hbad, Bool.false_eq_true, ↓reduceIte]
        simp only [List.map_cons, hkey, unkeyedFresh, placements, List.reduceOption_cons_of_some,
          keyedIndices, List.mem_cons, forall_eq_or_imp] at hfresh hbound ⊢
        obtain ⟨st1, hp, hu1, hm1, hc1, hi1⟩ := checkCompositeLitArrayPlace_spec ctx t length
          (.KeyValueExpr (ck.checkArrayIndex ctx key env).1 value)
          (some (ck.checkArrayIndex ctx key env).1)
          { st with indices := st.indices ++ [((i : Int), (ck.checkArrayIndex ctx key env).2.1)],
                    curIndex := (ck.checkArrayIndex ctx key env).2.1 }
          (fun hf => Option.noConfusion hf)
        simp only at hu1 hm1 hc1 hi1
        have hnext : wrapSigned 64 (st1.curIndex + 1) = (ck.checkArrayIndex ctx key env).2.1 + 1 := by
          rw [hc1]
          exact wrapSigned_succ _ hbound.1.1 hbound.1.2
        obtain ⟨elts2, st2, hrec, hu, hm, hi⟩ :=
          checkCompositeLitArrayElts_placement h ck ctx env t length eltT rest (i + 1)
            { st1 with curIndex := (ck.checkArrayIndex ctx key env).2.1 + 1,
                       errs := if !verrs.isEmpty then st1.errs ++ verrs else st1.errs }
            hvalr (by simpa only [hu1] using hfresh)
            ⟨by have := hbound.1.1; simp only; linarith, by have := hbound.1.2; simp only; linarith⟩
            hbound.2
        simp only [hu1, hm1, hi1] at hu hm hi
        refine ⟨.KeyValueExpr (ck.checkArrayIndex ctx key env).1 v :: elts2, st2, ?_, ?_, ?_, ?_⟩
        · rw [checkCompositeLitArrayElts]
          simp only [hbad, Bool.false_eq_true, ↓reduceIte, hp, hv, hnext, hrec]
        · rw [hu]
          simp
        · rw [hm]
          simp
        · rw [hi]
          simp
    · -- an element without a key
      have hkv2 : elt.isKeyValue = false := by simpa using hkv
      have hkey : arrayKeyOf ck ctx env elt = none := by
        cases elt <;> first
          | (simp [Expr.isKeyValue] at hkv2; done)
          | rfl
      have hev : elementValue elt = elt := by
        cases elt <;> first
          | (simp [Expr.isKeyValue] at hkv2; done)
          | rfl
      rw [hev] at hv
      simp only [List.map_cons, hkey, unkeyedFresh, placements, List.reduceOption_cons_of_some,
        keyedIndices, List.mem_cons, forall_eq_or_imp, Bool.and_eq_true, Bool.not_eq_true_eq_eq_false,
        Bool.not_eq_eq_eq_not, Bool.not_true] at hfresh hbound ⊢
      obtain ⟨st1, hp, hu1, hm1, hc1, hi1⟩ := checkCompositeLitArrayPlace_spec ctx t length
        elt none st (fun _ => hfresh.1)
      have hnext : wrapSigned 64 (st1.curIndex + 1) = st.curIndex + 1 := by
        rw [hc1]
        exact wrapSigned_succ _ hbound.1.1 hbound.1.2
      obtain ⟨elts2, st2, hrec, hu, hm, hi⟩ :=
        checkCompositeLitArrayElts_placement h ck ctx env t length eltT rest (i + 1)
          { st1 with curIndex := st.curIndex + 1,
                     errs := if !verrs.isEmpty then st1.errs ++ verrs else st1.errs }
          hvalr (by simpa only [hu1] using hfresh.2)
          ⟨by have := hbound.1.1; simp only; linarith, by have := hbound.1.2; simp only; linarith⟩
          hbound.2
      simp only [hu1, hm1, hi1] at hu hm hi
      refine ⟨v :: elts2, st2, ?_, ?_, ?_, hi⟩
      · rw [checkCompositeLitArrayElts_unkeyed h ck ctx env t length eltT elt rest i st hkv2]
        simp only [hp, hv, hnext, hrec]
      · rw [hu]
        simp
      · rw [hm]
        simp

/-- C32: for an array or slice literal, when the check of every value
returns, no element without a key takes an index already used and the indices
stay below the largest `int`: `checkCompositeLitArrayOrSlice` returns; the
indices that its loop gives the elements are the placements of the
specification, an element with a valid key at the keyed index and an element
without a key at the index following that of the previous element; the pairs
recorded in `lit.indices` are those of the elements with a valid key; and
`lit.length` is the declared length for an array, the largest index given to
an element plus one for a slice, 0 for a slice literal without elements. -/
theorem checkCompositeLitArrayOrSlice_placement (h : Helpers) (ck : Checker) (ctx : Ctx)
    (env : Env) (lit : CompositeLit) (rt eltT : RType)
    (hkind : rt.Kind = .Array ∨ rt.Kind = .Slice)
    (hE : rt.Elem = some eltT)
    (hval : ∀ e ∈ lit.Elts, ∃ v errs, checkArrayValue h ck ctx (elementValue e) eltT env
      = some (v, errs))
    (hfresh : unkeyedFresh (lit.Elts.map (arrayKeyOf ck ctx env)) 0 [] = true)
    (hbound : ∀ p ∈ (placements (lit.Elts.map (arrayKeyOf ck ctx env)) 0).reduceOption,
      -(2 ^ 63 : Int) ≤ p ∧ p < 2 ^ 63 - 1) :
    ∃ len elts2 st lit2 errs,
      checkCompositeLitArrayElts h ck ctx env (.rtype rt) len eltT lit.Elts 0
          { maxIndex := -1, curIndex := 0, outOfBounds := false, used := [],
            indices := lit.indices, errs := [] } = some (elts2, st) ∧
      st.used.reverse = (placements (lit.Elts.map (arrayKeyOf ck ctx env)) 0).reduceOption ∧
      checkCompositeLitArrayOrSlice h ck ctx lit (.rtype rt) env = some (lit2, errs) ∧
      lit2.Elts = elts2 ∧ errs = st.errs ∧
      lit2.indices = lit.indices ++ keyedIndices (lit.Elts.map (arrayKeyOf ck ctx env)) 0
        ++ [(-1, -1)] ∧
      (rt.Kind = .Array → some lit2.length = rt.Len.map Int.ofNat) ∧
      (rt.Kind = .Slice →
        lit2.length = ((placements (lit.Elts.map (arrayKeyOf ck ctx env)) 0).reduceOption).foldl
          max (-1) + 1) ∧
      (rt.Kind = .Slice → lit.Elts = [] → lit2.length = 0) := by
  have hloop := fun len => checkCompositeLitArrayElts_placement h ck ctx env (.rtype rt) len eltT
    lit.Elts 0
    { maxIndex := -1, curIndex := 0, outOfBounds := false, used := [],
      indices := lit.indices, errs := [] } hval hfresh ⟨by norm_num, by norm_num⟩ hbound
  have hmaxb : ∀ (l : List Int) (m : Int), -(2 ^ 63 : Int) ≤ m → m < 2 ^ 63 - 1 →
      (∀ p ∈ l, -(2 ^ 63 : Int) ≤ p ∧ p < 2 ^ 63 - 1) →
      -(2 ^ 63 : Int) ≤ l.foldl max m ∧ l.foldl max m < 2 ^ 63 - 1 := by
    intro l
    induction l with
    | nil => intro m h1 h2 _; exact ⟨h1, h2⟩
    | cons a l ih =>
      intro m h1 h2 hl
      simp only [List.foldl_cons]
      have ha := hl a (List.mem_cons_self _ _)
      refine ih (max m a) (le_trans h1 (le_max_left _ _)) (max_lt h2 ha.2)
        (fun p hp => hl p (List.mem_cons_of_mem _ hp))
  unfold checkCompositeLitArrayOrSlice
  simp only [Ty.Elem, hE, Ty.Kind_rtype, Ty.Len]
  rcases hkind with hk | hk
  · obtain ⟨n, hn⟩ := RType.array_has_len rt hk
    obtain ⟨elts2, st2, hrec, hu, hm, hi⟩ := hloop (Int.ofNat n)
    simp only [hk, hn, Option.map_some', hrec]
    have hne : ((Int.ofNat n == -1) = false) := by
      simp only [beq_eq_false_iff_ne, ne_eq]
      have : (0 : Int) ≤ Int.ofNat n := Int.ofNat_nonneg n
      omega
    refine ⟨Int.ofNat n, elts2, st2, _, _, hrec, ?_, rfl, rfl, rfl, ?_, ?_, ?_, ?_⟩
    · rw [hu]; simp
    · simp only [hi, List.append_assoc]
    · intro _
      simp only [hne, Bool.false_eq_true, ↓reduceIte]
    · intro hs; cases hs
    · intro hs; cases hs
  · obtain ⟨elts2, st2, hrec, hu, hm, hi⟩ := hloop (-1)
    simp only [hk, hrec]
    have hmb := hmaxb _ (-1) (by norm_num) (by norm_num) hbound
    have hlen : wrapSigned 64 (st2.maxIndex + 1)
        = ((placements (lit.Elts.map (arrayKeyOf ck ctx env)) 0).reduceOption).foldl max (-1)
          + 1 := by
      rw [hm]
      exact wrapSigned_succ _ hmb.1 hmb.2
    refine ⟨-1, elts2, st2, _, _, hrec, ?_, rfl, rfl, rfl, ?_, ?_, ?_, ?_⟩
    · rw [hu]; simp
    · simp only [hi, List.append_assoc]
    · intro ha; cases ha
    · intro _
      simp only [beq_self_eq_true, ↓reduceIte, hlen]
    · intro _ hnil
      simp only [beq_self_eq_true, ↓reduceIte, hlen, hnil, List.map_nil, placements,
        List.reduceOption_nil, List.foldl_nil]
      rfl

/-- C32, at the literal `[]int{1, 2: 1, 1}`: the elements are given the
indices 0, 2 and 3, the index recorded for the element with a key is 2, and
the length is 4. -/
theorem checkCompositeLitArrayOrSlice_placement_witness :
    (placements ([rawLit "1", .KeyValueExpr (rawLit "2") (rawLit "1"), rawLit "1"].map
        (arrayKeyOf literalChecker sampleCtx literalVars)) 0).reduceOption = [0, 2, 3] ∧
    ∃ lit2 errs, checkCompositeLitArrayOrSlice sampleHelpers literalChecker sampleCtx
        (rawLiteral [rawLit "1", .KeyValueExpr (rawLit "2") (rawLit "1"), rawLit "1"])
        (.rtype (.slice intType)) literalVars = some (lit2, errs) ∧
      lit2.indices = [(1, 2), (-1, -1)] ∧ lit2.length = 4 := by
  obtain ⟨_, _, _, lit2, errs, _, _, hres, _, _, hi, _, hl, _⟩ :=
    checkCompositeLitArrayOrSlice_placement sampleHelpers literalChecker sampleCtx literalVars
      (rawLiteral [rawLit "1", .KeyValueExpr (rawLit "2") (rawLit "1"), rawLit "1"])
      (.slice intType) intType (Or.inr rfl) rfl
      (by
        intro e he
        simp only [rawLiteral, List.mem_cons, List.mem_singleton, List.not_mem_nil,
          or_false] at he
        rcases he with rfl | rfl | rfl <;> exact ⟨_, _, rfl⟩)
      (by decide) (by decide)
  exact ⟨by decide, lit2, errs, hres, hi, hl rfl⟩

end GoEval
